import Mathlib

/-!
# Kiara-orm: dialects, query builder, bulk writer, migrator, paginator and model handler

A shallow embedding of `types/mapping.go`, `dialect/{dialect,mysql,postgres,sqlite}.go`,
`query/{builder,executor}.go`, `bulk/operations.go`, `schema/{migration,parser}.go`,
`pagination/paginator.go`, `validator/validator.go`, `hooks/hooks.go`, `cache/cache.go`,
`scope/scope.go`, `transaction/manager.go` and `session/{manager,model}.go`, followed by
the properties established about them.

Conventions of the embedding
* Go `string` is `String`; `+`, `strings.Builder.WriteString` and the `%s` verb are `++`.
* Go `int` is `Int`; the `%d` verb is `toString` on `Int` (decimal, leading `-` when negative).
* `strings.Join(elems, sep)` is `stringsJoin elems sep`.
* A method with a pointer receiver that mutates and returns the receiver is a function
  from the old state to the new state.
* `interface{}` parameter values are never inspected by the builder; they are carried as `Value`.
* Where a Go `int` result can leave the 64-bit range it is reduced by `wrapInt64`.
* A database handle is a function of the calls made on it so far; code that uses one returns
  the calls made together with its `error` result.
* `float64` values are the rationals they denote; each operation rounds as IEEE 754 does.
* A struct value seen through `reflect` is a `Struct`: the name of its type and, per field,
  the name, package path, type text, tag and value.
* A callback (hook, scope, custom rule) is a function; a hook maps the record it is handed
  to the record it leaves and its `error` result.
* A call that can panic ends in an `Outcome`; the steps before the panic are kept.
* An `error` is its text, an `Error`; where the code hands an error value on, in the
  transaction manager, it is an `ErrorValue`, a text with the chain that `Unwrap` walks.
* An instant is its `UnixNano` count, an `Int`; `time.Now()` is a parameter `now`.
* The `*sql.Tx` that `BeginTx` hands out is represented by the handle it was begun on; the
  transaction steps made so far are a `List TxEvent`.
* Calls on the logger and on the metrics collector are left out.
-/

namespace Kiara

/-! ## Go library helpers -/

/-- Go `strings.Join`: the elements separated by `sep`; empty for no element. -/
def stringsJoin : List String → String → String
  | [], _ => ""
  | [a], _ => a
  | a :: b :: rest, sep => a ++ sep ++ stringsJoin (b :: rest) sep

/-! ## types/mapping.go -/

/-- Go `types.DataType` (an `int` enumeration starting at `Unknown = iota`). Values outside the
enumeration reach the same `default` branch as `Unknown` in every switch of the dialects. -/
inductive DataType where
  | Unknown
  | Integer
  | Float
  | Text
  | Boolean
  | DateTime
  | Date
  | Time
deriving DecidableEq, Repr

/-- Go `types.FieldMapping`; the field `Type` is spelled `Type_`, `Type` being reserved. -/
structure FieldMapping where
  Name : String
  Type_ : DataType
  Size : Int
  IsPrimaryKey : Bool
  IsAutoInc : Bool
  IsNullable : Bool
  IsUnique : Bool
deriving DecidableEq, Repr

/-- Go `types.TableMapping`. -/
structure TableMapping where
  TableName : String
  Fields : List FieldMapping
deriving DecidableEq, Repr

/-! ## dialect/dialect.go -/

/-- Go interface `dialect.Dialect`: one field per method. -/
structure Dialect where
  GetDataTypeSQL : FieldMapping → String
  Quote : String → String
  Placeholder : Int → String
  AutoIncrementSQL : String
  CreateTableSQL : TableMapping → String
  AddColumnSQL : String → FieldMapping → String
  DropColumnSQL : String → String → String
  CreateIndexSQL : String → String → List String → Bool → String

/-- The state of the loop `for _, field := range table.Fields` shared by the three
`CreateTableSQL` methods: the local slices `columns` and `primaryKeys`. -/
structure CreateTableLoop where
  columns : List String
  primaryKeys : List String
deriving DecidableEq, Repr

/-! ## dialect/mysql.go -/

namespace MySQL

/-- Go `(*MySQL).GetDataTypeSQL`. -/
def GetDataTypeSQL (field : FieldMapping) : String :=
  match field.Type_ with
  | .Integer => if field.IsAutoInc then "INT" else "INTEGER"
  | .Float => "DOUBLE"
  | .Text => if field.Size > 0 then "VARCHAR(" ++ toString field.Size ++ ")" else "TEXT"
  | .Boolean => "BOOLEAN"
  | .DateTime => "DATETIME"
  | .Date => "DATE"
  | .Time => "TIME"
  | .Unknown => "TEXT"

/-- Go `(*MySQL).Quote`. -/
def Quote (identifier : String) : String :=
  "`" ++ identifier ++ "`"

/-- Go `(*MySQL).Placeholder`. -/
def Placeholder (_ : Int) : String :=
  "?"

/-- Go `(*MySQL).AutoIncrementSQL`. -/
def AutoIncrementSQL : String :=
  "AUTO_INCREMENT"

/-- The value of the local `column` at the end of one iteration of the field loop of
`(*MySQL).CreateTableSQL`. -/
def columnDef (field : FieldMapping) : String :=
  let column := "  " ++ Quote field.Name ++ " " ++ GetDataTypeSQL field
  let column := if !field.IsNullable then column ++ " NOT NULL" else column
  let column := if field.IsAutoInc then column ++ (" " ++ AutoIncrementSQL) else column
  let column := if field.IsUnique then column ++ " UNIQUE" else column
  column

/-- One iteration of the field loop of `(*MySQL).CreateTableSQL`. -/
def loopStep (st : CreateTableLoop) (field : FieldMapping) : CreateTableLoop :=
  let primaryKeys :=
    if field.IsPrimaryKey then st.primaryKeys ++ [Quote field.Name] else st.primaryKeys
  { columns := st.columns ++ [columnDef field], primaryKeys := primaryKeys }

/-- Go `(*MySQL).CreateTableSQL`. -/
def CreateTableSQL (table : TableMapping) : String :=
  let builder := "CREATE TABLE IF NOT EXISTS "
  let builder := builder ++ Quote table.TableName
  let builder := builder ++ " (\n"
  let st := table.Fields.foldl loopStep { columns := [], primaryKeys := [] }
  let columns :=
    if st.primaryKeys.length > 0 then
      st.columns ++ ["  PRIMARY KEY (" ++ stringsJoin st.primaryKeys ", " ++ ")"]
    else st.columns
  let builder := builder ++ stringsJoin columns ",\n"
  let builder := builder ++ "\n) ENGINE=InnoDB DEFAULT CHARSET=utf8mb4 COLLATE=utf8mb4_unicode_ci;"
  builder

/-- Go `(*MySQL).AddColumnSQL`. -/
def AddColumnSQL (table : String) (field : FieldMapping) : String :=
  let builder := "ALTER TABLE "
  let builder := builder ++ Quote table
  let builder := builder ++ " ADD COLUMN "
  let builder := builder ++ Quote field.Name
  let builder := builder ++ " "
  let builder := builder ++ GetDataTypeSQL field
  let builder := if !field.IsNullable then builder ++ " NOT NULL" else builder
  let builder := if field.IsUnique then builder ++ " UNIQUE" else builder
  builder

/-- Go `(*MySQL).DropColumnSQL`. -/
def DropColumnSQL (table column : String) : String :=
  "ALTER TABLE " ++ Quote table ++ " DROP COLUMN " ++ Quote column

/-- Go `(*MySQL).CreateIndexSQL`. -/
def CreateIndexSQL (table indexName : String) (columns : List String) (unique : Bool) : String :=
  let builder := "CREATE "
  let builder := if unique then builder ++ "UNIQUE " else builder
  let builder := builder ++ "INDEX "
  let builder := builder ++ Quote indexName
  let builder := builder ++ " ON "
  let builder := builder ++ Quote table
  let builder := builder ++ " ("
  let builder := builder ++ stringsJoin (columns.map Quote) ", "
  let builder := builder ++ ")"
  builder

end MySQL

/-- Go `NewMySQL`: the MySQL implementation of `Dialect` (D1). -/
def NewMySQL : Dialect where
  GetDataTypeSQL := MySQL.GetDataTypeSQL
  Quote := MySQL.Quote
  Placeholder := MySQL.Placeholder
  AutoIncrementSQL := MySQL.AutoIncrementSQL
  CreateTableSQL := MySQL.CreateTableSQL
  AddColumnSQL := MySQL.AddColumnSQL
  DropColumnSQL := MySQL.DropColumnSQL
  CreateIndexSQL := MySQL.CreateIndexSQL

/-! ## dialect/postgres.go -/

namespace PostgreSQL

/-- Go `(*PostgreSQL).GetDataTypeSQL`. -/
def GetDataTypeSQL (field : FieldMapping) : String :=
  match field.Type_ with
  | .Integer => if field.IsAutoInc then "SERIAL" else "INTEGER"
  | .Float => "DOUBLE PRECISION"
  | .Text => if field.Size > 0 then "VARCHAR(" ++ toString field.Size ++ ")" else "TEXT"
  | .Boolean => "BOOLEAN"
  | .DateTime => "TIMESTAMP"
  | .Date => "DATE"
  | .Time => "TIME"
  | .Unknown => "TEXT"

/-- Go `(*PostgreSQL).Quote`. -/
def Quote (identifier : String) : String :=
  "\"" ++ identifier ++ "\""

/-- Go `(*PostgreSQL).Placeholder`. -/
def Placeholder (index : Int) : String :=
  "$" ++ toString index

/-- Go `(*PostgreSQL).AutoIncrementSQL`. -/
def AutoIncrementSQL : String :=
  ""

/-- The value of the local `column` at the end of one iteration of the field loop of
`(*PostgreSQL).CreateTableSQL`. -/
def columnDef (field : FieldMapping) : String :=
  let column := "  " ++ Quote field.Name ++ " " ++ GetDataTypeSQL field
  let column := if !field.IsNullable then column ++ " NOT NULL" else column
  let column := if field.IsUnique then column ++ " UNIQUE" else column
  column

/-- One iteration of the field loop of `(*PostgreSQL).CreateTableSQL`. -/
def loopStep (st : CreateTableLoop) (field : FieldMapping) : CreateTableLoop :=
  let primaryKeys :=
    if field.IsPrimaryKey then st.primaryKeys ++ [Quote field.Name] else st.primaryKeys
  { columns := st.columns ++ [columnDef field], primaryKeys := primaryKeys }

/-- Go `(*PostgreSQL).CreateTableSQL`. -/
def CreateTableSQL (table : TableMapping) : String :=
  let builder := "CREATE TABLE IF NOT EXISTS "
  let builder := builder ++ Quote table.TableName
  let builder := builder ++ " (\n"
  let st := table.Fields.foldl loopStep { columns := [], primaryKeys := [] }
  let columns :=
    if st.primaryKeys.length > 0 then
      st.columns ++ ["  PRIMARY KEY (" ++ stringsJoin st.primaryKeys ", " ++ ")"]
    else st.columns
  let builder := builder ++ stringsJoin columns ",\n"
  let builder := builder ++ "\n);"
  builder

/-- Go `(*PostgreSQL).AddColumnSQL`. -/
def AddColumnSQL (table : String) (field : FieldMapping) : String :=
  let builder := "ALTER TABLE "
  let builder := builder ++ Quote table
  let builder := builder ++ " ADD COLUMN "
  let builder := builder ++ Quote field.Name
  let builder := builder ++ " "
  let builder := builder ++ GetDataTypeSQL field
  let builder := if !field.IsNullable then builder ++ " NOT NULL" else builder
  let builder := if field.IsUnique then builder ++ " UNIQUE" else builder
  builder

/-- Go `(*PostgreSQL).DropColumnSQL`. -/
def DropColumnSQL (table column : String) : String :=
  "ALTER TABLE " ++ Quote table ++ " DROP COLUMN " ++ Quote column

/-- Go `(*PostgreSQL).CreateIndexSQL`. -/
def CreateIndexSQL (table indexName : String) (columns : List String) (unique : Bool) : String :=
  let builder := "CREATE "
  let builder := if unique then builder ++ "UNIQUE " else builder
  let builder := builder ++ "INDEX "
  let builder := builder ++ Quote indexName
  let builder := builder ++ " ON "
  let builder := builder ++ Quote table
  let builder := builder ++ " ("
  let builder := builder ++ stringsJoin (columns.map Quote) ", "
  let builder := builder ++ ")"
  builder

end PostgreSQL

/-- Go `NewPostgreSQL`: the PostgreSQL implementation of `Dialect` (D2). -/
def NewPostgreSQL : Dialect where
  GetDataTypeSQL := PostgreSQL.GetDataTypeSQL
  Quote := PostgreSQL.Quote
  Placeholder := PostgreSQL.Placeholder
  AutoIncrementSQL := PostgreSQL.AutoIncrementSQL
  CreateTableSQL := PostgreSQL.CreateTableSQL
  AddColumnSQL := PostgreSQL.AddColumnSQL
  DropColumnSQL := PostgreSQL.DropColumnSQL
  CreateIndexSQL := PostgreSQL.CreateIndexSQL

/-! ## dialect/sqlite.go -/

namespace SQLite

/-- Go `(*SQLite).GetDataTypeSQL`. -/
def GetDataTypeSQL (field : FieldMapping) : String :=
  match field.Type_ with
  | .Integer => "INTEGER"
  | .Float => "REAL"
  | .Text => if field.Size > 0 then "VARCHAR(" ++ toString field.Size ++ ")" else "TEXT"
  | .Boolean => "BOOLEAN"
  | .DateTime => "DATETIME"
  | .Date => "DATE"
  | .Time => "TIME"
  | .Unknown => "TEXT"

/-- Go `(*SQLite).Quote`. -/
def Quote (identifier : String) : String :=
  "\"" ++ identifier ++ "\""

/-- Go `(*SQLite).Placeholder`. -/
def Placeholder (_ : Int) : String :=
  "?"

/-- Go `(*SQLite).AutoIncrementSQL`. -/
def AutoIncrementSQL : String :=
  "AUTOINCREMENT"

/-- The value of the local `column` at the end of one iteration of the field loop of
`(*SQLite).CreateTableSQL`. -/
def columnDef (field : FieldMapping) : String :=
  let column := "  " ++ Quote field.Name ++ " " ++ GetDataTypeSQL field
  let column := if !field.IsNullable then column ++ " NOT NULL" else column
  let column :=
    if field.IsAutoInc then
      let column := if field.IsPrimaryKey then column ++ " PRIMARY KEY" else column
      column ++ (" " ++ AutoIncrementSQL)
    else column
  let column := if field.IsUnique then column ++ " UNIQUE" else column
  column

/-- One iteration of the field loop of `(*SQLite).CreateTableSQL`. -/
def loopStep (st : CreateTableLoop) (field : FieldMapping) : CreateTableLoop :=
  let primaryKeys :=
    if field.IsPrimaryKey && !field.IsAutoInc then st.primaryKeys ++ [Quote field.Name]
    else st.primaryKeys
  { columns := st.columns ++ [columnDef field], primaryKeys := primaryKeys }

/-- Go `(*SQLite).CreateTableSQL`. -/
def CreateTableSQL (table : TableMapping) : String :=
  let builder := "CREATE TABLE IF NOT EXISTS "
  let builder := builder ++ Quote table.TableName
  let builder := builder ++ " (\n"
  let st := table.Fields.foldl loopStep { columns := [], primaryKeys := [] }
  let columns :=
    if st.primaryKeys.length > 0 then
      st.columns ++ ["  PRIMARY KEY (" ++ stringsJoin st.primaryKeys ", " ++ ")"]
    else st.columns
  let builder := builder ++ stringsJoin columns ",\n"
  let builder := builder ++ "\n);"
  builder

/-- Go `(*SQLite).AddColumnSQL`. -/
def AddColumnSQL (table : String) (field : FieldMapping) : String :=
  let builder := "ALTER TABLE "
  let builder := builder ++ Quote table
  let builder := builder ++ " ADD COLUMN "
  let builder := builder ++ Quote field.Name
  let builder := builder ++ " "
  let builder := builder ++ GetDataTypeSQL field
  let builder := if !field.IsNullable then builder ++ " NOT NULL" else builder
  let builder := if field.IsUnique then builder ++ " UNIQUE" else builder
  builder

/-- Go `(*SQLite).DropColumnSQL`: the table argument is unused; the result is two SQL comment
lines naming the quoted column. -/
def DropColumnSQL (_table column : String) : String :=
  "-- SQLite não suporta DROP COLUMN diretamente.\n" ++
    "-- É necessário recriar a tabela sem a coluna " ++ Quote column

/-- Go `(*SQLite).CreateIndexSQL`. -/
def CreateIndexSQL (table indexName : String) (columns : List String) (unique : Bool) : String :=
  let builder := "CREATE "
  let builder := if unique then builder ++ "UNIQUE " else builder
  let builder := builder ++ "INDEX "
  let builder := builder ++ Quote indexName
  let builder := builder ++ " ON "
  let builder := builder ++ Quote table
  let builder := builder ++ " ("
  let builder := builder ++ stringsJoin (columns.map Quote) ", "
  let builder := builder ++ ")"
  builder

end SQLite

/-- Go `NewSQLite`: the SQLite implementation of `Dialect` (D3). -/
def NewSQLite : Dialect where
  GetDataTypeSQL := SQLite.GetDataTypeSQL
  Quote := SQLite.Quote
  Placeholder := SQLite.Placeholder
  AutoIncrementSQL := SQLite.AutoIncrementSQL
  CreateTableSQL := SQLite.CreateTableSQL
  AddColumnSQL := SQLite.AddColumnSQL
  DropColumnSQL := SQLite.DropColumnSQL
  CreateIndexSQL := SQLite.CreateIndexSQL

/-! ## query/builder.go -/

/-- Go `query.Operation`, a string type: any string converts to it. -/
abbrev Operation := String

/-- Go `OpEq`. -/
def OpEq : Operation := "="
/-- Go `OpNe`. -/
def OpNe : Operation := "<>"
/-- Go `OpGt`. -/
def OpGt : Operation := ">"
/-- Go `OpGe`. -/
def OpGe : Operation := ">="
/-- Go `OpLt`. -/
def OpLt : Operation := "<"
/-- Go `OpLe`. -/
def OpLe : Operation := "<="
/-- Go `OpLike`. -/
def OpLike : Operation := "LIKE"
/-- Go `OpILike`. -/
def OpILike : Operation := "ILIKE"
/-- Go `OpIn`. -/
def OpIn : Operation := "IN"

/-- A Go `interface{}` value handed to the builder as a query parameter, or held by a struct
field: `nil` (also a nil pointer), a `bool`, an `int` or `int64`, a `string`, a `time.Time`
given by its Unix time in nanoseconds, or an `int32`, which stands for the integer kinds
other than `int` and `int64`. -/
inductive Value where
  | null
  | bool (b : Bool)
  | int (n : Int)
  | str (s : String)
  | time (unixNano : Int)
  | int32 (n : Int)
deriving DecidableEq, Repr

/-- Go `query.Condition`. -/
structure Condition where
  Column : String
  Operation : Operation
  Value : Value
deriving DecidableEq, Repr

/-- Go `query.Builder`. A nil `*int` is `none`; a nil slice is `[]`. -/
structure Builder where
  dialect : Dialect
  table : String
  columns : List String
  conditions : List Condition
  orderBy : List String
  limit : Option Int
  offset : Option Int
  params : List Value
  joins : List String
  groupBy : List String
  having : List Condition

/-- Go `NewBuilder`. -/
def NewBuilder (dialect : Dialect) : Builder where
  dialect := dialect
  table := ""
  columns := []
  conditions := []
  orderBy := []
  limit := none
  offset := none
  params := []
  joins := []
  groupBy := []
  having := []

namespace Builder

/-- Go `(*Builder).Table`. -/
def Table (b : Builder) (table : String) : Builder :=
  { b with table := table }

/-- Go `(*Builder).Select`. -/
def Select (b : Builder) (columns : List String) : Builder :=
  { b with columns := b.columns ++ columns }

/-- Go `(*Builder).Where`. -/
def Where (b : Builder) (column : String) (op : Operation) (value : Value) : Builder :=
  { b with
    conditions := b.conditions ++ [{ Column := column, Operation := op, Value := value }]
    params := b.params ++ [value] }

/-- Go `(*Builder).OrderBy`. -/
def OrderBy (b : Builder) (column : String) (desc : Bool) : Builder :=
  let order := b.dialect.Quote column
  let order := if desc then order ++ " DESC" else order
  { b with orderBy := b.orderBy ++ [order] }

/-- Go `(*Builder).Limit`. -/
def Limit (b : Builder) (limit : Int) : Builder :=
  { b with limit := some limit }

/-- Go `(*Builder).Offset`. -/
def Offset (b : Builder) (offset : Int) : Builder :=
  { b with offset := some offset }

/-- Go `(*Builder).Join`. -/
def Join (b : Builder) (joinType table condition : String) : Builder :=
  let join := joinType ++ " JOIN " ++ b.dialect.Quote table ++ " ON " ++ condition
  { b with joins := b.joins ++ [join] }

/-- Go `(*Builder).GroupBy`: the loop appends the quoted columns one by one. -/
def GroupBy (b : Builder) (columns : List String) : Builder :=
  columns.foldl (fun b col => { b with groupBy := b.groupBy ++ [b.dialect.Quote col] }) b

/-- Go `(*Builder).Having`. -/
def Having (b : Builder) (column : String) (op : Operation) (value : Value) : Builder :=
  { b with
    having := b.having ++ [{ Column := column, Operation := op, Value := value }]
    params := b.params ++ [value] }

/-- The two condition loops of `BuildSelect`, from index `i` on: entry `i` of the result slice
is `Sprintf("%s %s %s", Quote(cond.Column), cond.Operation, Placeholder(paramOffset+i+1))`.
The WHERE loop is the instance `paramOffset = 0`. -/
def renderConditions (d : Dialect) (paramOffset : Nat) : Nat → List Condition → List String
  | _, [] => []
  | i, cond :: rest =>
    (d.Quote cond.Column ++ " " ++ cond.Operation ++ " " ++
        d.Placeholder ((paramOffset + i + 1 : Nat) : Int)) ::
      renderConditions d paramOffset (i + 1) rest

/-- The local slice `whereConditions` of `BuildSelect`. -/
def whereConditions (b : Builder) : List String :=
  renderConditions b.dialect 0 0 b.conditions

/-- The local slice `havingConditions` of `BuildSelect`. -/
def havingConditions (b : Builder) : List String :=
  let paramOffset := b.conditions.length
  renderConditions b.dialect paramOffset 0 b.having

/-- Go `(*Builder).BuildSelect`. -/
def BuildSelect (b : Builder) : String × List Value :=
  let builder := "SELECT "
  let builder :=
    if b.columns.length = 0 then builder ++ "*"
    else builder ++ stringsJoin (b.columns.map b.dialect.Quote) ", "
  let builder := builder ++ " FROM "
  let builder := builder ++ b.dialect.Quote b.table
  let builder :=
    if b.joins.length > 0 then builder ++ " " ++ stringsJoin b.joins " " else builder
  let builder :=
    if b.conditions.length > 0 then
      builder ++ " WHERE " ++ stringsJoin (whereConditions b) " AND "
    else builder
  let builder :=
    if b.groupBy.length > 0 then builder ++ " GROUP BY " ++ stringsJoin b.groupBy ", "
    else builder
  let builder :=
    if b.having.length > 0 then
      builder ++ " HAVING " ++ stringsJoin (havingConditions b) " AND "
    else builder
  let builder :=
    if b.orderBy.length > 0 then builder ++ " ORDER BY " ++ stringsJoin b.orderBy ", "
    else builder
  let builder :=
    match b.limit with
    | some limit => builder ++ (" LIMIT " ++ toString limit)
    | none => builder
  let builder :=
    match b.offset with
    | some offset => builder ++ (" OFFSET " ++ toString offset)
    | none => builder
  (builder, b.params)

end Builder

/-! ## Call sequences on a builder -/

/-- The nine clause-accumulating methods of `Builder` as data: one constructor per method,
carrying the arguments of the call. -/
inductive Call where
  | Table (table : String)
  | Select (columns : List String)
  | Where (column : String) (op : Operation) (value : Value)
  | OrderBy (column : String) (desc : Bool)
  | Limit (limit : Int)
  | Offset (offset : Int)
  | Join (joinType table condition : String)
  | GroupBy (columns : List String)
  | Having (column : String) (op : Operation) (value : Value)
deriving DecidableEq, Repr

/-- The clause kinds, one per builder method. -/
inductive CallKind where
  | Table
  | Select
  | Where
  | OrderBy
  | Limit
  | Offset
  | Join
  | GroupBy
  | Having
deriving DecidableEq, Repr

/-- The method a call invokes. -/
def Call.kind : Call → CallKind
  | .Table _ => .Table
  | .Select _ => .Select
  | .Where _ _ _ => .Where
  | .OrderBy _ _ => .OrderBy
  | .Limit _ => .Limit
  | .Offset _ => .Offset
  | .Join _ _ _ => .Join
  | .GroupBy _ => .GroupBy
  | .Having _ _ _ => .Having

/-- Performing one call: dispatch to the method of `Builder`. -/
def Builder.call (b : Builder) : Call → Builder
  | .Table table => b.Table table
  | .Select columns => b.Select columns
  | .Where column op value => b.Where column op value
  | .OrderBy column desc => b.OrderBy column desc
  | .Limit limit => b.Limit limit
  | .Offset offset => b.Offset offset
  | .Join joinType table condition => b.Join joinType table condition
  | .GroupBy columns => b.GroupBy columns
  | .Having column op value => b.Having column op value

/-- A chain of calls `b.m1(..).m2(..)...`, performed left to right. -/
def Builder.calls (b : Builder) (cs : List Call) : Builder :=
  cs.foldl Builder.call b

/-! ## The SELECT statement clause by clause, as the specification words it -/

/-- The condition texts of one clause when the first condition takes parameter position
`first` (1-based) and each following one the next position: condition `c` at position `k`
reads `Quote(c.Column) c.Operation Placeholder(k)`. -/
def conditionTexts (d : Dialect) (first : Nat) (conds : List Condition) : List String :=
  List.zipWith
    (fun (k : Nat) (c : Condition) =>
      d.Quote c.Column ++ " " ++ c.Operation ++ " " ++ d.Placeholder (k : Int))
    (List.range' first conds.length) conds

/-- The text `SELECT` followed by the quoted columns joined by `, `, or by `*` for no column. -/
def selectClause (b : Builder) : String :=
  "SELECT " ++
    (if b.columns = [] then "*" else stringsJoin (b.columns.map b.dialect.Quote) ", ")

/-- The text `FROM` followed by the quoted table. -/
def fromClause (b : Builder) : String :=
  " FROM " ++ b.dialect.Quote b.table

/-- The JOIN clauses separated by blanks; nothing for no join. -/
def joinClause (b : Builder) : String :=
  if b.joins = [] then "" else " " ++ stringsJoin b.joins " "

/-- The text `WHERE` followed by the conditions joined by ` AND `, numbered from 1; nothing
for no condition. -/
def whereClause (b : Builder) : String :=
  if b.conditions = [] then ""
  else " WHERE " ++ stringsJoin (conditionTexts b.dialect 1 b.conditions) " AND "

/-- The text `GROUP BY` followed by the grouping entries joined by `, `; nothing for none. -/
def groupByClause (b : Builder) : String :=
  if b.groupBy = [] then "" else " GROUP BY " ++ stringsJoin b.groupBy ", "

/-- The text `HAVING` followed by the conditions joined by ` AND `, numbered after the WHERE
conditions; nothing for no condition. -/
def havingClause (b : Builder) : String :=
  if b.having = [] then ""
  else
    " HAVING " ++
      stringsJoin (conditionTexts b.dialect (b.conditions.length + 1) b.having) " AND "

/-- The text `ORDER BY` followed by the ordering entries joined by `, `; nothing for none. -/
def orderByClause (b : Builder) : String :=
  if b.orderBy = [] then "" else " ORDER BY " ++ stringsJoin b.orderBy ", "

/-- The text `LIMIT n` when a limit was set. -/
def limitClause (b : Builder) : String :=
  match b.limit with
  | some limit => " LIMIT " ++ toString limit
  | none => ""

/-- The text `OFFSET n` when an offset was set. -/
def offsetClause (b : Builder) : String :=
  match b.offset with
  | some offset => " OFFSET " ++ toString offset
  | none => ""

/-- The builder of the call chain
`NewBuilder(NewPostgreSQL()).Table("users").Having("total", ">", 100).Where("age", ">", 18)`. -/
def havingBeforeWhere : Builder :=
  (((NewBuilder NewPostgreSQL).Table "users").Having "total" OpGt (Value.int 100)).Where
    "age" OpGt (Value.int 18)

/-! ## What a call contributes to each clause -/

namespace Call

/-- The table named by a `Table` call. -/
def table? : Call → Option String
  | .Table table => some table
  | _ => none

/-- The columns passed to a `Select` call. -/
def selectArgs? : Call → Option (List String)
  | .Select columns => some columns
  | _ => none

/-- The condition passed to a `Where` call. -/
def condition? : Call → Option Condition
  | .Where column op value => some { Column := column, Operation := op, Value := value }
  | _ => none

/-- The ordering entry of an `OrderBy` call: the quoted column, followed by ` DESC` when
descending. -/
def orderEntry? (d : Dialect) : Call → Option String
  | .OrderBy column desc => some (d.Quote column ++ (if desc then " DESC" else ""))
  | _ => none

/-- The limit passed to a `Limit` call. -/
def limit? : Call → Option Int
  | .Limit limit => some limit
  | _ => none

/-- The offset passed to an `Offset` call. -/
def offset? : Call → Option Int
  | .Offset offset => some offset
  | _ => none

/-- The JOIN clause of a `Join` call: `joinType JOIN <quoted table> ON condition`. -/
def joinEntry? (d : Dialect) : Call → Option String
  | .Join joinType table condition =>
    some (joinType ++ " JOIN " ++ d.Quote table ++ " ON " ++ condition)
  | _ => none

/-- The grouping entries of a `GroupBy` call: its columns, quoted. -/
def groupEntries? (d : Dialect) : Call → Option (List String)
  | .GroupBy columns => some (columns.map d.Quote)
  | _ => none

/-- The condition passed to a `Having` call. -/
def having? : Call → Option Condition
  | .Having column op value => some { Column := column, Operation := op, Value := value }
  | _ => none

end Call

/-- Two call chains that perform, for each method, the same calls of that method in the same
order; calls of different methods may be interleaved differently. -/
def sameCallsPerKind (cs₁ cs₂ : List Call) : Prop :=
  ∀ k : CallKind, cs₁.filter (fun c => c.kind = k) = cs₂.filter (fun c => c.kind = k)

/-! ## CREATE TABLE: the trailing clause as the specification words it -/

/-- The trailing entry of the column list: one `PRIMARY KEY (...)` clause listing `pks`, and no
entry at all when `pks` is empty. -/
def primaryKeyClause (pks : List String) : List String :=
  if pks = [] then [] else ["  PRIMARY KEY (" ++ stringsJoin pks ", " ++ ")"]

/-- A table mapping whose only field is flagged auto-increment but not primary key, as the
parser produces for the tag `db:"n,autoincrement"` on an `int` field. -/
def autoIncNotPrimaryKey : TableMapping :=
  { TableName := "counters",
    Fields := [{ Name := "n", Type_ := .Integer, Size := 0, IsPrimaryKey := false,
                 IsAutoInc := true, IsNullable := false, IsUnique := false }] }

/-- A field of type `Text` flagged auto-increment, as the parser produces for the tag
`db:"code,autoincrement"` on a `string` field. -/
def textAutoInc : FieldMapping :=
  { Name := "code", Type_ := .Text, Size := 0, IsPrimaryKey := false, IsAutoInc := true,
    IsNullable := false, IsUnique := false }

/-! ## DROP COLUMN as the specification words it -/

/-- The typed "unsupported operation" signal of the specification. -/
inductive UnsupportedOperationError where
  | unsupported (operation : String)
deriving DecidableEq, Repr

/-- The three dialect variants of the specification: D1 (MySQL), D2 (PostgreSQL) and
D3 (SQLite). -/
inductive Variant where
  | D1
  | D2
  | D3
deriving DecidableEq, Repr

/-- The implementation of a variant. -/
def Variant.dialect : Variant → Dialect
  | .D1 => NewMySQL
  | .D2 => NewPostgreSQL
  | .D3 => NewSQLite

/-- The outcome of `DropColumnSQL` in the specification's words: on D3 the distinct
"unsupported operation" result, on D1 and D2 the statement
`ALTER TABLE <quoted table> DROP COLUMN <quoted column>`. -/
def specDropColumnSQL (v : Variant) (table column : String) :
    Except UnsupportedOperationError String :=
  match v with
  | .D3 => .error (.unsupported "DROP COLUMN")
  | .D1 => .ok ("ALTER TABLE " ++ NewMySQL.Quote table ++ " DROP COLUMN " ++ NewMySQL.Quote column)
  | .D2 =>
    .ok ("ALTER TABLE " ++ NewPostgreSQL.Quote table ++ " DROP COLUMN " ++
      NewPostgreSQL.Quote column)

/-- What the caller of the Go method `DropColumnSQL(table, column string) string` receives: the
method has a single result of type `string`, so the outcome is always text and never an error
value. -/
def Dialect.dropColumnOutcome (d : Dialect) (table column : String) :
    Except UnsupportedOperationError String :=
  .ok (d.DropColumnSQL table column)

/-- The parameter value a call appends to `params`: `Where` and `Having` append theirs, the
other methods append nothing. -/
def Call.param? : Call → Option Value
  | .Where _ _ value => some value
  | .Having _ _ value => some value
  | _ => none

/-- The call `Where(c.Column, c.Operation, c.Value)`. -/
def Condition.whereCall (c : Condition) : Call :=
  .Where c.Column c.Operation c.Value

/-- The call `Having(c.Column, c.Operation, c.Value)`. -/
def Condition.havingCall (c : Condition) : Call :=
  .Having c.Column c.Operation c.Value

/-! ## Go run-time helpers for the stateful packages -/

/-- A Go `error` value, represented by its message. -/
abbrev Error := String

/-- The value of a Go `int` (64 bits, two's complement) after an arithmetic operation whose
mathematical result is `x`. -/
def wrapInt64 (x : Int) : Int :=
  (x + 2 ^ 63) % 2 ^ 64 - 2 ^ 63

/-- One call `ExecContext(ctx, query, args...)`. -/
structure ExecCall where
  query : String
  args : List Value
deriving DecidableEq, Repr

/-- How a Go call ends: it returns its `error` result (`none` is `nil`), it panics, or the
iteration budget of the model runs out before it returns. -/
inductive Outcome where
  | returned (err : Option Error)
  | panicked
  | outOfFuel
deriving DecidableEq, Repr

/-- What a call on a database handle leaves behind: the `ExecContext` calls it made, oldest
first, and how it ended. -/
structure Run where
  calls : List ExecCall
  outcome : Outcome
deriving DecidableEq, Repr

/-! ## bulk/operations.go -/

/-- A record handed to the bulk writer (a Go `interface{}` holding a struct), represented by
its field values keyed by column name. -/
structure Record where
  fields : List (String × Value)
deriving DecidableEq, Repr

/-- The `db interface{}` argument of the bulk methods, asserted to have
`ExecContext(ctx, query, args...) error`: the error of a call (`none` is `nil`) as a function
of the calls made before it during the operation. -/
structure ExecDB where
  ExecContext : List ExecCall → ExecCall → Option Error

/-- Go `bulk.BulkOperation`. -/
structure BulkOperation where
  dialect : Dialect
  mapping : TableMapping
  batch : Int

/-- Go `NewBulkOperation`. -/
def NewBulkOperation (dialect : Dialect) (mapping : TableMapping) (batchSize : Int) :
    BulkOperation where
  dialect := dialect
  mapping := mapping
  batch := batchSize

/-- The loop `for i := 0; i < len(items); i += b.batch` that `BulkInsert`, `BulkUpdate` and
`BulkDelete` each contain, from index `i` on, with the per-batch call as `step`: the slice
expression `items[i:end]` panics unless `0 <= i <= end`, and the loop returns the first error
of `step`. `fuel` bounds the number of iterations the model follows. -/
def chunkLoop {α : Type} (batchSize : Int) (items : List α)
    (step : List ExecCall → List α → List ExecCall × Option Error) :
    Nat → Int → List ExecCall → Run
  | 0, _, calls => { calls := calls, outcome := .outOfFuel }
  | fuel + 1, i, calls =>
    if i < (items.length : Int) then
      let end_ := wrapInt64 (i + batchSize)
      let end_ := if end_ > (items.length : Int) then (items.length : Int) else end_
      if i < 0 ∨ end_ < i then { calls := calls, outcome := .panicked }
      else
        let batch := (items.drop i.toNat).take (end_ - i).toNat
        match step calls batch with
        | (calls, some err) => { calls := calls, outcome := .returned (some err) }
        | (calls, none) => chunkLoop batchSize items step fuel (wrapInt64 (i + batchSize)) calls
    else { calls := calls, outcome := .returned none }

namespace BulkOperation

/-- Go `(*BulkOperation).buildValuePlaceholders`; `count` is the length of a slice at the only
call site. -/
def buildValuePlaceholders (_b : BulkOperation) (count : Nat) : String :=
  let placeholders := List.replicate count "?"
  "(" ++ stringsJoin placeholders ", " ++ ")"

/-- Go `(*BulkOperation).extractValues`: the body is a comment followed by `return nil`. -/
def extractValues (_b : BulkOperation) (_record : Record) : List Value :=
  []

/-- The local slice `columns` of `insertBatch` after its field loop. -/
def insertColumns (b : BulkOperation) : List String :=
  b.mapping.Fields.foldl
    (fun columns field =>
      if !field.IsAutoInc then columns ++ [b.dialect.Quote field.Name] else columns)
    []

/-- The `query` and `values` that `insertBatch` hands to `ExecContext` for `batch`. -/
def insertCall (b : BulkOperation) (batch : List Record) : ExecCall :=
  let builder := "INSERT INTO " ++ b.dialect.Quote b.mapping.TableName ++ " ("
  let columns := b.insertColumns
  let builder := builder ++ stringsJoin columns ", "
  let builder := builder ++ ") VALUES "
  let acc :=
    batch.foldl
      (fun (acc : List Value × List String) record =>
        (acc.1 ++ b.extractValues record, acc.2 ++ [b.buildValuePlaceholders columns.length]))
      ([], [])
  let values := acc.1
  let placeholders := acc.2
  let builder := builder ++ stringsJoin placeholders ", "
  { query := builder, args := values }

/-- Go `(*BulkOperation).insertBatch`, given the calls made so far: it makes one more call and
returns that call's error. -/
def insertBatch (b : BulkOperation) (db : ExecDB) (calls : List ExecCall)
    (batch : List Record) : List ExecCall × Option Error :=
  let call := b.insertCall batch
  (calls ++ [call], db.ExecContext calls call)

/-- Go `(*BulkOperation).updateBatch`: the body is a comment followed by `return nil`. -/
def updateBatch (_b : BulkOperation) (_db : ExecDB) (calls : List ExecCall)
    (_batch : List Record) (_conditions : List (String × Value)) :
    List ExecCall × Option Error :=
  (calls, none)

/-- Go `(*BulkOperation).deleteBatch`: the body is a comment followed by `return nil`. -/
def deleteBatch (_b : BulkOperation) (_db : ExecDB) (calls : List ExecCall)
    (_ids : List Value) : List ExecCall × Option Error :=
  (calls, none)

/-- Go `(*BulkOperation).BulkInsert`, followed for at most `fuel` loop iterations. -/
def BulkInsert (b : BulkOperation) (db : ExecDB) (records : List Record) (fuel : Nat) : Run :=
  if records.length = 0 then { calls := [], outcome := .returned none }
  else chunkLoop b.batch records (fun calls batch => b.insertBatch db calls batch) fuel 0 []

/-- Go `(*BulkOperation).BulkUpdate`, followed for at most `fuel` loop iterations. -/
def BulkUpdate (b : BulkOperation) (db : ExecDB) (records : List Record)
    (conditions : List (String × Value)) (fuel : Nat) : Run :=
  if records.length = 0 then { calls := [], outcome := .returned none }
  else
    chunkLoop b.batch records (fun calls batch => b.updateBatch db calls batch conditions)
      fuel 0 []

/-- Go `(*BulkOperation).BulkDelete`, followed for at most `fuel` loop iterations. -/
def BulkDelete (b : BulkOperation) (db : ExecDB) (ids : List Value) (fuel : Nat) : Run :=
  if ids.length = 0 then { calls := [], outcome := .returned none }
  else chunkLoop b.batch ids (fun calls batch => b.deleteBatch db calls batch) fuel 0 []

end BulkOperation

/-! ## Chunks and sequential execution, as the specification words them -/

/-- The chunks of `items` for batch size `size`: chunk `k` holds the items at the indices
`[k*size, min((k+1)*size, n))`, for `k` below the ceiling of `n/size`. -/
def chunksOf {α : Type} (size : Nat) (items : List α) : List (List α) :=
  (List.range ((items.length + size - 1) / size)).map
    (fun k => (items.drop (k * size)).take size)

/-- The statement that the specification describes for a chunk of `rows` records:
`INSERT INTO <quoted table> (`, the quoted names of the non-auto-increment fields in mapping
order joined by `, `, `) VALUES ` and `rows` row groups joined by `, `, each row group being
`(`, one `?` per listed column joined by `, `, and `)`. Its argument list is the empty one
that `extractValues` leaves. -/
def insertStatement (b : BulkOperation) (rows : Nat) : ExecCall where
  query :=
    "INSERT INTO " ++ b.dialect.Quote b.mapping.TableName ++ " (" ++
      stringsJoin
        ((b.mapping.Fields.filter (fun f => !f.IsAutoInc)).map
          (fun f => b.dialect.Quote f.Name)) ", " ++
      ") VALUES " ++
      stringsJoin
        (List.replicate rows
          ("(" ++
            stringsJoin
              (List.replicate (b.mapping.Fields.filter (fun f => !f.IsAutoInc)).length "?")
              ", " ++
            ")")) ", "
  args := []

/-- Executing the statements of `plan` one after the other on a database whose calls so far
are `calls`, stopping after the first one that fails: the calls made and the error. -/
def runAll {β : Type} (exec : List β → β → Option Error) : List β → List β → List β × Option Error
  | [], calls => (calls, none)
  | st :: rest, calls =>
    match exec calls st with
    | some err => (calls ++ [st], some err)
    | none => runAll exec rest (calls ++ [st])

/-- A database handle whose `ExecContext` succeeds except for call number `k` (0-based), which
fails with `msg`. -/
def failingAt (k : Nat) (msg : Error) : ExecDB where
  ExecContext := fun calls _ => if calls.length = k then some msg else none

/-- A database handle whose `ExecContext` always succeeds. -/
def alwaysOk : ExecDB where
  ExecContext := fun _ _ => none

/-- Handing the chunks of `chunks` one after the other to `step`, stopping after the first
one for which `step` returns an error. -/
def runChunks {α : Type} (step : List ExecCall → List α → List ExecCall × Option Error) :
    List (List α) → List ExecCall → List ExecCall × Option Error
  | [], calls => (calls, none)
  | chunk :: rest, calls =>
    match step calls chunk with
    | (calls, some err) => (calls, some err)
    | (calls, none) => runChunks step rest calls

/-- A mapping `users(id, name)` whose `id` is an auto-increment primary key. -/
def usersMapping : TableMapping :=
  { TableName := "users",
    Fields := [
      { Name := "id", Type_ := .Integer, Size := 0, IsPrimaryKey := true, IsAutoInc := true,
        IsNullable := false, IsUnique := false },
      { Name := "name", Type_ := .Text, Size := 0, IsPrimaryKey := false, IsAutoInc := false,
        IsNullable := false, IsUnique := false }] }

/-- The bulk writer `NewBulkOperation(NewSQLite(), usersMapping, 2)`. -/
def usersBulk : BulkOperation :=
  NewBulkOperation NewSQLite usersMapping 2

/-- Five records with the names `a` to `e`. -/
def fiveRecords : List Record :=
  [⟨[("name", .str "a")]⟩, ⟨[("name", .str "b")]⟩, ⟨[("name", .str "c")]⟩,
    ⟨[("name", .str "d")]⟩, ⟨[("name", .str "e")]⟩]

/-- The field values of a record in the order of the column list of `insertBatch` (the
non-auto-increment fields in mapping order); a field the record lacks counts as `null`. -/
def Record.valuesFor (r : Record) (mapping : TableMapping) : List Value :=
  (mapping.Fields.filter (fun f => !f.IsAutoInc)).map
    (fun f => (r.fields.lookup f.Name).getD Value.null)

/-! ## schema/migration.go -/

/-- The dynamic type of the `dialect.Dialect` value a migrator holds, which the type switches
of `tableExists` and `getTableColumns` inspect; `Other` is any type but the three of the
package `dialect`. -/
inductive DialectType where
  | PostgreSQL
  | MySQL
  | SQLite
  | Other
deriving DecidableEq, Repr

/-- A statement the migrator hands to `ExecContext`, named after the function that builds it
and carrying what its text is built from. -/
inductive Statement where
  | EnsureMigrationTable
  | CreateTable (mapping : TableMapping)
  | AddColumn (table : String) (field : FieldMapping)
  | RecordMigration (name : String)
deriving DecidableEq, Repr

/-- The `query` text of a statement, as `ensureMigrationTable`, `createTable`, `updateTable`
and `recordMigration` build it. -/
def Statement.query (d : Dialect) : Statement → String
  | .EnsureMigrationTable =>
    "\n\t\tCREATE TABLE IF NOT EXISTS " ++ d.Quote "migrations" ++
      " (\n\t\t\tid SERIAL PRIMARY KEY,\n\t\t\tname VARCHAR(255) NOT NULL,\n\t\t\ttimestamp TIMESTAMP NOT NULL,\n\t\t\tapplied BOOLEAN NOT NULL DEFAULT FALSE\n\t\t)\n\t"
  | .CreateTable mapping => d.CreateTableSQL mapping
  | .AddColumn table field => d.AddColumnSQL table field
  | .RecordMigration _ =>
    "\n\t\tINSERT INTO " ++ d.Quote "migrations" ++
      " (name, timestamp, applied)\n\t\tVALUES (?, ?, ?)\n\t"

/-- The arguments that accompany the text: `recordMigration` passes
`name, time.Now(), true`, the other statements have none. -/
def Statement.args (now : Value) : Statement → List Value
  | .RecordMigration name => [Value.str name, now, Value.bool true]
  | _ => []

/-- The `*sql.DB` handle as the migrator uses it, each operation as a function of the
statements executed on the handle so far: `ExecContext` gives the error of executing one more
statement (`none` is `nil`); `QueryRowExists` is `QueryRowContext(ctx, query, args...)`
followed by `Scan(&exists)`; `QueryColumnNames` is `QueryContext(ctx, query, args...)`
followed by the loop scanning one string per row, giving the scanned names or the first
error. -/
structure SQLDB where
  ExecContext : List Statement → Statement → Option Error
  QueryRowExists : List Statement → String → List Value → Except Error Bool
  QueryColumnNames : List Statement → String → List Value → Except Error (List String)

/-- A model passed to `AutoMigrate`, represented by what `Parser.Parse` returns for it: a
table mapping, or the error for a value that is not a struct. -/
abbrev Model := Except Error TableMapping

/-- Go `schema.Migrator`; the parser is represented in `Model`. -/
structure Migrator where
  db : SQLDB
  dialect : Dialect
  dialectType : DialectType

/-- Go `NewMigrator`. -/
def NewMigrator (db : SQLDB) (dialect : Dialect) (dialectType : DialectType) : Migrator where
  db := db
  dialect := dialect
  dialectType := dialectType

namespace Migrator

/-- Go `(*Migrator).ensureMigrationTable`, given the statements executed so far: the
statements executed afterwards and the error. -/
def ensureMigrationTable (m : Migrator) (executed : List Statement) :
    List Statement × Option Error :=
  (executed ++ [Statement.EnsureMigrationTable],
    m.db.ExecContext executed Statement.EnsureMigrationTable)

/-- Go `(*Migrator).recordMigration`. -/
def recordMigration (m : Migrator) (executed : List Statement) (name : String) :
    List Statement × Option Error :=
  (executed ++ [Statement.RecordMigration name],
    m.db.ExecContext executed (Statement.RecordMigration name))

/-- Go `(*Migrator).tableExists`. -/
def tableExists (m : Migrator) (executed : List Statement) (tableName : String) :
    Except Error Bool :=
  match m.dialectType with
  | .PostgreSQL =>
    m.db.QueryRowExists executed
      "\n\t\t\tSELECT EXISTS (\n\t\t\t\tSELECT FROM pg_tables\n\t\t\t\tWHERE schemaname = 'public'\n\t\t\t\tAND tablename = $1\n\t\t\t)\n\t\t"
      [Value.str tableName]
  | .MySQL =>
    m.db.QueryRowExists executed
      "\n\t\t\tSELECT EXISTS (\n\t\t\t\tSELECT 1 FROM information_schema.tables\n\t\t\t\tWHERE table_schema = DATABASE()\n\t\t\t\tAND table_name = ?\n\t\t\t)\n\t\t"
      [Value.str tableName]
  | .SQLite =>
    m.db.QueryRowExists executed
      "\n\t\t\tSELECT EXISTS (\n\t\t\t\tSELECT 1 FROM sqlite_master\n\t\t\t\tWHERE type = 'table'\n\t\t\t\tAND name = ?\n\t\t\t)\n\t\t"
      [Value.str tableName]
  | .Other => .error "dialeto não suportado"

/-- Go `(*Migrator).getTableColumns`: the keys of the returned map, as the list of scanned
names. -/
def getTableColumns (m : Migrator) (executed : List Statement) (tableName : String) :
    Except Error (List String) :=
  match m.dialectType with
  | .PostgreSQL =>
    m.db.QueryColumnNames executed
      "\n\t\t\tSELECT column_name\n\t\t\tFROM information_schema.columns\n\t\t\tWHERE table_name = $1\n\t\t"
      [Value.str tableName]
  | .MySQL =>
    m.db.QueryColumnNames executed
      "\n\t\t\tSELECT column_name\n\t\t\tFROM information_schema.columns\n\t\t\tWHERE table_name = ?\n\t\t\tAND table_schema = DATABASE()\n\t\t"
      [Value.str tableName]
  | .SQLite =>
    m.db.QueryColumnNames executed ("PRAGMA table_info(" ++ m.dialect.Quote tableName ++ ")")
      [Value.str tableName]
  | .Other => .error "dialeto não suportado"

/-- Go `(*Migrator).createTable`. -/
def createTable (m : Migrator) (executed : List Statement) (mapping : TableMapping) :
    List Statement × Option Error :=
  match m.db.ExecContext executed (Statement.CreateTable mapping) with
  | some err =>
    (executed ++ [Statement.CreateTable mapping],
      some ("erro ao criar tabela " ++ mapping.TableName ++ ": " ++ err))
  | none =>
    m.recordMigration (executed ++ [Statement.CreateTable mapping])
      ("create_table_" ++ mapping.TableName)

/-- The loop `for _, field := range mapping.Fields` of `updateTable`, over the fields still to
visit. -/
def updateLoop (m : Migrator) (mapping : TableMapping) (currentColumns : List String) :
    List FieldMapping → List Statement → List Statement × Option Error
  | [], executed => (executed, none)
  | field :: rest, executed =>
    if field.Name ∉ currentColumns then
      match m.db.ExecContext executed (Statement.AddColumn mapping.TableName field) with
      | some err =>
        (executed ++ [Statement.AddColumn mapping.TableName field],
          some ("erro ao adicionar coluna " ++ field.Name ++ ": " ++ err))
      | none =>
        match m.recordMigration (executed ++ [Statement.AddColumn mapping.TableName field])
            ("add_column_" ++ mapping.TableName ++ "_" ++ field.Name) with
        | (executed, some err) => (executed, some err)
        | (executed, none) => updateLoop m mapping currentColumns rest executed
    else updateLoop m mapping currentColumns rest executed

/-- Go `(*Migrator).updateTable`. -/
def updateTable (m : Migrator) (executed : List Statement) (mapping : TableMapping) :
    List Statement × Option Error :=
  match m.getTableColumns executed mapping.TableName with
  | .error err => (executed, some err)
  | .ok currentColumns => m.updateLoop mapping currentColumns mapping.Fields executed

/-- Go `(*Migrator).migrateModel`. -/
def migrateModel (m : Migrator) (executed : List Statement) (model : Model) :
    List Statement × Option Error :=
  match model with
  | .error err => (executed, some err)
  | .ok mapping =>
    match m.tableExists executed mapping.TableName with
    | .error err => (executed, some err)
    | .ok tableExists =>
      if !tableExists then m.createTable executed mapping
      else m.updateTable executed mapping

/-- The loop `for _, model := range models` of `AutoMigrate`. -/
def migrateLoop (m : Migrator) : List Model → List Statement → List Statement × Option Error
  | [], executed => (executed, none)
  | model :: rest, executed =>
    match m.migrateModel executed model with
    | (executed, some err) => (executed, some err)
    | (executed, none) => migrateLoop m rest executed

/-- Go `(*Migrator).AutoMigrate`. -/
def AutoMigrate (m : Migrator) (executed : List Statement) (models : List Model) :
    List Statement × Option Error :=
  match m.ensureMigrationTable executed with
  | (executed, some err) => (executed, some ("erro ao criar tabela de migrações: " ++ err))
  | (executed, none) => m.migrateLoop models executed

end Migrator

/-! ## The migrator's statements and the database, as the specification words them -/

/-- For each field in order, the `ADD COLUMN` statement followed by its audit-row insert
named `add_column_<table>_<field>`. -/
def addColumnStatements (table : String) (fields : List FieldMapping) : List Statement :=
  fields.flatMap
    (fun f => [Statement.AddColumn table f,
      Statement.RecordMigration ("add_column_" ++ table ++ "_" ++ f.Name)])

/-- The fields of the mapping whose name is not among the live columns, in mapping order. -/
def missingFields (currentColumns : List String) (fields : List FieldMapping) :
    List FieldMapping :=
  fields.filter (fun f => f.Name ∉ currentColumns)

/-- The error `updateTable` returns when `ExecContext` fails a statement with `err`: an
`ADD COLUMN` error is wrapped with the field name, the error of an audit-row insert is
returned as it is. -/
def updateError (st : Statement) (err : Error) : Error :=
  match st with
  | .AddColumn _ field => "erro ao adicionar coluna " ++ field.Name ++ ": " ++ err
  | _ => err

/-- The database as the set of its tables with their columns: the columns of each table that
exists. -/
abbrev Schema := String → Option (List String)

/-- The schema after executing one statement: `CREATE TABLE IF NOT EXISTS` adds an absent
table with the columns it lists, `ADD COLUMN` adds the column to its table, and an audit-row
insert changes no table. -/
def Schema.execute (s : Schema) : Statement → Schema
  | .EnsureMigrationTable => fun t =>
    if t = "migrations" then
      (match s t with
        | some cols => some cols
        | none => some ["id", "name", "timestamp", "applied"])
    else s t
  | .CreateTable mapping => fun t =>
    if t = mapping.TableName then
      (match s t with
        | some cols => some cols
        | none => some (mapping.Fields.map FieldMapping.Name))
    else s t
  | .AddColumn table field => fun t =>
    if t = table then (s t).map (fun cols => cols ++ [field.Name]) else s t
  | .RecordMigration _ => s

/-- The schema after executing the statements `executed` from the schema `s`. -/
def Schema.executeAll (s : Schema) (executed : List Statement) : Schema :=
  executed.foldl Schema.execute s

/-- The database handle of the schema model started in the schema `initial`: every statement
succeeds and updates the schema; the existence query and the column query, asked with the
table name as their one argument, answer from the current schema. -/
def schemaDB (initial : Schema) : SQLDB where
  ExecContext := fun _ _ => none
  QueryRowExists := fun executed _ args =>
    match args with
    | [Value.str table] => .ok ((initial.executeAll executed table).isSome)
    | _ => .error "unexpected arguments"
  QueryColumnNames := fun executed _ args =>
    match args with
    | [Value.str table] => .ok ((initial.executeAll executed table).getD [])
    | _ => .error "unexpected arguments"

/-- The schema without any table. -/
def Schema.empty : Schema :=
  fun _ => none

/-- A migrator for SQLite on the schema model that starts without any table. -/
def sqliteMigrator : Migrator :=
  NewMigrator (schemaDB Schema.empty) NewSQLite DialectType.SQLite

/-- The mapping `users(id, name, age)`: `usersMapping` with one more field, `age`. -/
def usersWithAge : TableMapping :=
  { usersMapping with
    Fields := usersMapping.Fields ++
      [{ Name := "age", Type_ := .Integer, Size := 0, IsPrimaryKey := false,
         IsAutoInc := false, IsNullable := true, IsUnique := false }] }

/-- The statements executed by a first `AutoMigrate` of `usersMapping` on the empty schema
model. -/
def usersCreated : List Statement :=
  (sqliteMigrator.AutoMigrate [] [Except.ok usersMapping]).1

/-- A database handle for a live table with the one column `id`, on which the `ADD COLUMN`
issued as third statement fails with `disk full` and every other statement succeeds. -/
def secondAddFails : SQLDB where
  ExecContext := fun executed st =>
    match st with
    | .AddColumn _ _ => if executed.length = 2 then some "disk full" else none
    | _ => none
  QueryRowExists := fun _ _ _ => .ok true
  QueryColumnNames := fun _ _ _ => .ok ["id"]

/-- A migrator for SQLite on `secondAddFails`. -/
def failingMigrator : Migrator :=
  NewMigrator secondAddFails NewSQLite DialectType.SQLite

/-- Every table of `s` is a table of `s'` with at least the same columns. -/
def Schema.le (s s' : Schema) : Prop :=
  ∀ (t : String) (cols : List String), s t = some cols →
    ∃ cols', s' t = some cols' ∧ ∀ c ∈ cols, c ∈ cols'

/-- The table of the mapping exists in `s` and has a column for every field. -/
def Schema.covers (s : Schema) (mapping : TableMapping) : Prop :=
  ∃ cols, s mapping.TableName = some cols ∧ ∀ f ∈ mapping.Fields, f.Name ∈ cols

/-! ## Go floating point, as used by the paginator -/

/-- Rounding a rational to the nearest integer, ties to the even one. -/
def roundHalfEven (y : ℚ) : Int :=
  let f := ⌊y⌋
  let r := y - f
  if r < 1 / 2 then f
  else if 1 / 2 < r then f + 1
  else if f % 2 = 0 then f
  else f + 1

/-- The `float64` nearest to the real number `x` (IEEE 754 binary64, round to nearest, ties to
even), as a rational: with `2^e <= |x| < 2^(e+1)` the result is the nearest multiple of
`2^(e-52)`. Overflow and subnormal numbers are not modelled; the paginator only rounds
integers below `2^63` in absolute value and quotients of such numbers. -/
def roundFloat64 (x : ℚ) : ℚ :=
  if x = 0 then 0
  else
    let e := Int.log 2 |x|
    let ulp : ℚ := 2 ^ (e - 52)
    roundHalfEven (x / ulp) * ulp

/-- Go conversion `float64(n)` of an integer. -/
def float64OfInt (n : Int) : ℚ :=
  roundFloat64 (n : ℚ)

/-- Go `x / y` on `float64` values. For `y = 0` Go yields an infinity or a NaN, which this
model does not represent (the rational quotient by zero is taken instead); `NewPaginator`
makes `perPage >= 1`, so the paginator never divides by zero. -/
def float64Div (x y : ℚ) : ℚ :=
  roundFloat64 (x / y)

/-- Go `math.Ceil` on a finite `float64`: the result is exact. -/
def mathCeil (x : ℚ) : ℚ :=
  (⌈x⌉ : Int)

/-- Go conversion `int(x)` of a `float64`: the fraction is discarded (truncation towards
zero); values outside the range of `int` are not modelled. -/
def intOfFloat64 (x : ℚ) : Int :=
  if 0 ≤ x then ⌊x⌋ else ⌈x⌉

/-! ## pagination/paginator.go -/

/-- Go `pagination.PageInfo`. -/
structure PageInfo where
  CurrentPage : Int
  PerPage : Int
  TotalItems : Int
  TotalPages : Int
  HasPrevious : Bool
  HasNext : Bool
  PreviousPage : Int
  NextPage : Int
deriving DecidableEq, Repr

/-- Go `pagination.Paginator`. -/
structure Paginator where
  page : Int
  perPage : Int
  total : Int
deriving DecidableEq, Repr

/-- Go `NewPaginator`. -/
def NewPaginator (page perPage : Int) : Paginator :=
  let page := if page < 1 then 1 else page
  let perPage := if perPage < 1 then 10 else perPage
  { page := page, perPage := perPage, total := 0 }

namespace Paginator

/-- Go `(*Paginator).SetTotal`. -/
def SetTotal (p : Paginator) (total : Int) : Paginator :=
  { p with total := total }

/-- Go `(*Paginator).Offset`: `(p.page - 1) * p.perPage` in 64-bit `int` arithmetic. -/
def Offset (p : Paginator) : Int :=
  wrapInt64 (wrapInt64 (p.page - 1) * p.perPage)

/-- Go `(*Paginator).Limit`. -/
def Limit (p : Paginator) : Int :=
  p.perPage

/-- Go `(*Paginator).GetInfo`. -/
def GetInfo (p : Paginator) : PageInfo :=
  let totalPages :=
    intOfFloat64 (mathCeil (float64Div (float64OfInt p.total) (float64OfInt p.perPage)))
  { CurrentPage := p.page
    PerPage := p.perPage
    TotalItems := p.total
    TotalPages := totalPages
    HasPrevious := p.page > 1
    HasNext := p.page < totalPages
    PreviousPage := max 1 (wrapInt64 (p.page - 1))
    NextPage := min totalPages (wrapInt64 (p.page + 1)) }

end Paginator

/-- A paginator on page `2^32 + 1` with `2^32` items per page. -/
def hugePaginator : Paginator :=
  NewPaginator (2 ^ 32 + 1) (2 ^ 32)

/-! ## Go library helpers for the reflection-driven packages -/

/-- The pieces of a character sequence between successive occurrences of `sep`; a sequence
without `sep`, the empty one included, is its own single piece. -/
def splitChars (sep : Char) : List Char → List (List Char)
  | [] => [[]]
  | c :: cs =>
    if c = sep then [] :: splitChars sep cs
    else
      match splitChars sep cs with
      | [] => [[c]]
      | p :: ps => (c :: p) :: ps

/-- Go `strings.Split(s, sep)` for a separator of one ASCII character. -/
def stringsSplit (s : String) (sep : Char) : List String :=
  (splitChars sep s.data).map String.mk

/-- Go `strings.ToLower` on ASCII text. -/
def stringsToLower (s : String) : String :=
  String.mk (s.data.map Char.toLower)

/-- Go `strings.HasPrefix(s, p)`. -/
def stringsHasPrefix (s p : String) : Bool :=
  p.data.isPrefixOf s.data

/-- Go `strings.TrimPrefix(s, p)`. -/
def stringsTrimPrefix (s p : String) : String :=
  if stringsHasPrefix s p then String.mk (s.data.drop p.data.length) else s

/-- The number written by a non-empty sequence of decimal digits, read after the digits
`acc` stands for; `none` when a character is not a digit. -/
def digitsValue : List Char → Nat → Option Nat
  | [], acc => some acc
  | c :: cs, acc =>
    if '0' ≤ c ∧ c ≤ '9' then digitsValue cs (acc * 10 + (c.toNat - '0'.toNat)) else none

/-- Go `strconv.Atoi(s)` with its error dropped, as in `size, _ := strconv.Atoi(...)`: the
value of an optional sign followed by decimal digits, `0` on a syntax error, and the nearest
64-bit value when the number is out of range. -/
def strconvAtoi (s : String) : Int :=
  let signed : Bool × List Char :=
    match s.data with
    | '-' :: rest => (true, rest)
    | '+' :: rest => (false, rest)
    | cs => (false, cs)
  match signed.2 with
  | [] => 0
  | c :: cs =>
    match digitsValue (c :: cs) 0 with
    | none => 0
    | some n =>
      if signed.1 then (if n > 2 ^ 63 then -(2 ^ 63) else -(n : Int))
      else (if n ≥ 2 ^ 63 then 2 ^ 63 - 1 else (n : Int))

/-! ## Go reflection on struct values -/

/-- One field of a Go struct value as `reflect` shows it: the `reflect.StructField` data that
the code reads (`Name`, `PkgPath`, which is empty exactly for an exported field,
`Type.String()` and the struct tag as its key-value pairs) and the value the field holds.
`Type` is a Lean keyword, hence `Type_`. -/
structure StructField where
  Name : String
  PkgPath : String
  Type_ : String
  Tag : List (String × String)
  Value : Value
deriving DecidableEq, Repr

/-- Go `reflect.StructTag.Get`: the value of `key` in the tag, `""` when the tag has no such
key. -/
def StructField.tagGet (f : StructField) (key : String) : String :=
  (f.Tag.lookup key).getD ""

/-- Go `reflect.StructField.IsExported`. -/
def StructField.IsExported (f : StructField) : Bool :=
  f.PkgPath == ""

/-- A Go struct value without embedded fields, or a pointer to one, held in an `interface{}`:
the name of its type (`reflect.Type.Name()`) and its fields in declaration order. -/
structure Struct where
  Name : String
  Fields : List StructField
deriving DecidableEq, Repr

/-- Go `reflect.Value.FieldByName` and `reflect.Type.FieldByName`: the field with exactly
that name; `none` is the zero `Value` (respectively `ok == false`). -/
def Struct.FieldByName (s : Struct) (name : String) : Option StructField :=
  s.Fields.find? (fun f => f.Name == name)

/-- Go `reflect.Value.Interface()` on the result of `FieldByName`: it panics (`none`) on the
zero `Value` and on a value obtained from an unexported field. -/
def fieldInterface : Option StructField → Option Value
  | none => none
  | some f => if f.IsExported then some f.Value else none

/-! ## types/mapping.go: the type mapper -/

/-- Go `(*TypeMapper).GetDataType` with the default mappings of `initDefaultMappings`. -/
def GetDataType (goType : String) : DataType :=
  if goType = "string" then DataType.Text
  else if goType = "int" then DataType.Integer
  else if goType = "int64" then DataType.Integer
  else if goType = "float64" then DataType.Float
  else if goType = "bool" then DataType.Boolean
  else if goType = "time.Time" then DataType.DateTime
  else DataType.Unknown

/-! ## schema/parser.go -/

namespace Parser

/-- Go `(*Parser).getTableName`. -/
def getTableName (t : Struct) : String :=
  match t.FieldByName "TableName" with
  | some tableTag =>
    if tableTag.tagGet "db" ≠ "" then tableTag.tagGet "db" else stringsToLower t.Name
  | none => stringsToLower t.Name

/-- Go `(*Parser).getFieldName`. -/
def getFieldName (field : StructField) (tag : String) : String :=
  if tag ≠ "" ∧ (stringsSplit tag ',').headD "" ≠ "" then (stringsSplit tag ',').headD ""
  else stringsToLower field.Name

/-- One iteration of the loop of `parseTagOptions`, on part `part` at index `i`. -/
def tagOption (mapping : FieldMapping) (i : Nat) (part : String) : FieldMapping :=
  if i = 0 ∧ part ≠ "" then { mapping with Name := part }
  else if part = "primarykey" then { mapping with IsPrimaryKey := true }
  else if part = "autoincrement" then { mapping with IsAutoInc := true }
  else if part = "unique" then { mapping with IsUnique := true }
  else if part = "nullable" then { mapping with IsNullable := true }
  else if stringsHasPrefix part "size:" then
    { mapping with Size := strconvAtoi (stringsTrimPrefix part "size:") }
  else mapping

/-- The loop of `parseTagOptions` over the parts from index `i` on. -/
def tagOptionsLoop : List String → Nat → FieldMapping → FieldMapping
  | [], _, mapping => mapping
  | part :: rest, i, mapping => tagOptionsLoop rest (i + 1) (tagOption mapping i part)

/-- Go `(*Parser).parseTagOptions`. -/
def parseTagOptions (mapping : FieldMapping) (tag : String) : FieldMapping :=
  tagOptionsLoop (stringsSplit tag ',') 0 mapping

/-- Go `(*Parser).parseField`; `none` is the nil result for the tag `db:"-"`. -/
def parseField (field : StructField) : Option FieldMapping :=
  let tag := field.tagGet "db"
  if tag = "-" then none
  else
    some (parseTagOptions
      { Name := getFieldName field tag
        Type_ := GetDataType field.Type_
        Size := 0
        IsPrimaryKey := false
        IsAutoInc := false
        IsNullable := false
        IsUnique := false } tag)

/-- The loop of `Parse` over the struct's fields. -/
def parseFields : List StructField → List FieldMapping
  | [] => []
  | field :: rest =>
    if !field.IsExported then parseFields rest
    else
      match parseField field with
      | some fieldMapping => fieldMapping :: parseFields rest
      | none => parseFields rest

/-- Go `(*Parser).Parse` on a struct or a pointer to a struct; the error result is for a model
of another kind, which `Struct` does not represent. -/
def Parse (model : Struct) : TableMapping where
  TableName := getTableName model
  Fields := parseFields model.Fields

end Parser

/-! ## tests/models/test_models.go -/

/-- The tests' `models.User` holding the given values; `DeletedAt` is a nil `*time.Time`. -/
def User (id : Int) (name email : String) (age createdAt : Int) : Struct where
  Name := "User"
  Fields :=
    [ { Name := "ID", PkgPath := "", Type_ := "int",
        Tag := [("db", "id,primarykey,autoincrement")], Value := Value.int id },
      { Name := "Name", PkgPath := "", Type_ := "string",
        Tag := [("db", "name,size:255"), ("validate", "required,min=3")],
        Value := Value.str name },
      { Name := "Email", PkgPath := "", Type_ := "string",
        Tag := [("db", "email,unique"), ("validate", "required,email")],
        Value := Value.str email },
      { Name := "Age", PkgPath := "", Type_ := "int",
        Tag := [("db", "age"), ("validate", "min=18")], Value := Value.int age },
      { Name := "CreatedAt", PkgPath := "", Type_ := "time.Time",
        Tag := [("db", "created_at")], Value := Value.time createdAt },
      { Name := "DeletedAt", PkgPath := "", Type_ := "*time.Time",
        Tag := [("db", "deleted_at")], Value := Value.null } ]

/-- The zero time `time.Time{}` (1 January of year 1, UTC) as Unix nanoseconds, the value
of a `CreatedAt` that was never set. -/
def zeroTime : Int := -62135596800 * 1000000000

/-- The zero value `models.User{}`. -/
def zeroUser : Struct := User 0 "" "" 0 zeroTime
/-! ## validator/validator.go -/

/-- Go `fmt`'s `isSpace`, the white space that the scanning functions skip. -/
def fmtIsSpace (c : Char) : Bool :=
  (0x09 ≤ c.toNat ∧ c.toNat ≤ 0x0d) ∨ c.toNat = 0x20 ∨ c.toNat = 0x85 ∨ c.toNat = 0xa0 ∨
    c.toNat = 0x1680 ∨ (0x2000 ≤ c.toNat ∧ c.toNat ≤ 0x200a) ∨ c.toNat = 0x2028 ∨
    c.toNat = 0x2029 ∨ c.toNat = 0x202f ∨ c.toNat = 0x205f ∨ c.toNat = 0x3000

/-- The `SkipSpace` step of `fmt.Sscanf`: leading white space is dropped; a newline is an
error (`none`). -/
def skipSpace : List Char → Option (List Char)
  | [] => some []
  | c :: cs =>
    if c = '\n' then none
    else if fmtIsSpace c then skipSpace cs
    else some (c :: cs)

/-- The step `s.accept(sign)` of the scan of an integer: an optional `+` or `-`, and the rest
of the input. The flag tells whether the sign is `-`. -/
def scanSign : List Char → Bool × List Char
  | '+' :: rest => (false, rest)
  | '-' :: rest => (true, rest)
  | rest => (false, rest)

/-- The value of the token made of the sign and the digits read, as `strconv.ParseInt`
gives it: `0`, the result left untouched, when there is no digit or when the value does not
fit 64 bits. -/
def scanValue (negative : Bool) : List Char → Int
  | [] => 0
  | d :: ds =>
    let n : Nat := (d :: ds).foldl (fun acc c => acc * 10 + (c.toNat - '0'.toNat)) 0
    let i : Int := if negative then -(n : Int) else (n : Int)
    if -(2 ^ 63) ≤ i ∧ i < 2 ^ 63 then i else 0

/-- Go `validator.parseInt`: `fmt.Sscanf(s, "%d", &result)` with its error dropped. After
leading white space it reads an optional sign and the longest run of decimal digits; the
result is their value, and stays `0` when there is no digit, when a newline precedes the
number or when the value does not fit 64 bits. -/
def parseInt (s : String) : Int :=
  match skipSpace s.data with
  | none => 0
  | some cs =>
    scanValue (scanSign cs).1
      ((scanSign cs).2.takeWhile (fun c => decide ('0' ≤ c ∧ c ≤ '9')))

/-- The class `[a-z0-9._%+\-]` of the e-mail pattern. -/
def emailLocalChar (c : Char) : Bool :=
  ('a' ≤ c ∧ c ≤ 'z') ∨ ('0' ≤ c ∧ c ≤ '9') ∨ c = '.' ∨ c = '_' ∨ c = '%' ∨ c = '+' ∨ c = '-'

/-- The class `[a-z0-9.\-]` of the e-mail pattern. -/
def emailDomainChar (c : Char) : Bool :=
  ('a' ≤ c ∧ c ≤ 'z') ∨ ('0' ≤ c ∧ c ≤ '9') ∨ c = '.' ∨ c = '-'

/-- Whether `rest` is a non-empty run of domain characters, a dot and exactly `k` letters
`a-z`. -/
def emailTail (rest : List Char) (k : Nat) : Bool :=
  decide (k + 2 ≤ rest.length) &&
    (rest.take (rest.length - (k + 1))).all emailDomainChar &&
    ((rest.drop (rest.length - (k + 1))).head? == some '.') &&
    (rest.drop (rest.length - k)).all (fun c => decide ('a' ≤ c ∧ c ≤ 'z'))

/-- Whether the string matches `^[a-z0-9._%+\-]+@[a-z0-9.\-]+\.[a-z]{2,4}$`, the pattern of
`validateEmail`: a non-empty local part, which cannot contain `@` and so ends at the first
`@`, then a domain, a dot and two to four letters up to the end of the text. -/
def emailRegexMatch (s : String) : Bool :=
  match s.data.dropWhile (fun c => c != '@') with
  | [] => false
  | _ :: rest =>
    !(s.data.takeWhile (fun c => c != '@')).isEmpty &&
      (s.data.takeWhile (fun c => c != '@')).all emailLocalChar &&
      (emailTail rest 2 || emailTail rest 3 || emailTail rest 4)

/-- Go `validator.Rule`, an interface with the one method `Validate(value) error`. -/
structure Rule where
  Validate : Value → Option Error

/-- Go `validator.Validator`: the custom rules per field name; a field without an entry in
the map has the empty list. -/
structure Validator where
  rules : String → List Rule

/-- Go `NewValidator`. -/
def NewValidator : Validator where
  rules := fun _ => []

namespace Validator

/-- Go `(*Validator).AddRule`. -/
def AddRule (v : Validator) (field : String) (rule : Rule) : Validator where
  rules := fun f => if f = field then v.rules f ++ [rule] else v.rules f

/-- Go `(*Validator).validateRequired`. Kind `String` is `Value.str`, kinds `Int` and `Int64`
are `Value.int`; slices and maps are not among the values represented. -/
def validateRequired (value : Value) : Option Error :=
  match value with
  | Value.str s => if s = "" then some "campo obrigatório" else none
  | Value.int n => if n = 0 then some "campo obrigatório" else none
  | _ => none

/-- Go `(*Validator).validateMin`; `len` of a Go string is its length in bytes. -/
def validateMin (value : Value) (min : String) : Option Error :=
  match value with
  | Value.str s =>
    if s.utf8ByteSize < min.utf8ByteSize then
      some ("tamanho mínimo é " ++ toString min.utf8ByteSize)
    else none
  | Value.int n =>
    if n < parseInt min then some ("valor mínimo é " ++ toString (parseInt min)) else none
  | _ => none

/-- Go `(*Validator).validateMax`. -/
def validateMax (value : Value) (max : String) : Option Error :=
  match value with
  | Value.str s =>
    if s.utf8ByteSize > max.utf8ByteSize then
      some ("tamanho máximo é " ++ toString max.utf8ByteSize)
    else none
  | Value.int n =>
    if n > parseInt max then some ("valor máximo é " ++ toString (parseInt max)) else none
  | _ => none

/-- Go `(*Validator).validateEmail`. -/
def validateEmail (value : Value) : Option Error :=
  match value with
  | Value.str s => if emailRegexMatch s then none else some "email inválido"
  | _ => some "valor deve ser uma string"

/-- The wrapping `fmt.Errorf("%s: %v", field, err)` of `validateField`. -/
def fieldError (field : String) : Option Error → Option Error
  | some err => some (field ++ ": " ++ err)
  | none => none

/-- One iteration of the loop of `validateField`, for the rule text `rule`. -/
def validateRule (field : String) (value : Value) (rule : String) : Option Error :=
  let parts := stringsSplit rule '='
  let ruleName := parts.headD ""
  let ruleValue := if parts.length > 1 then parts.getD 1 "" else ""
  if ruleName = "required" then fieldError field (validateRequired value)
  else if ruleName = "min" then fieldError field (validateMin value ruleValue)
  else if ruleName = "max" then fieldError field (validateMax value ruleValue)
  else if ruleName = "email" then fieldError field (validateEmail value)
  else none

/-- The loop of `validateField` over the rules of the tag. -/
def validateRules (field : String) (value : Value) : List String → Option Error
  | [] => none
  | rule :: rest =>
    match validateRule field value rule with
    | some err => some err
    | none => validateRules field value rest

/-- Go `(*Validator).validateField`. -/
def validateField (field : String) (value : Value) (tag : String) : Option Error :=
  validateRules field value (stringsSplit tag ',')

/-- The loop of `Validate` over the custom rules of one field. -/
def customRules (field : String) (value : Value) : List Rule → Option Error
  | [] => none
  | rule :: rest =>
    match rule.Validate value with
    | some err => some ("validação falhou para " ++ field ++ ": " ++ err)
    | none => customRules field value rest

/-- The loop of `Validate` over the fields of the struct. `value.Interface()`, evaluated
when the field has a `validate` tag and once per custom rule, panics on an unexported
field. -/
def validateFields (v : Validator) : List StructField → Outcome
  | [] => Outcome.returned none
  | field :: rest =>
    if field.tagGet "validate" ≠ "" ∧ !field.IsExported then Outcome.panicked
    else
      match (if field.tagGet "validate" ≠ "" then
          validateField field.Name field.Value (field.tagGet "validate") else none) with
      | some err => Outcome.returned (some err)
      | none =>
        if !(v.rules field.Name).isEmpty ∧ !field.IsExported then Outcome.panicked
        else
          match customRules field.Name field.Value (v.rules field.Name) with
          | some err => Outcome.returned (some err)
          | none => validateFields v rest

/-- Go `(*Validator).Validate` on a struct or a pointer to a struct. -/
def Validate (v : Validator) (model : Struct) : Outcome :=
  v.validateFields model.Fields

end Validator
/-! ## hooks/hooks.go -/

/-- Go `hooks.HookType`, an `int`. -/
abbrev HookType := Int

/-- Go `hooks.BeforeCreate`. -/
def BeforeCreate : HookType := 0
/-- Go `hooks.AfterCreate`. -/
def AfterCreate : HookType := 1
/-- Go `hooks.BeforeUpdate`. -/
def BeforeUpdate : HookType := 2
/-- Go `hooks.AfterUpdate`. -/
def AfterUpdate : HookType := 3
/-- Go `hooks.BeforeDelete`. -/
def BeforeDelete : HookType := 4
/-- Go `hooks.AfterDelete`. -/
def AfterDelete : HookType := 5
/-- Go `hooks.BeforeQuery`. -/
def BeforeQuery : HookType := 6
/-- Go `hooks.AfterQuery`. -/
def AfterQuery : HookType := 7

/-- Go `hooks.Hook`, a callback that returns: from the value it is handed (a pointer to a
struct) to the value it leaves behind and its `error` result. -/
abbrev Hook := Struct → Struct × Option Error

/-- Go `hooks.HookManager`: the hooks per type in the order of the slice; a type without an
entry in the map has the empty list. -/
structure HookManager where
  hooks : HookType → List Hook

/-- Go `NewHookManager`. -/
def NewHookManager : HookManager where
  hooks := fun _ => []

/-- One invocation of a hook by `Execute`: the type it was looked up under and its position
in the list of that type. -/
structure HookCall where
  hookType : HookType
  index : Nat
deriving DecidableEq, Repr

/-- What `Execute` leaves behind: the invocations it made, oldest first, the value after
them and its `error` result. -/
structure HookRun where
  invoked : List HookCall
  value : Struct
  err : Option Error
deriving DecidableEq, Repr

namespace HookManager

/-- Go `(*HookManager).Register`. -/
def Register (hm : HookManager) (hookType : HookType) (hook : Hook) : HookManager where
  hooks := fun t => if t = hookType then hm.hooks t ++ [hook] else hm.hooks t

/-- The loop of `Execute` over the hooks of the type, the next one being at position
`index`, after the invocations `invoked`. -/
def executeLoop (hookType : HookType) : List Hook → Nat → Struct → List HookCall → HookRun
  | [], _, value, invoked => { invoked := invoked, value := value, err := none }
  | hook :: rest, index, value, invoked =>
    match (hook value).2 with
    | some err =>
      { invoked := invoked ++ [⟨hookType, index⟩], value := (hook value).1, err := some err }
    | none => executeLoop hookType rest (index + 1) (hook value).1 (invoked ++ [⟨hookType, index⟩])

/-- Go `(*HookManager).Execute`. -/
def Execute (hm : HookManager) (hookType : HookType) (value : Struct) : HookRun :=
  executeLoop hookType (hm.hooks hookType) 0 value []

/-- Go `(*HookManager).HasHooks`. -/
def HasHooks (hm : HookManager) (hookType : HookType) : Bool :=
  decide ((hm.hooks hookType).length > 0)

end HookManager

/-! ## cache/cache.go -/

/-- Go `cache.Item`. -/
structure Item where
  Value : Value
  Expiration : Int
deriving DecidableEq, Repr

/-- Go `cache.Cache`: the content of its `sync.Map`. -/
structure Cache where
  items : String → Option Item

/-- Go `NewCache`: an empty map. -/
def NewCache : Cache where
  items := fun _ => none

/-- Go `(*Cache).Delete`. -/
def Cache.Delete (c : Cache) (key : String) : Cache where
  items := fun k => if k = key then none else c.items k

/-- Go `(*Cache).Set`, called at the instant `now`, a count of nanoseconds since the Unix
epoch; `duration` is a `time.Duration`, a count of nanoseconds. The expiration is
`time.Now().Add(duration).UnixNano()`, an `int64`. -/
def Cache.Set (c : Cache) (now : Int) (key : String) (value : Value) (duration : Int) :
    Cache where
  items := fun k =>
    if k = key then some { Value := value, Expiration := wrapInt64 (now + duration) }
    else c.items k

/-- Go `(*Cache).Get`, called at the instant `now`: the result (`none` is the miss
`nil, false`, `some v` the hit `v, true`) and the cache after the call. -/
def Cache.Get (c : Cache) (now : Int) (key : String) : Option Value × Cache :=
  match c.items key with
  | none => (none, c)
  | some cached =>
    if wrapInt64 now > cached.Expiration then (none, c.Delete key)
    else (some cached.Value, c)

/-- Go `(*Cache).Clear`. -/
def Cache.Clear (_c : Cache) : Cache where
  items := fun _ => none

/-! ## query/executor.go -/

/-- One call on a `*sql.DB` or `*sql.Tx` handle. -/
inductive SQLCall where
  | ExecContext (call : ExecCall)
  | QueryRowContext (call : ExecCall)
  | QueryContext (call : ExecCall)
deriving DecidableEq, Repr

/-- One step of transaction handling: a call of `BeginTx` on the database handle, a call of
`Rollback` or `Commit` on a transaction, or the invocation of the closure handed to
`RunInTransaction`. -/
inductive TxEvent where
  | BeginTx
  | Rollback
  | Commit
  | Closure
deriving DecidableEq, Repr

/-- A `*sql.DB` or `*sql.Tx` handle as the session uses it, each result a function of the
calls made before it during the operation: the error of `ExecContext`, the error that
`Scan` reports on the row of `QueryRowContext`, the error of `QueryContext` (`none` is
`nil`); and, as the transaction manager uses it, the error of `BeginTx` and the errors of
`Rollback` and `Commit` on the transaction begun, each a function of the transaction steps
so far. The `*sql.Tx` that `BeginTx` hands out is represented by the handle it was begun
on. -/
structure SessionDB where
  ExecContext : List SQLCall → ExecCall → Option Error
  QueryRowContext : List SQLCall → ExecCall → Option Error
  QueryContext : List SQLCall → ExecCall → Option Error
  BeginTx : List TxEvent → Option Error
  Rollback : List TxEvent → Option Error
  Commit : List TxEvent → Option Error

/-- Go `query.Executor`. -/
structure Executor where
  db : SessionDB
  builder : Builder

/-- Go `NewExecutor`. -/
def NewExecutor (db : SessionDB) (builder : Builder) : Executor where
  db := db
  builder := builder

/-- The destination handed to `QueryRow`, by what `reflect` finds in it: a value that is not
a pointer, a pointer to a struct, or a pointer to a value of another kind (such as the
`*int64` of `Find`). -/
inductive RowDest where
  | notPointer
  | pointerToStruct (s : Struct)
  | pointerToOther
deriving DecidableEq, Repr

/-- The destination handed to `Query` together with the rows the database returns: how
`scanRows` ends on them, given the builder's columns. -/
structure Dest where
  scanRows : List String → Outcome

namespace Executor

/-- The loop of `scanRow` over the builder's columns for a pointer to the struct `s`,
followed by `row.Scan(values...)`, which reports `scanErr`. -/
def scanRowLoop (s : Struct) (scanErr : Option Error) : List String → Outcome
  | [] => Outcome.returned scanErr
  | col :: rest =>
    match s.FieldByName col with
    | none => Outcome.returned (some ("campo " ++ col ++ " não encontrado na struct"))
    | some f => if f.IsExported then scanRowLoop s scanErr rest else Outcome.panicked

/-- Go `(*Executor).scanRow`. For a pointer to a value that is not a struct,
`t.FieldByName(col)` panics at the first column (`reflect.Type.FieldByName` panics on a type
whose kind is not `Struct`); without columns the loop is skipped and `row.Scan()` reports
`scanErr`. -/
def scanRow (e : Executor) (scanErr : Option Error) : RowDest → Outcome
  | RowDest.notPointer => Outcome.returned (some "destino deve ser um ponteiro")
  | RowDest.pointerToStruct s => scanRowLoop s scanErr e.builder.columns
  | RowDest.pointerToOther =>
    match e.builder.columns with
    | [] => Outcome.returned scanErr
    | _ :: _ => Outcome.panicked

/-- Go `(*Executor).QueryRow`, after the calls `executed`: the calls made so far and how it
ends. -/
def QueryRow (e : Executor) (executed : List SQLCall) (dest : RowDest) :
    List SQLCall × Outcome :=
  (executed ++ [SQLCall.QueryRowContext ⟨e.builder.BuildSelect.1, e.builder.BuildSelect.2⟩],
    e.scanRow
      (e.db.QueryRowContext executed ⟨e.builder.BuildSelect.1, e.builder.BuildSelect.2⟩) dest)

/-- Go `(*Executor).Query`, after the calls `executed`: the calls made so far and how it
ends. -/
def Query (e : Executor) (executed : List SQLCall) (dest : Dest) : List SQLCall × Outcome :=
  (executed ++ [SQLCall.QueryContext ⟨e.builder.BuildSelect.1, e.builder.BuildSelect.2⟩],
    match e.db.QueryContext executed ⟨e.builder.BuildSelect.1, e.builder.BuildSelect.2⟩ with
    | some err => Outcome.returned (some ("erro ao executar query: " ++ err))
    | none => dest.scanRows e.builder.columns)

end Executor

/-! ## scope/scope.go -/

/-- Go `scope.Scope`: from the builder it is handed to the builder it returns. -/
abbrev Scope := Builder → Builder

/-! ## transaction/manager.go -/

/-- A Go `error` value as its methods show it. A value of `errors.New`, or of `fmt.Errorf`
with a format that has no `%w` verb, has the method `Error` only; a value of `fmt.Errorf`
with one `%w` verb has, besides its text, the method `Unwrap`, which returns the operand of
that verb. -/
inductive ErrorValue where
  | errorString (s : String)
  | wrapError (msg : String) (err : ErrorValue)
deriving DecidableEq, Repr

/-- The method `Error()` of an error value: its text. -/
def ErrorValue.Error : ErrorValue → String
  | ErrorValue.errorString s => s
  | ErrorValue.wrapError msg _ => msg

/-- Go `errors.Unwrap`: the result of the value's `Unwrap` method, `none` (nil) for a value
without that method. -/
def errorsUnwrap : ErrorValue → Option ErrorValue
  | ErrorValue.errorString _ => none
  | ErrorValue.wrapError _ err => some err

/-- Go `errors.Is(err, target)`: whether `err` or an error of its `Unwrap` chain equals
`target`. Go compares the values with `==`, which for the pointer values of `errors.New`
and `fmt.Errorf` is identity; here values with the same content are equal, so `false` here
is `false` in Go. -/
def errorsIs : ErrorValue → ErrorValue → Bool
  | ErrorValue.errorString s, target => decide (ErrorValue.errorString s = target)
  | ErrorValue.wrapError msg err, target =>
    decide (ErrorValue.wrapError msg err = target) || errorsIs err target

/-- How a call that handles transactions ends: it returns its `error` result, a value
(`none` is `nil`), it panics, or the iteration budget of the model runs out before it
returns. -/
inductive TxOutcome where
  | returned (err : Option ErrorValue)
  | panicked
  | outOfFuel
deriving DecidableEq, Repr

/-- What a call that handles transactions leaves behind: the transaction steps so far,
oldest first, and how it ended. -/
structure TxRun where
  events : List TxEvent
  outcome : TxOutcome
deriving DecidableEq, Repr

/-- Go `transaction.TxManager`. -/
structure TxManager where
  db : SessionDB

/-- Go `NewTxManager`. -/
def NewTxManager (db : SessionDB) : TxManager where
  db := db

/-- Go `(*TxManager).RunInTransaction`, after the steps `executed`. The closure `fn` maps
the steps made before it runs to the steps after it has run and the way it ended. The
errors of `BeginTx`, `Rollback` and `Commit` and, when the rollback fails, the closure's
error are formatted with `%v` into the text of a new error; when the rollback succeeds the
closure's error is returned as it is. When `fn` panics the deferred function rolls back and
panics again. -/
def TxManager.RunInTransaction (tm : TxManager) (executed : List TxEvent)
    (fn : List TxEvent → TxRun) : TxRun :=
  match tm.db.BeginTx executed with
  | some err =>
    { events := executed ++ [TxEvent.BeginTx]
      outcome := TxOutcome.returned
        (some (ErrorValue.errorString ("erro ao iniciar transação: " ++ err))) }
  | none =>
    match (fn (executed ++ [TxEvent.BeginTx, TxEvent.Closure])).outcome with
    | TxOutcome.returned (some err) =>
      match tm.db.Rollback (fn (executed ++ [TxEvent.BeginTx, TxEvent.Closure])).events with
      | some rbErr =>
        { events := (fn (executed ++ [TxEvent.BeginTx, TxEvent.Closure])).events ++
            [TxEvent.Rollback]
          outcome := TxOutcome.returned
            (some (ErrorValue.errorString
              ("erro ao fazer rollback: " ++ rbErr ++ " (erro original: " ++ err.Error ++
                ")"))) }
      | none =>
        { events := (fn (executed ++ [TxEvent.BeginTx, TxEvent.Closure])).events ++
            [TxEvent.Rollback]
          outcome := TxOutcome.returned (some err) }
    | TxOutcome.returned none =>
      match tm.db.Commit (fn (executed ++ [TxEvent.BeginTx, TxEvent.Closure])).events with
      | some err =>
        { events := (fn (executed ++ [TxEvent.BeginTx, TxEvent.Closure])).events ++
            [TxEvent.Commit]
          outcome := TxOutcome.returned
            (some (ErrorValue.errorString ("erro ao fazer commit: " ++ err))) }
      | none =>
        { events := (fn (executed ++ [TxEvent.BeginTx, TxEvent.Closure])).events ++
            [TxEvent.Commit]
          outcome := TxOutcome.returned none }
    | TxOutcome.panicked =>
      { events := (fn (executed ++ [TxEvent.BeginTx, TxEvent.Closure])).events ++
          [TxEvent.Rollback]
        outcome := TxOutcome.panicked }
    | TxOutcome.outOfFuel =>
      { events := (fn (executed ++ [TxEvent.BeginTx, TxEvent.Closure])).events
        outcome := TxOutcome.outOfFuel }

/-! ## session/manager.go -/

/-- Go `session.Session`, with the fields that the model handler and `Transaction` read: the
database handle, the dialect, the transaction the session is bound to (`none` is `nil`),
the transaction manager, the cache, the hook registry and the validator. -/
structure Session where
  db : SessionDB
  dialect : Dialect
  tx : Option SessionDB
  txManager : TxManager
  cache : Cache
  hooks : HookManager
  validator : Validator

/-- Go `NewSession`. -/
def NewSession (db : SessionDB) (dialect : Dialect) : Session where
  db := db
  dialect := dialect
  tx := none
  txManager := NewTxManager db
  cache := NewCache
  hooks := NewHookManager
  validator := NewValidator

namespace Session

/-- Go `(*Session).Query`. -/
def Query (s : Session) : Builder :=
  NewBuilder s.dialect

/-- Go `(*Session).Exec`: an executor on the transaction when the session is bound to one,
on the database handle otherwise. `NewExecutorTx`, which the repository does not define, is
read as `NewExecutor` on the transaction handle. -/
def Exec (s : Session) (builder : Builder) : Executor :=
  match s.tx with
  | some tx => NewExecutor tx builder
  | none => NewExecutor s.db builder

/-- Go `(*Session).RegisterHook`. -/
def RegisterHook (s : Session) (hookType : HookType) (hook : Hook) : Session :=
  { s with hooks := s.hooks.Register hookType hook }

/-- The session that `Transaction` hands to its closure: the fields of `s` with `tx` set to
the transaction begun by the transaction manager. -/
def txSession (s : Session) : Session :=
  { s with tx := some s.txManager.db }

/-- Go `(*Session).Transaction`, after the steps `executed`. The closure `fn` maps the
session it is handed and the steps made before it runs to the steps after it has run and the
way it ended. -/
def Transaction (s : Session) (executed : List TxEvent)
    (fn : Session → List TxEvent → TxRun) : TxRun :=
  s.txManager.RunInTransaction executed (fun steps => fn s.txSession steps)

end Session

/-! ## session/model.go -/

/-- Go `session.ModelHandler`; a nil `*pagination.Paginator` is `none`. -/
structure ModelHandler where
  session : Session
  model : Struct
  mapping : TableMapping
  includeTrashed : Bool
  onlyTrashed : Bool
  preloadFields : List String
  scopes : List Scope
  paginator : Option Paginator

/-- Go `NewModelHandler`. -/
def NewModelHandler (session : Session) (model : Struct) : ModelHandler where
  session := session
  model := model
  mapping := Parser.Parse model
  includeTrashed := false
  onlyTrashed := false
  preloadFields := []
  scopes := []
  paginator := none

/-- Go `(*Session).Model`. -/
def Session.Model (s : Session) (model : Struct) : ModelHandler :=
  NewModelHandler s model

/-- What `Create` leaves behind: the calls made on the database handle and the hook
invocations, oldest first, the cache, the record it was handed and how it ended. -/
structure CreateRun where
  calls : List SQLCall
  hooks : List HookCall
  cache : Cache
  data : Struct
  outcome : Outcome

/-- What `Update` or `Delete` leaves behind: the calls made on the database handle and the
hook invocations, oldest first, the cache and how it ended. -/
structure WriteRun where
  calls : List SQLCall
  hooks : List HookCall
  cache : Cache
  outcome : Outcome

/-- What `Find` leaves behind: the calls made on the database handle, oldest first, the
handler's paginator and how it ended. -/
structure FindRun where
  calls : List SQLCall
  paginator : Option Paginator
  outcome : Outcome
deriving DecidableEq, Repr

namespace ModelHandler

/-- Go `(*ModelHandler).joinWith`. -/
def joinWith (_m : ModelHandler) : List String → String → String
  | [], _ => ""
  | item :: rest, sep => rest.foldl (fun result item => result ++ (sep ++ item)) item

/-- Go `(*ModelHandler).joinWithComma`. -/
def joinWithComma (m : ModelHandler) (items : List String) : String :=
  m.joinWith items ", "

/-- Go `(*ModelHandler).joinWithAnd`. -/
def joinWithAnd (m : ModelHandler) (items : List String) : String :=
  m.joinWith items " AND "

/-- Go `(*ModelHandler).buildColumnList`. -/
def buildColumnList (m : ModelHandler) (columns : List String) : String :=
  m.joinWithComma (columns.map m.session.dialect.Quote)

/-- Go `(*ModelHandler).buildPlaceholders`. -/
def buildPlaceholders (m : ModelHandler) (count : Nat) : String :=
  m.joinWithComma (List.replicate count "?")

/-- The loop of `Create` over the mapping's fields, after the columns and values collected so
far; `none` when `v.FieldByName(field.Name).Interface()` panics. -/
def createLoop (v : Struct) :
    List FieldMapping → List String → List Value → Option (List String × List Value)
  | [], columns, values => some (columns, values)
  | field :: rest, columns, values =>
    if field.IsAutoInc then createLoop v rest columns values
    else
      match fieldInterface (v.FieldByName field.Name) with
      | none => none
      | some x => createLoop v rest (columns ++ [field.Name]) (values ++ [x])

/-- The statement that `Create` builds from the collected columns and values. -/
def insertCall (m : ModelHandler) (columns : List String) (values : List Value) : ExecCall where
  query := "INSERT INTO " ++ m.session.dialect.Quote m.mapping.TableName ++ " (" ++
    m.buildColumnList columns ++ ") VALUES (" ++ m.buildPlaceholders columns.length ++ ")"
  args := values

/-- Go `(*ModelHandler).Create` on a pointer to a struct. -/
def Create (m : ModelHandler) (data : Struct) : CreateRun :=
  match m.session.validator.Validate data with
  | Outcome.returned none =>
    let before := m.session.hooks.Execute BeforeCreate data
    match before.err with
    | some err =>
      { calls := [], hooks := before.invoked, cache := m.session.cache, data := before.value,
        outcome := Outcome.returned (some err) }
    | none =>
      match createLoop before.value m.mapping.Fields [] [] with
      | none =>
        { calls := [], hooks := before.invoked, cache := m.session.cache,
          data := before.value, outcome := Outcome.panicked }
      | some (columns, values) =>
        match m.session.db.ExecContext [] (m.insertCall columns values) with
        | some err =>
          { calls := [SQLCall.ExecContext (m.insertCall columns values)],
            hooks := before.invoked, cache := m.session.cache, data := before.value,
            outcome := Outcome.returned (some err) }
        | none =>
          let after := m.session.hooks.Execute AfterCreate before.value
          match after.err with
          | some err =>
            { calls := [SQLCall.ExecContext (m.insertCall columns values)],
              hooks := before.invoked ++ after.invoked, cache := m.session.cache,
              data := after.value, outcome := Outcome.returned (some err) }
          | none =>
            { calls := [SQLCall.ExecContext (m.insertCall columns values)],
              hooks := before.invoked ++ after.invoked,
              cache := m.session.cache.Delete ("table:" ++ m.mapping.TableName),
              data := after.value, outcome := Outcome.returned none }
  | o =>
    { calls := [], hooks := [], cache := m.session.cache, data := data, outcome := o }

/-- The builder of `Find` before pagination: the session's builder on the table, the scopes
applied in the order of `m.scopes`, then one `Where` per condition. -/
def findBuilder (m : ModelHandler) (conditions : List Condition) : Builder :=
  conditions.foldl (fun builder cond => builder.Where cond.Column cond.Operation cond.Value)
    (m.scopes.foldl (fun builder scope => scope builder)
      (m.session.Query.Table m.mapping.TableName))

/-- The builder of the count query of `Find`. -/
def countBuilder (m : ModelHandler) : Builder :=
  (m.session.Query.Table m.mapping.TableName).Select ["COUNT(*) as count"]

/-- Go `(*ModelHandler).Find`. The local `count` is still `0` when `SetTotal` is reached:
`scanRow` stores nothing in `&count`. -/
def Find (m : ModelHandler) (dest : Dest) (conditions : List Condition) : FindRun :=
  let builder := m.findBuilder conditions
  match m.paginator with
  | some paginator =>
    let counted := (m.session.Exec m.countBuilder).QueryRow [] RowDest.pointerToOther
    match counted.2 with
    | Outcome.returned none =>
      let paginator := paginator.SetTotal 0
      let builder := (builder.Limit paginator.Limit).Offset paginator.Offset
      let found := (m.session.Exec builder).Query counted.1 dest
      { calls := found.1, paginator := some paginator, outcome := found.2 }
    | o => { calls := counted.1, paginator := some paginator, outcome := o }
  | none =>
    let found := (m.session.Exec builder).Query [] dest
    { calls := found.1, paginator := none, outcome := found.2 }

/-- The loop of `Update` over the mapping's fields, after the assignments and values
collected so far; `none` when `v.FieldByName(field.Name).Interface()` panics. -/
def updateFields (m : ModelHandler) (v : Struct) :
    List FieldMapping → List String → List Value → Option (List String × List Value)
  | [], updates, values => some (updates, values)
  | field :: rest, updates, values =>
    if field.IsPrimaryKey || field.IsAutoInc then updateFields m v rest updates values
    else
      match fieldInterface (v.FieldByName field.Name) with
      | none => none
      | some x =>
        updateFields m v rest (updates ++ [m.session.dialect.Quote field.Name ++ " = ?"])
          (values ++ [x])

/-- The texts `<quoted column> <operation> ?` that `Update` and `Delete` build from the
conditions. -/
def whereTexts (m : ModelHandler) (conditions : List Condition) : List String :=
  conditions.map (fun cond => m.session.dialect.Quote cond.Column ++ " " ++ cond.Operation ++ " ?")

/-- The statement that `Update` builds from the collected assignments and values and the
conditions. -/
def updateCall (m : ModelHandler) (updates : List String) (values : List Value)
    (conditions : List Condition) : ExecCall where
  query := "UPDATE " ++ m.session.dialect.Quote m.mapping.TableName ++ " SET " ++
    m.joinWithComma updates ++ " WHERE " ++ m.joinWithAnd (m.whereTexts conditions)
  args := values ++ conditions.map (fun cond => cond.Value)

/-- Go `(*ModelHandler).Update` on a struct or a pointer to a struct. -/
def Update (m : ModelHandler) (data : Struct) (conditions : List Condition) : WriteRun :=
  match m.updateFields data m.mapping.Fields [] [] with
  | none => { calls := [], hooks := [], cache := m.session.cache, outcome := Outcome.panicked }
  | some (updates, values) =>
    { calls := [SQLCall.ExecContext (m.updateCall updates values conditions)]
      hooks := []
      cache := m.session.cache
      outcome :=
        Outcome.returned (m.session.db.ExecContext [] (m.updateCall updates values conditions)) }

/-- The statement that `Delete` builds from the conditions. -/
def deleteCall (m : ModelHandler) (conditions : List Condition) : ExecCall where
  query := "DELETE FROM " ++ m.session.dialect.Quote m.mapping.TableName ++ " WHERE " ++
    m.joinWithAnd (m.whereTexts conditions)
  args := conditions.map (fun cond => cond.Value)

/-- Go `(*ModelHandler).Delete`. -/
def Delete (m : ModelHandler) (conditions : List Condition) : WriteRun where
  calls := [SQLCall.ExecContext (m.deleteCall conditions)]
  hooks := []
  cache := m.session.cache
  outcome := Outcome.returned (m.session.db.ExecContext [] (m.deleteCall conditions))

/-- Go `(*ModelHandler).WithTrashed`. -/
def WithTrashed (m : ModelHandler) : ModelHandler :=
  { m with includeTrashed := true }

/-- Go `(*ModelHandler).OnlyTrashed`. -/
def OnlyTrashed (m : ModelHandler) : ModelHandler :=
  { m with onlyTrashed := true }

/-- Go `(*ModelHandler).Preload`. -/
def Preload (m : ModelHandler) (fields : List String) : ModelHandler :=
  { m with preloadFields := m.preloadFields ++ fields }

/-- Go `(*ModelHandler).Scope`. -/
def Scope (m : ModelHandler) (scopes : List Scope) : ModelHandler :=
  { m with scopes := m.scopes ++ scopes }

/-- Go `(*ModelHandler).Paginate`. -/
def Paginate (m : ModelHandler) (page perPage : Int) : ModelHandler :=
  { m with paginator := some (NewPaginator page perPage) }

/-- Go `(*ModelHandler).GetPagination`; `none` is the nil result. -/
def GetPagination (m : ModelHandler) : Option PageInfo :=
  m.paginator.map Paginator.GetInfo

end ModelHandler

/-! ## Hooks, sessions and records used in the properties -/

/-- The value after the first `k` hooks of the list have run, in order, on `value`. -/
def hooksValue (hs : List Hook) (value : Struct) (k : Nat) : Struct :=
  (hs.take k).foldl (fun v h => (h v).1) value

/-- A hook that leaves the value alone and returns `nil`. -/
def passingHook : Hook :=
  fun v => (v, none)

/-- A hook that leaves the value alone and returns the error `msg`. -/
def failingHook (msg : Error) : Hook :=
  fun v => (v, some msg)

/-- The registry after registering, in this order, a passing before-create hook, a failing
after-create hook, a failing before-create hook and another passing before-create hook. -/
def sampleHooks : HookManager :=
  (((NewHookManager.Register BeforeCreate passingHook).Register AfterCreate
    (failingHook "after")).Register BeforeCreate (failingHook "second")).Register
    BeforeCreate passingHook

/-- A database handle on which every call succeeds. -/
def okDB : SessionDB where
  ExecContext := fun _ _ => none
  QueryRowContext := fun _ _ => none
  QueryContext := fun _ _ => none
  BeginTx := fun _ => none
  Rollback := fun _ => none
  Commit := fun _ => none

/-- A destination on which `scanRows` returns `nil`. -/
def okDest : Dest where
  scanRows := fun _ => Outcome.returned none

/-- The tests' session: `NewSession(db, config.TestDialect())`, the test dialect being
MySQL. -/
def testSession (db : SessionDB) : Session :=
  NewSession db NewMySQL

/-- The record of the tests' `Create`:
`&models.User{Name: "John Doe", Email: "john@example.com", Age: 25}`. -/
def johnDoe : Struct :=
  User 0 "John Doe" "john@example.com" 25 zeroTime

/-- The record of the tests' `Update`: `&models.User{Name: "John Updated"}`. -/
def johnUpdated : Struct :=
  User 0 "John Updated" "" 0 zeroTime

/-- The condition of the tests' `Find`, `Update` and `Delete`:
`query.Condition{Column: "email", Operation: query.OpEq, Value: "john@example.com"}`. -/
def emailIsJohn : Condition :=
  { Column := "email", Operation := OpEq, Value := Value.str "john@example.com" }

/-- The scope that adds the condition `c` with `Where`. -/
def whereScope (c : Condition) : Scope :=
  fun builder => builder.Where c.Column c.Operation c.Value

/-- The tests' session with the hooks of `sampleHooks` registered. -/
def hookedSession : Session :=
  { testSession okDB with hooks := sampleHooks }

/-- The tests' session with an entry under `table:account` in its cache. -/
def cachedSession : Session :=
  { testSession okDB with
    cache := { items := fun k => if k = "table:account" then some ⟨Value.int 1, 0⟩ else none } }

/-- A struct whose `db` tags name the columns exactly as the Go fields are named:
`type Account struct { ID int; Name string; Email string }` with the tags
`db:"ID,primarykey,autoincrement"`, `db:"Name"` and `db:"Email"`. -/
def Account (id : Int) (name email : String) : Struct where
  Name := "Account"
  Fields :=
    [ { Name := "ID", PkgPath := "", Type_ := "int",
        Tag := [("db", "ID,primarykey,autoincrement")], Value := Value.int id },
      { Name := "Name", PkgPath := "", Type_ := "string",
        Tag := [("db", "Name")], Value := Value.str name },
      { Name := "Email", PkgPath := "", Type_ := "string",
        Tag := [("db", "Email")], Value := Value.str email } ]

/-- A session on MySQL whose cache holds an entry under `table:account` and whose only hook
is an after-create hook that fails. -/
def staleSession : Session :=
  { (testSession okDB).RegisterHook AfterCreate (failingHook "after-create failed") with
    cache := { items := fun k => if k = "table:account" then some ⟨Value.int 1, 0⟩ else none } }

/-! ## query/builder.go: `BuildSelect` statement by statement -/

/-- The memory that a call of `(*Builder).BuildSelect` works on: the struct its receiver
points to, and its local variables, the `strings.Builder` and the three slices it makes. -/
structure SelectFrame where
  receiver : Builder
  builder : String
  quotedColumns : List String
  whereConditions : List String
  havingConditions : List String

namespace SelectFrame

/-- The statement `builder.WriteString(text)`. -/
def WriteString (f : SelectFrame) (text : String) : SelectFrame :=
  { f with builder := f.builder ++ text }

/-- The loop `for i, col := range b.columns { quotedColumns[i] = b.dialect.Quote(col) }`
from index `i` on, over the elements still to visit. -/
def quoteLoop : Nat → List String → SelectFrame → SelectFrame
  | _, [], f => f
  | i, col :: rest, f =>
    quoteLoop (i + 1) rest
      { f with quotedColumns := f.quotedColumns.set i (f.receiver.dialect.Quote col) }

/-- The loop `for i, cond := range b.conditions { whereConditions[i] = ... }` from index `i`
on, over the elements still to visit. -/
def whereLoop : Nat → List Condition → SelectFrame → SelectFrame
  | _, [], f => f
  | i, cond :: rest, f =>
    whereLoop (i + 1) rest
      { f with
        whereConditions := f.whereConditions.set i
          (f.receiver.dialect.Quote cond.Column ++ " " ++ cond.Operation ++ " " ++
            f.receiver.dialect.Placeholder ((i + 1 : Nat) : Int)) }

/-- The loop `for i, cond := range b.having { havingConditions[i] = ... }` from index `i` on,
over the elements still to visit, with the local `paramOffset`. -/
def havingLoop (paramOffset : Nat) : Nat → List Condition → SelectFrame → SelectFrame
  | _, [], f => f
  | i, cond :: rest, f =>
    havingLoop paramOffset (i + 1) rest
      { f with
        havingConditions := f.havingConditions.set i
          (f.receiver.dialect.Quote cond.Column ++ " " ++ cond.Operation ++ " " ++
            f.receiver.dialect.Placeholder ((paramOffset + i + 1 : Nat) : Int)) }

/-- The statements of `BuildSelect` that write the column list. -/
def writeColumns (f : SelectFrame) : SelectFrame :=
  if f.receiver.columns.length = 0 then f.WriteString "*"
  else
    let f := { f with quotedColumns := List.replicate f.receiver.columns.length "" }
    let f := quoteLoop 0 f.receiver.columns f
    f.WriteString (stringsJoin f.quotedColumns ", ")

/-- The statements of `BuildSelect` that write the FROM clause. -/
def writeFrom (f : SelectFrame) : SelectFrame :=
  let f := f.WriteString " FROM "
  f.WriteString (f.receiver.dialect.Quote f.receiver.table)

/-- The statements of `BuildSelect` that write the JOIN clauses. -/
def writeJoins (f : SelectFrame) : SelectFrame :=
  if f.receiver.joins.length > 0 then
    let f := f.WriteString " "
    f.WriteString (stringsJoin f.receiver.joins " ")
  else f

/-- The statements of `BuildSelect` that write the WHERE clause. -/
def writeWhere (f : SelectFrame) : SelectFrame :=
  if f.receiver.conditions.length > 0 then
    let f := f.WriteString " WHERE "
    let f := { f with whereConditions := List.replicate f.receiver.conditions.length "" }
    let f := whereLoop 0 f.receiver.conditions f
    f.WriteString (stringsJoin f.whereConditions " AND ")
  else f

/-- The statements of `BuildSelect` that write the GROUP BY clause. -/
def writeGroupBy (f : SelectFrame) : SelectFrame :=
  if f.receiver.groupBy.length > 0 then
    let f := f.WriteString " GROUP BY "
    f.WriteString (stringsJoin f.receiver.groupBy ", ")
  else f

/-- The statements of `BuildSelect` that write the HAVING clause. -/
def writeHaving (f : SelectFrame) : SelectFrame :=
  if f.receiver.having.length > 0 then
    let f := f.WriteString " HAVING "
    let f := { f with havingConditions := List.replicate f.receiver.having.length "" }
    let paramOffset := f.receiver.conditions.length
    let f := havingLoop paramOffset 0 f.receiver.having f
    f.WriteString (stringsJoin f.havingConditions " AND ")
  else f

/-- The statements of `BuildSelect` that write the ORDER BY clause. -/
def writeOrderBy (f : SelectFrame) : SelectFrame :=
  if f.receiver.orderBy.length > 0 then
    let f := f.WriteString " ORDER BY "
    f.WriteString (stringsJoin f.receiver.orderBy ", ")
  else f

/-- The statements of `BuildSelect` that write the LIMIT clause. -/
def writeLimit (f : SelectFrame) : SelectFrame :=
  match f.receiver.limit with
  | some limit => f.WriteString (" LIMIT " ++ toString limit)
  | none => f

/-- The statements of `BuildSelect` that write the OFFSET clause. -/
def writeOffset (f : SelectFrame) : SelectFrame :=
  match f.receiver.offset with
  | some offset => f.WriteString (" OFFSET " ++ toString offset)
  | none => f

/-- The body of `BuildSelect` up to its `return`, statement by statement. -/
def run (f : SelectFrame) : SelectFrame :=
  let f := f.WriteString "SELECT "
  let f := f.writeColumns
  let f := f.writeFrom
  let f := f.writeJoins
  let f := f.writeWhere
  let f := f.writeGroupBy
  let f := f.writeHaving
  let f := f.writeOrderBy
  let f := f.writeLimit
  f.writeOffset

end SelectFrame

/-- Go `(*Builder).BuildSelect` as a method on its pointer receiver, in state-passing form:
the call starts with the struct `b` behind the receiver and zero-valued locals, runs the
body, and returns `builder.String()` and `b.params`; the second component is the struct
behind the receiver when the call returns. -/
def Builder.BuildSelectCall (b : Builder) : (String × List Value) × Builder :=
  let f := SelectFrame.run
    { receiver := b, builder := "", quotedColumns := [], whereConditions := [],
      havingConditions := [] }
  ((f.builder, f.receiver.params), f.receiver)

/-! ## Records, destinations and numerals used in the properties of the last sections -/

/-- The integer that a decimal numeral denotes: an optional `-` followed by one or more
decimal digits; `none` for any other text. -/
def decimalValue (text : String) : Option Int :=
  match text.data with
  | [] => none
  | '-' :: [] => none
  | '-' :: d :: ds => (digitsValue (d :: ds) 0).map (fun n => -(n : Int))
  | d :: ds => (digitsValue (d :: ds) 0).map (fun n => (n : Int))

/-- A struct `type Sample struct { <name> <typeText> }` whose one field, exported, carries
the tag `validate:"<rules>"` and holds `value`. -/
def oneField (name typeText rules : String) (value : Value) : Struct where
  Name := "Sample"
  Fields :=
    [ { Name := name, PkgPath := "", Type_ := typeText, Tag := [("validate", rules)],
        Value := value } ]

/-- The tests' `models.Post` holding the given values; `User` is a nil `*User`. -/
def Post (id : Int) (title content : String) (userID : Int) : Struct where
  Name := "Post"
  Fields :=
    [ { Name := "ID", PkgPath := "", Type_ := "int",
        Tag := [("db", "id,primarykey,autoincrement")], Value := Value.int id },
      { Name := "Title", PkgPath := "", Type_ := "string",
        Tag := [("db", "title,size:255"), ("validate", "required")],
        Value := Value.str title },
      { Name := "Content", PkgPath := "", Type_ := "string",
        Tag := [("db", "content")], Value := Value.str content },
      { Name := "UserID", PkgPath := "", Type_ := "int",
        Tag := [("db", "user_id")], Value := Value.int userID },
      { Name := "User", PkgPath := "", Type_ := "*models.User",
        Tag := [("db", "-")], Value := Value.null } ]

/-- A destination that is a pointer to a struct, such as the `&loadedPost` of the tests:
`scanRows` returns at its first test, the destination not being a pointer to a slice. -/
def structDest : Dest where
  scanRows := fun _ => Outcome.returned (some "destino deve ser um ponteiro para slice")

/-- A closure for a transaction that makes no transaction step of its own and ends as
`outcome`. -/
def plainClosure (outcome : TxOutcome) : List TxEvent → TxRun :=
  fun steps => { events := steps, outcome := outcome }

/-- The error value `errors.New("insert failed")`. -/
def insertFailed : ErrorValue :=
  ErrorValue.errorString "insert failed"

/-- A database handle on which every call succeeds except `Rollback`, which fails. -/
def rollbackFails : SessionDB :=
  { okDB with Rollback := fun _ => some "connection lost" }

/-- An instant in January 2027, in nanoseconds since the Unix epoch. -/
def someInstant : Int := 1800000000000000000

/-- The largest `time.Duration`, `1<<63 - 1` nanoseconds. -/
def maxDuration : Int := 2 ^ 63 - 1

theorem renderConditions_eq (d : Dialect) (paramOffset : Nat) (conds : List Condition) (i : Nat) :
    Builder.renderConditions d paramOffset i conds =
      conditionTexts d (paramOffset + i + 1) conds := by
  induction conds generalizing i with
  | nil => simp [Builder.renderConditions, conditionTexts]
  | cons c rest ih =>
    simp only [Builder.renderConditions, conditionTexts, List.length_cons, List.range'_succ,
      List.zipWith_cons_cons]
    rw [ih (i + 1)]
    simp [conditionTexts, Nat.add_assoc]

theorem whereConditions_eq (b : Builder) :
    b.whereConditions = conditionTexts b.dialect 1 b.conditions := by
  simp [Builder.whereConditions, renderConditions_eq]

theorem havingConditions_eq (b : Builder) :
    b.havingConditions = conditionTexts b.dialect (b.conditions.length + 1) b.having := by
  simp [Builder.havingConditions, renderConditions_eq]

theorem append_ite_empty (c : Prop) [Decidable c] (s x : String) :
    (if c then s else s ++ x) = s ++ (if c then "" else x) := by
  split <;> simp

theorem append_ite_nonempty (c : Prop) [Decidable c] (s x : String) :
    (if c then s ++ x else s) = s ++ (if c then x else "") := by
  split <;> simp

theorem append_append_ite_nonempty (c : Prop) [Decidable c] (s x y : String) :
    (if c then s ++ x ++ y else s) = s ++ (if c then x ++ y else "") := by
  split <;> simp [String.append_assoc]

theorem BuildSelect_text (b : Builder) :
    b.BuildSelect.1 =
      selectClause b ++ fromClause b ++ joinClause b ++ whereClause b ++ groupByClause b ++
        havingClause b ++ orderByClause b ++ limitClause b ++ offsetClause b := by
  have hlim : ∀ s : String, (match b.limit with
      | some limit => s ++ (" LIMIT " ++ toString limit)
      | none => s) = s ++ limitClause b := by
    intro s; unfold limitClause; cases b.limit <;> simp
  have hoff : ∀ s : String, (match b.offset with
      | some offset => s ++ (" OFFSET " ++ toString offset)
      | none => s) = s ++ offsetClause b := by
    intro s; unfold offsetClause; cases b.offset <;> simp
  have hsel : (if b.columns.length = 0 then "SELECT " ++ "*"
      else "SELECT " ++ stringsJoin (b.columns.map b.dialect.Quote) ", ") = selectClause b := by
    unfold selectClause; simp only [List.length_eq_zero]; split <;> rfl
  simp only [Builder.BuildSelect, hlim, hoff, hsel, whereConditions_eq, havingConditions_eq,
    append_append_ite_nonempty]
  simp only [fromClause, joinClause, whereClause, groupByClause, havingClause,
    orderByClause, gt_iff_lt, List.length_pos, ne_eq, ite_not,
    String.append_assoc]

theorem toString_natCast (k : Nat) : toString ((k : Nat) : Int) = toString k := rfl

theorem conditionTexts_length (d : Dialect) (first : Nat) (conds : List Condition) :
    (conditionTexts d first conds).length = conds.length := by
  simp [conditionTexts]

theorem conditionTexts_getElem? (d : Dialect) (conds : List Condition) (first i : Nat) :
    (conditionTexts d first conds)[i]? =
      (conds[i]?).map (fun c =>
        d.Quote c.Column ++ " " ++ c.Operation ++ " " ++ d.Placeholder ((first + i : Nat) : Int)) := by
  induction conds generalizing first i with
  | nil => simp [conditionTexts]
  | cons c rest ih =>
    cases i with
    | zero => simp [conditionTexts, List.range'_succ]
    | succ i =>
      have h := ih (first + 1) i
      simp only [conditionTexts, List.length_cons, List.range'_succ, List.zipWith_cons_cons,
        List.getElem?_cons_succ] at h ⊢
      rw [h]
      have e : first + 1 + i = first + (i + 1) := by omega
      rw [e]

/-- C1 (refuted on the code): the chain `Table("users").Having("total", ">", 100).Where("age",
">", 18)` on a fresh PostgreSQL builder. `BuildSelect` returns the parameters in call order,
`[100, 18]`, while it numbers the WHERE condition `$1` and the HAVING condition `$2`: position 1
of the parameter sequence holds the HAVING value 100, not the WHERE condition's value 18. -/
theorem C1_having_before_where_misaligned :
    havingBeforeWhere.BuildSelect =
        ("SELECT * FROM \"users\" WHERE \"age\" > $1 HAVING \"total\" > $2",
          [Value.int 100, Value.int 18]) ∧
      havingBeforeWhere.whereConditions = ["\"age\" > $1"] ∧
      havingBeforeWhere.havingConditions = ["\"total\" > $2"] ∧
      havingBeforeWhere.conditions.map Condition.Value = [Value.int 18] ∧
      havingBeforeWhere.having.map Condition.Value = [Value.int 100] ∧
      havingBeforeWhere.BuildSelect.2[0]? = some (Value.int 100) := by
  decide

/-- C2: on the SQLite dialect, `Table(t).Where(c, op, v)` on a fresh builder builds exactly
`SELECT * FROM "t" WHERE "c" op ?` with the parameter sequence `[v]`, for every `t`, `c`, `op`
and `v`; for `users`, `age`, `>` and `18` this is `SELECT * FROM "users" WHERE "age" > ?` with
parameters `[18]`. -/
theorem C2_sqlite_single_where (t c : String) (op : Operation) (v : Value) :
    (((NewBuilder NewSQLite).Table t).Where c op v).BuildSelect =
        ("SELECT * FROM \"" ++ t ++ "\" WHERE \"" ++ c ++ "\" " ++ op ++ " ?", [v]) ∧
      (((NewBuilder NewSQLite).Table "users").Where "age" OpGt (Value.int 18)).BuildSelect =
        ("SELECT * FROM \"users\" WHERE \"age\" > ?", [Value.int 18]) := by
  constructor
  · simp only [Builder.BuildSelect, NewBuilder, Builder.Table, Builder.Where,
      Builder.whereConditions, Builder.renderConditions, NewSQLite, SQLite.Quote,
      SQLite.Placeholder, stringsJoin]
    simp
    apply String.ext
    simp [String.data_append]
  · decide

/-- C3: on the PostgreSQL dialect, for a builder with `n` WHERE and `m` HAVING conditions, the
`i`-th WHERE condition (0-based) is rendered `"column" op $(i+1)` and the `j`-th HAVING
condition `"column" op $(n+j+1)`; the text of `BuildSelect` holds the `n` WHERE texts joined by
` AND ` and, further right, the `m` HAVING texts joined by ` AND `, so that the placeholders
read `$1 .. $(n+m)` from left to right. One WHERE condition gives `$1`, and a HAVING condition
added to it gives `$2`. -/
theorem C3_postgres_placeholders_numbered (b : Builder) (h : b.dialect = NewPostgreSQL) :
    (b.whereConditions.length = b.conditions.length ∧
      b.havingConditions.length = b.having.length) ∧
    (∀ (i : Nat) (c : Condition), b.conditions[i]? = some c →
      b.whereConditions[i]? =
        some ("\"" ++ c.Column ++ "\" " ++ c.Operation ++ " $" ++ toString (i + 1))) ∧
    (∀ (j : Nat) (c : Condition), b.having[j]? = some c →
      b.havingConditions[j]? =
        some ("\"" ++ c.Column ++ "\" " ++ c.Operation ++ " $" ++
          toString (b.conditions.length + j + 1))) ∧
    b.BuildSelect.1 =
      selectClause b ++ fromClause b ++ joinClause b ++
        (if b.conditions = [] then "" else " WHERE " ++ stringsJoin b.whereConditions " AND ") ++
        groupByClause b ++
        (if b.having = [] then "" else " HAVING " ++ stringsJoin b.havingConditions " AND ") ++
        orderByClause b ++ limitClause b ++ offsetClause b ∧
    (((NewBuilder NewPostgreSQL).Table "users").Where "age" OpGt (Value.int 18)).BuildSelect.1 =
      "SELECT * FROM \"users\" WHERE \"age\" > $1" ∧
    ((((NewBuilder NewPostgreSQL).Table "users").Where "age" OpGt (Value.int 18)).Having
        "total" OpGt (Value.int 100)).BuildSelect.1 =
      "SELECT * FROM \"users\" WHERE \"age\" > $1 HAVING \"total\" > $2" := by
  refine ⟨⟨?_, ?_⟩, ?_, ?_, ?_, by decide, by decide⟩
  · rw [whereConditions_eq, conditionTexts_length]
  · rw [havingConditions_eq, conditionTexts_length]
  · intro i c hc
    rw [whereConditions_eq, conditionTexts_getElem?, hc, h]
    simp only [Option.map_some', NewPostgreSQL, PostgreSQL.Quote, PostgreSQL.Placeholder,
      toString_natCast, Nat.add_comm 1 i, Option.some.injEq]
    apply String.ext
    simp [String.data_append]
  · intro j c hc
    rw [havingConditions_eq, conditionTexts_getElem?, hc, h]
    simp only [Option.map_some', NewPostgreSQL, PostgreSQL.Quote, PostgreSQL.Placeholder,
      toString_natCast, Nat.add_right_comm _ 1 j, Option.some.injEq]
    apply String.ext
    simp [String.data_append]
  · rw [BuildSelect_text, whereConditions_eq, havingConditions_eq]
    rfl

/-- Witness for C3: the builder of `Table("users").Where("age", ">", 18).Having("total", ">",
100)` on PostgreSQL. -/
theorem C3_postgres_placeholders_numbered_witness :
    ((((NewBuilder NewPostgreSQL).Table "users").Where "age" OpGt (Value.int 18)).Having
        "total" OpGt (Value.int 100)).dialect = NewPostgreSQL ∧
    ((((NewBuilder NewPostgreSQL).Table "users").Where "age" OpGt (Value.int 18)).Having
        "total" OpGt (Value.int 100)).whereConditions[0]? = some "\"age\" > $1" ∧
    ((((NewBuilder NewPostgreSQL).Table "users").Where "age" OpGt (Value.int 18)).Having
        "total" OpGt (Value.int 100)).havingConditions[0]? = some "\"total\" > $2" :=
  ⟨rfl, (C3_postgres_placeholders_numbered _ rfl).2.1 0 ⟨"age", OpGt, Value.int 18⟩ rfl,
   (C3_postgres_placeholders_numbered _ rfl).2.2.1 0 ⟨"total", OpGt, Value.int 100⟩ rfl⟩

theorem GroupBy_eq (b : Builder) (columns : List String) :
    b.GroupBy columns = { b with groupBy := b.groupBy ++ columns.map b.dialect.Quote } := by
  unfold Builder.GroupBy
  induction columns generalizing b with
  | nil => simp
  | cons col rest ih => simp [ih]

theorem call_dialect (b : Builder) (c : Call) : (b.call c).dialect = b.dialect := by
  cases c <;> simp [Builder.call, Builder.Table, Builder.Select, Builder.Where, Builder.OrderBy,
    Builder.Limit, Builder.Offset, Builder.Join, Builder.Having, GroupBy_eq]

theorem calls_cons (b : Builder) (c : Call) (cs : List Call) :
    b.calls (c :: cs) = (b.call c).calls cs := rfl

theorem calls_dialect (b : Builder) (cs : List Call) : (b.calls cs).dialect = b.dialect := by
  induction cs generalizing b with
  | nil => rfl
  | cons c rest ih => rw [calls_cons, ih, call_dialect]

theorem getLast?_cons_getD {α : Type} (a x : α) (l : List α) :
    ((a :: l).getLast?).getD x = (l.getLast?).getD a := by
  cases l with
  | nil => rfl
  | cons y l =>
    rw [List.getLast?_cons_cons, List.getLast?_eq_getLast (y :: l) (List.cons_ne_nil y l)]
    rfl

theorem calls_table (b : Builder) (cs : List Call) :
    (b.calls cs).table = ((cs.filterMap Call.table?).getLast?).getD b.table := by
  induction cs generalizing b with
  | nil => rfl
  | cons c rest ih =>
    rw [calls_cons, ih]
    cases c <;> simp [Builder.call, Builder.Table, Builder.Select, Builder.Where,
      Builder.OrderBy, Builder.Limit, Builder.Offset, Builder.Join, Builder.Having, GroupBy_eq,
      Call.table?, getLast?_cons_getD]

theorem getLast?_cons_or {α : Type} (a : α) (o : Option α) (l : List α) :
    ((a :: l).getLast?).or o = (l.getLast?).or (some a) := by
  cases l with
  | nil => rfl
  | cons y l =>
    rw [List.getLast?_cons_cons, List.getLast?_eq_getLast (y :: l) (List.cons_ne_nil y l)]
    rfl

theorem calls_limit (b : Builder) (cs : List Call) :
    (b.calls cs).limit = ((cs.filterMap Call.limit?).getLast?).or b.limit := by
  induction cs generalizing b with
  | nil => cases h : b.limit <;> simp [Builder.calls, h]
  | cons c rest ih =>
    rw [calls_cons, ih]
    cases c <;> simp only [Builder.call, Builder.Table, Builder.Select, Builder.Where,
      Builder.OrderBy, Builder.Limit, Builder.Offset, Builder.Join, Builder.Having, GroupBy_eq,
      Call.limit?, List.filterMap_cons, getLast?_cons_or]

theorem calls_offset (b : Builder) (cs : List Call) :
    (b.calls cs).offset = ((cs.filterMap Call.offset?).getLast?).or b.offset := by
  induction cs generalizing b with
  | nil => cases h : b.offset <;> simp [Builder.calls, h]
  | cons c rest ih =>
    rw [calls_cons, ih]
    cases c <;> simp only [Builder.call, Builder.Table, Builder.Select, Builder.Where,
      Builder.OrderBy, Builder.Limit, Builder.Offset, Builder.Join, Builder.Having, GroupBy_eq,
      Call.offset?, List.filterMap_cons, getLast?_cons_or]

theorem calls_columns (b : Builder) (cs : List Call) :
    (b.calls cs).columns = b.columns ++ (cs.filterMap Call.selectArgs?).flatten := by
  induction cs generalizing b with
  | nil => simp [Builder.calls]
  | cons c rest ih =>
    rw [calls_cons, ih]
    cases c <;> simp [Builder.call, Builder.Table, Builder.Select, Builder.Where,
      Builder.OrderBy, Builder.Limit, Builder.Offset, Builder.Join, Builder.Having, GroupBy_eq,
      Call.selectArgs?]

theorem calls_conditions (b : Builder) (cs : List Call) :
    (b.calls cs).conditions = b.conditions ++ cs.filterMap Call.condition? := by
  induction cs generalizing b with
  | nil => simp [Builder.calls]
  | cons c rest ih =>
    rw [calls_cons, ih]
    cases c <;> simp [Builder.call, Builder.Table, Builder.Select, Builder.Where,
      Builder.OrderBy, Builder.Limit, Builder.Offset, Builder.Join, Builder.Having, GroupBy_eq,
      Call.condition?]

theorem calls_having (b : Builder) (cs : List Call) :
    (b.calls cs).having = b.having ++ cs.filterMap Call.having? := by
  induction cs generalizing b with
  | nil => simp [Builder.calls]
  | cons c rest ih =>
    rw [calls_cons, ih]
    cases c <;> simp [Builder.call, Builder.Table, Builder.Select, Builder.Where,
      Builder.OrderBy, Builder.Limit, Builder.Offset, Builder.Join, Builder.Having, GroupBy_eq,
      Call.having?]

theorem calls_orderBy (b : Builder) (cs : List Call) :
    (b.calls cs).orderBy = b.orderBy ++ cs.filterMap (Call.orderEntry? b.dialect) := by
  induction cs generalizing b with
  | nil => simp [Builder.calls]
  | cons c rest ih =>
    rw [calls_cons, ih, call_dialect]
    cases c <;> simp [Builder.call, Builder.Table, Builder.Select, Builder.Where,
      Builder.OrderBy, Builder.Limit, Builder.Offset, Builder.Join, Builder.Having, GroupBy_eq,
      Call.orderEntry?]
    split <;> simp

theorem calls_joins (b : Builder) (cs : List Call) :
    (b.calls cs).joins = b.joins ++ cs.filterMap (Call.joinEntry? b.dialect) := by
  induction cs generalizing b with
  | nil => simp [Builder.calls]
  | cons c rest ih =>
    rw [calls_cons, ih, call_dialect]
    cases c <;> simp [Builder.call, Builder.Table, Builder.Select, Builder.Where,
      Builder.OrderBy, Builder.Limit, Builder.Offset, Builder.Join, Builder.Having, GroupBy_eq,
      Call.joinEntry?]

theorem calls_groupBy (b : Builder) (cs : List Call) :
    (b.calls cs).groupBy = b.groupBy ++ (cs.filterMap (Call.groupEntries? b.dialect)).flatten := by
  induction cs generalizing b with
  | nil => simp [Builder.calls]
  | cons c rest ih =>
    rw [calls_cons, ih, call_dialect]
    cases c <;> simp [Builder.call, Builder.Table, Builder.Select, Builder.Where,
      Builder.OrderBy, Builder.Limit, Builder.Offset, Builder.Join, Builder.Having, GroupBy_eq,
      Call.groupEntries?]

theorem filterMap_filter_kind {α : Type} (f : Call → Option α) (k : CallKind)
    (hf : ∀ c : Call, c.kind ≠ k → f c = none) (cs : List Call) :
    cs.filterMap f = (cs.filter (fun c => c.kind = k)).filterMap f := by
  induction cs with
  | nil => rfl
  | cons c rest ih =>
    by_cases hk : c.kind = k
    · simp [List.filter_cons, hk, List.filterMap_cons, ih]
    · simp [List.filter_cons, hk, List.filterMap_cons, hf c hk, ih]

theorem filterMap_congr_kind {α : Type} (f : Call → Option α) (k : CallKind)
    (hf : ∀ c : Call, c.kind ≠ k → f c = none) {cs₁ cs₂ : List Call}
    (h : sameCallsPerKind cs₁ cs₂) : cs₁.filterMap f = cs₂.filterMap f := by
  rw [filterMap_filter_kind f k hf cs₁, filterMap_filter_kind f k hf cs₂, h k]

theorem append_ne_empty (s t : String) (hs : s ≠ "") : s ++ t ≠ "" := by
  intro e
  apply hs
  have h := congrArg String.data e
  rw [String.data_append] at h
  apply String.ext
  exact (List.append_eq_nil.mp h).1

theorem BuildSelect_text_congr (b₁ b₂ : Builder) (hd : b₁.dialect = b₂.dialect)
    (h1 : b₁.table = b₂.table) (h2 : b₁.columns = b₂.columns)
    (h3 : b₁.conditions = b₂.conditions) (h4 : b₁.orderBy = b₂.orderBy)
    (h5 : b₁.limit = b₂.limit) (h6 : b₁.offset = b₂.offset) (h7 : b₁.joins = b₂.joins)
    (h8 : b₁.groupBy = b₂.groupBy) (h9 : b₁.having = b₂.having) :
    b₁.BuildSelect.1 = b₂.BuildSelect.1 := by
  rw [BuildSelect_text, BuildSelect_text]
  simp only [selectClause, fromClause, joinClause, whereClause, groupByClause, havingClause,
    orderByClause, limitClause, offsetClause, hd, h1, h2, h3, h4, h5, h6, h7, h8, h9]

theorem calls_text_congr (b : Builder) {cs₁ cs₂ : List Call} (h : sameCallsPerKind cs₁ cs₂) :
    (b.calls cs₁).BuildSelect.1 = (b.calls cs₂).BuildSelect.1 := by
  apply BuildSelect_text_congr
  · rw [calls_dialect, calls_dialect]
  · rw [calls_table, calls_table,
      filterMap_congr_kind Call.table? .Table (by intro c hc; cases c <;> simp_all [Call.table?, Call.kind]) h]
  · rw [calls_columns, calls_columns,
      filterMap_congr_kind Call.selectArgs? .Select (by intro c hc; cases c <;> simp_all [Call.selectArgs?, Call.kind]) h]
  · rw [calls_conditions, calls_conditions,
      filterMap_congr_kind Call.condition? .Where (by intro c hc; cases c <;> simp_all [Call.condition?, Call.kind]) h]
  · rw [calls_orderBy, calls_orderBy,
      filterMap_congr_kind (Call.orderEntry? b.dialect) .OrderBy
        (by intro c hc; cases c <;> simp_all [Call.orderEntry?, Call.kind]) h]
  · rw [calls_limit, calls_limit,
      filterMap_congr_kind Call.limit? .Limit (by intro c hc; cases c <;> simp_all [Call.limit?, Call.kind]) h]
  · rw [calls_offset, calls_offset,
      filterMap_congr_kind Call.offset? .Offset (by intro c hc; cases c <;> simp_all [Call.offset?, Call.kind]) h]
  · rw [calls_joins, calls_joins,
      filterMap_congr_kind (Call.joinEntry? b.dialect) .Join
        (by intro c hc; cases c <;> simp_all [Call.joinEntry?, Call.kind]) h]
  · rw [calls_groupBy, calls_groupBy,
      filterMap_congr_kind (Call.groupEntries? b.dialect) .GroupBy
        (by intro c hc; cases c <;> simp_all [Call.groupEntries?, Call.kind]) h]
  · rw [calls_having, calls_having,
      filterMap_congr_kind Call.having? .Having (by intro c hc; cases c <;> simp_all [Call.having?, Call.kind]) h]

/-- C4: for every builder state the text of `BuildSelect` is, in this order, the SELECT clause
(quoted columns joined by `, `, or `*`), the FROM clause, the JOIN clauses, the WHERE clause
(conditions joined by ` AND `), GROUP BY, the HAVING clause, ORDER BY, LIMIT and OFFSET; each
optional clause is absent exactly when nothing was supplied for it; after a chain of calls each
clause holds what the calls of its method supplied, in call order; and two chains that differ
only in how calls of different methods are interleaved build the same text. -/
theorem C4_select_clauses_fixed_order (b : Builder) (cs : List Call) :
    b.BuildSelect.1 =
      selectClause b ++ fromClause b ++ joinClause b ++ whereClause b ++ groupByClause b ++
        havingClause b ++ orderByClause b ++ limitClause b ++ offsetClause b ∧
    ((joinClause b = "" ↔ b.joins = []) ∧ (whereClause b = "" ↔ b.conditions = []) ∧
      (groupByClause b = "" ↔ b.groupBy = []) ∧ (havingClause b = "" ↔ b.having = []) ∧
      (orderByClause b = "" ↔ b.orderBy = []) ∧ (limitClause b = "" ↔ b.limit = none) ∧
      (offsetClause b = "" ↔ b.offset = none)) ∧
    ((b.calls cs).dialect = b.dialect ∧
      (b.calls cs).table = ((cs.filterMap Call.table?).getLast?).getD b.table ∧
      (b.calls cs).columns = b.columns ++ (cs.filterMap Call.selectArgs?).flatten ∧
      (b.calls cs).joins = b.joins ++ cs.filterMap (Call.joinEntry? b.dialect) ∧
      (b.calls cs).conditions = b.conditions ++ cs.filterMap Call.condition? ∧
      (b.calls cs).groupBy =
        b.groupBy ++ (cs.filterMap (Call.groupEntries? b.dialect)).flatten ∧
      (b.calls cs).having = b.having ++ cs.filterMap Call.having? ∧
      (b.calls cs).orderBy = b.orderBy ++ cs.filterMap (Call.orderEntry? b.dialect) ∧
      (b.calls cs).limit = ((cs.filterMap Call.limit?).getLast?).or b.limit ∧
      (b.calls cs).offset = ((cs.filterMap Call.offset?).getLast?).or b.offset) ∧
    (∀ cs' : List Call, sameCallsPerKind cs cs' →
      (b.calls cs).BuildSelect.1 = (b.calls cs').BuildSelect.1) := by
  refine ⟨BuildSelect_text b, ⟨?_, ?_, ?_, ?_, ?_, ?_, ?_⟩,
    ⟨calls_dialect b cs, calls_table b cs, calls_columns b cs, calls_joins b cs,
      calls_conditions b cs, calls_groupBy b cs, calls_having b cs, calls_orderBy b cs,
      calls_limit b cs, calls_offset b cs⟩,
    fun cs' h => calls_text_congr b h⟩
  · unfold joinClause
    by_cases h : b.joins = []
    · simp [h]
    · simp only [h, if_false, iff_false]
      exact append_ne_empty _ _ (by decide)
  · unfold whereClause
    by_cases h : b.conditions = []
    · simp [h]
    · simp only [h, if_false, iff_false]
      exact append_ne_empty _ _ (by decide)
  · unfold groupByClause
    by_cases h : b.groupBy = []
    · simp [h]
    · simp only [h, if_false, iff_false]
      exact append_ne_empty _ _ (by decide)
  · unfold havingClause
    by_cases h : b.having = []
    · simp [h]
    · simp only [h, if_false, iff_false]
      exact append_ne_empty _ _ (by decide)
  · unfold orderByClause
    by_cases h : b.orderBy = []
    · simp [h]
    · simp only [h, if_false, iff_false]
      exact append_ne_empty _ _ (by decide)
  · unfold limitClause
    cases h : b.limit with
    | none => simp
    | some n =>
      simp only [iff_false, reduceCtorEq]
      exact append_ne_empty _ _ (by decide)
  · unfold offsetClause
    cases h : b.offset with
    | none => simp
    | some n =>
      simp only [iff_false, reduceCtorEq]
      exact append_ne_empty _ _ (by decide)

/-- Witness for C4: `Where, Limit, Select, OrderBy` against `Select, OrderBy, Where, Limit` on a
fresh SQLite builder for table `users`. -/
theorem C4_select_clauses_fixed_order_witness :
    sameCallsPerKind
        [Call.Where "age" OpGt (Value.int 18), Call.Limit 5, Call.Select ["name"],
          Call.OrderBy "name" true]
        [Call.Select ["name"], Call.OrderBy "name" true, Call.Where "age" OpGt (Value.int 18),
          Call.Limit 5] ∧
      (((NewBuilder NewSQLite).Table "users").calls
          [Call.Where "age" OpGt (Value.int 18), Call.Limit 5, Call.Select ["name"],
            Call.OrderBy "name" true]).BuildSelect.1 =
        (((NewBuilder NewSQLite).Table "users").calls
          [Call.Select ["name"], Call.OrderBy "name" true, Call.Where "age" OpGt (Value.int 18),
            Call.Limit 5]).BuildSelect.1 :=
  ⟨fun k => by cases k <;> decide,
    (C4_select_clauses_fixed_order ((NewBuilder NewSQLite).Table "users") _).2.2.2 _
      (fun k => by cases k <;> decide)⟩

/-- C5: `Table`, `Limit` and `Offset` are last-write-wins (`BuildSelect` after two calls equals
`BuildSelect` after the second call alone), while `Select`, `Where`, `Join`, `GroupBy`, `Having`
and `OrderBy` accumulate: after two calls the builder holds both arguments after what it held
before, in call order, and on a fresh builder `BuildSelect` renders both in call order. The
last value written is the one held and rendered: after `Limit(x)` then `Limit(y)` the builder
is `b` with limit `y` and nothing else changed, and `BuildSelect` gives the clauses of `b`
with ` LIMIT y` as limit clause and the parameters of `b`; likewise `Offset` with
` OFFSET y` and `Table` with ` FROM <quoted u>`. -/
theorem C5_last_write_wins_and_accumulation (b : Builder) (d : Dialect) (x y : Int)
    (t u p q : String) (xs ys : List String) (a₁ a₂ : String) (o₁ o₂ : Operation)
    (v₁ v₂ : Value) (j₁ j₂ e₁ e₂ : String) (desc₁ desc₂ : Bool) :
    (((b.Limit x).Limit y).BuildSelect = (b.Limit y).BuildSelect ∧
      ((b.Table t).Table u).BuildSelect = (b.Table u).BuildSelect ∧
      ((b.Offset x).Offset y).BuildSelect = (b.Offset y).BuildSelect) ∧
    (((b.Select xs).Select ys).columns = b.columns ++ xs ++ ys ∧
      ((b.Where a₁ o₁ v₁).Where a₂ o₂ v₂).conditions =
        b.conditions ++ [⟨a₁, o₁, v₁⟩, ⟨a₂, o₂, v₂⟩] ∧
      ((b.Where a₁ o₁ v₁).Where a₂ o₂ v₂).params = b.params ++ [v₁, v₂] ∧
      ((b.Join j₁ t e₁).Join j₂ u e₂).joins =
        b.joins ++ [j₁ ++ " JOIN " ++ b.dialect.Quote t ++ " ON " ++ e₁,
          j₂ ++ " JOIN " ++ b.dialect.Quote u ++ " ON " ++ e₂] ∧
      ((b.GroupBy xs).GroupBy ys).groupBy =
        b.groupBy ++ xs.map b.dialect.Quote ++ ys.map b.dialect.Quote ∧
      ((b.Having a₁ o₁ v₁).Having a₂ o₂ v₂).having =
        b.having ++ [⟨a₁, o₁, v₁⟩, ⟨a₂, o₂, v₂⟩] ∧
      ((b.Having a₁ o₁ v₁).Having a₂ o₂ v₂).params = b.params ++ [v₁, v₂] ∧
      ((b.OrderBy p desc₁).OrderBy q desc₂).orderBy =
        b.orderBy ++ [b.dialect.Quote p ++ (if desc₁ then " DESC" else ""),
          b.dialect.Quote q ++ (if desc₂ then " DESC" else "")]) ∧
    ((((NewBuilder d).Select [p]).Select [q]).BuildSelect.1 =
        "SELECT " ++ d.Quote p ++ ", " ++ d.Quote q ++ " FROM " ++ d.Quote "" ∧
      (((NewBuilder d).Where a₁ o₁ v₁).Where a₂ o₂ v₂).BuildSelect =
        ("SELECT * FROM " ++ d.Quote "" ++ " WHERE " ++
            d.Quote a₁ ++ " " ++ o₁ ++ " " ++ d.Placeholder 1 ++ " AND " ++
            d.Quote a₂ ++ " " ++ o₂ ++ " " ++ d.Placeholder 2, [v₁, v₂]) ∧
      (((NewBuilder d).Join j₁ t e₁).Join j₂ u e₂).BuildSelect.1 =
        "SELECT * FROM " ++ d.Quote "" ++ " " ++
          j₁ ++ " JOIN " ++ d.Quote t ++ " ON " ++ e₁ ++ " " ++
          j₂ ++ " JOIN " ++ d.Quote u ++ " ON " ++ e₂ ∧
      (((NewBuilder d).GroupBy [p]).GroupBy [q]).BuildSelect.1 =
        "SELECT * FROM " ++ d.Quote "" ++ " GROUP BY " ++ d.Quote p ++ ", " ++ d.Quote q ∧
      (((NewBuilder d).Having a₁ o₁ v₁).Having a₂ o₂ v₂).BuildSelect =
        ("SELECT * FROM " ++ d.Quote "" ++ " HAVING " ++
            d.Quote a₁ ++ " " ++ o₁ ++ " " ++ d.Placeholder 1 ++ " AND " ++
            d.Quote a₂ ++ " " ++ o₂ ++ " " ++ d.Placeholder 2, [v₁, v₂]) ∧
      (((NewBuilder d).OrderBy p desc₁).OrderBy q desc₂).BuildSelect.1 =
        "SELECT * FROM " ++ d.Quote "" ++ " ORDER BY " ++
          d.Quote p ++ (if desc₁ then " DESC" else "") ++ ", " ++
          d.Quote q ++ (if desc₂ then " DESC" else "")) ∧
    ((((b.Limit x).Limit y).limit = some y ∧ (b.Limit y).limit = some y ∧
        (b.Limit x).Limit y = { b with limit := some y }) ∧
      (((b.Offset x).Offset y).offset = some y ∧ (b.Offset y).offset = some y ∧
        (b.Offset x).Offset y = { b with offset := some y }) ∧
      (((b.Table t).Table u).table = u ∧ (b.Table u).table = u ∧
        (b.Table t).Table u = { b with table := u })) ∧
    (((b.Limit x).Limit y).BuildSelect =
        (selectClause b ++ fromClause b ++ joinClause b ++ whereClause b ++ groupByClause b ++
          havingClause b ++ orderByClause b ++ (" LIMIT " ++ toString y) ++ offsetClause b,
          b.params) ∧
      ((b.Offset x).Offset y).BuildSelect =
        (selectClause b ++ fromClause b ++ joinClause b ++ whereClause b ++ groupByClause b ++
          havingClause b ++ orderByClause b ++ limitClause b ++ (" OFFSET " ++ toString y),
          b.params) ∧
      ((b.Table t).Table u).BuildSelect =
        (selectClause b ++ (" FROM " ++ b.dialect.Quote u) ++ joinClause b ++ whereClause b ++
          groupByClause b ++ havingClause b ++ orderByClause b ++ limitClause b ++
          offsetClause b, b.params)) ∧
    ((((NewBuilder d).Limit x).Limit y).BuildSelect.1 =
        "SELECT * FROM " ++ d.Quote "" ++ " LIMIT " ++ toString y ∧
      (((NewBuilder d).Offset x).Offset y).BuildSelect.1 =
        "SELECT * FROM " ++ d.Quote "" ++ " OFFSET " ++ toString y ∧
      (((NewBuilder d).Table t).Table u).BuildSelect.1 = "SELECT * FROM " ++ d.Quote u ∧
      ((((NewBuilder d).Table t).Limit x).Offset y).BuildSelect.1 =
        "SELECT * FROM " ++ d.Quote t ++ " LIMIT " ++ toString x ++ " OFFSET " ++
          toString y) := by
  refine ⟨⟨rfl, rfl, rfl⟩, ⟨?_, ?_, ?_, ?_, ?_, ?_, ?_, ?_⟩, ⟨?_, ?_, ?_, ?_, ?_, ?_⟩,
    ⟨⟨rfl, rfl, rfl⟩, ⟨rfl, rfl, rfl⟩, ⟨rfl, rfl, rfl⟩⟩, ⟨?_, ?_, ?_⟩, ⟨?_, ?_, ?_, ?_⟩⟩
  · simp [Builder.Select]
  · simp [Builder.Where]
  · simp [Builder.Where]
  · simp [Builder.Join]
  · simp [GroupBy_eq]
  · simp [Builder.Having]
  · simp [Builder.Having]
  · cases desc₁ <;> cases desc₂ <;> simp [Builder.OrderBy]
  · simp only [Builder.BuildSelect, NewBuilder, Builder.Select, stringsJoin]
    simp
    apply String.ext
    simp [String.data_append]
  · simp only [Builder.BuildSelect, NewBuilder, Builder.Where, Builder.whereConditions,
      Builder.renderConditions, stringsJoin]
    simp
    apply String.ext
    simp [String.data_append]
  · simp only [Builder.BuildSelect, NewBuilder, Builder.Join, stringsJoin]
    simp
    apply String.ext
    simp [String.data_append]
  · simp only [Builder.BuildSelect, NewBuilder, GroupBy_eq, stringsJoin]
    simp [stringsJoin]
    apply String.ext
    simp [String.data_append]
  · simp only [Builder.BuildSelect, NewBuilder, Builder.Having, Builder.havingConditions,
      Builder.renderConditions, stringsJoin]
    simp
    apply String.ext
    simp [String.data_append]
  · cases desc₁ <;> cases desc₂ <;>
      simp only [Builder.BuildSelect, NewBuilder, Builder.OrderBy, stringsJoin] <;>
      simp <;> apply String.ext <;> simp [String.data_append]
  · refine Prod.ext ?_ rfl
    rw [BuildSelect_text]
    rfl
  · refine Prod.ext ?_ rfl
    rw [BuildSelect_text]
    rfl
  · refine Prod.ext ?_ rfl
    rw [BuildSelect_text]
    rfl
  · simp only [Builder.BuildSelect, NewBuilder, Builder.Limit]
    simp
    apply String.ext
    simp [String.data_append]
  · simp only [Builder.BuildSelect, NewBuilder, Builder.Offset]
    simp
    apply String.ext
    simp [String.data_append]
  · simp only [Builder.BuildSelect, NewBuilder, Builder.Table]
    simp
  · simp only [Builder.BuildSelect, NewBuilder, Builder.Table, Builder.Limit, Builder.Offset]
    simp
    apply String.ext
    simp [String.data_append]

theorem mysql_loop_eq (fields : List FieldMapping) (st : CreateTableLoop) :
    fields.foldl MySQL.loopStep st =
      { columns := st.columns ++ fields.map MySQL.columnDef,
        primaryKeys := st.primaryKeys ++
          (fields.filter (fun f => f.IsPrimaryKey)).map (fun f => MySQL.Quote f.Name) } := by
  induction fields generalizing st with
  | nil => simp
  | cons f rest ih =>
    rw [List.foldl_cons, ih]
    cases h : f.IsPrimaryKey <;> simp [MySQL.loopStep, h]

theorem postgres_loop_eq (fields : List FieldMapping) (st : CreateTableLoop) :
    fields.foldl PostgreSQL.loopStep st =
      { columns := st.columns ++ fields.map PostgreSQL.columnDef,
        primaryKeys := st.primaryKeys ++
          (fields.filter (fun f => f.IsPrimaryKey)).map (fun f => PostgreSQL.Quote f.Name) } := by
  induction fields generalizing st with
  | nil => simp
  | cons f rest ih =>
    rw [List.foldl_cons, ih]
    cases h : f.IsPrimaryKey <;> simp [PostgreSQL.loopStep, h]

theorem sqlite_loop_eq (fields : List FieldMapping) (st : CreateTableLoop) :
    fields.foldl SQLite.loopStep st =
      { columns := st.columns ++ fields.map SQLite.columnDef,
        primaryKeys := st.primaryKeys ++
          (fields.filter (fun f => f.IsPrimaryKey && !f.IsAutoInc)).map
            (fun f => SQLite.Quote f.Name) } := by
  induction fields generalizing st with
  | nil => simp
  | cons f rest ih =>
    rw [List.foldl_cons, ih]
    cases h : f.IsPrimaryKey <;> cases h' : f.IsAutoInc <;> simp [SQLite.loopStep, h, h']

theorem columns_with_primaryKeyClause (columns pks : List String) :
    (if pks.length > 0 then
        columns ++ ["  PRIMARY KEY (" ++ stringsJoin pks ", " ++ ")"]
      else columns) = columns ++ primaryKeyClause pks := by
  unfold primaryKeyClause
  cases pks <;> simp

theorem mysql_CreateTableSQL_eq (table : TableMapping) :
    MySQL.CreateTableSQL table =
      "CREATE TABLE IF NOT EXISTS " ++ MySQL.Quote table.TableName ++ " (\n" ++
        stringsJoin
          (table.Fields.map MySQL.columnDef ++
            primaryKeyClause
              ((table.Fields.filter (fun f => f.IsPrimaryKey)).map
                (fun f => MySQL.Quote f.Name))) ",\n" ++
        "\n) ENGINE=InnoDB DEFAULT CHARSET=utf8mb4 COLLATE=utf8mb4_unicode_ci;" := by
  simp only [MySQL.CreateTableSQL, mysql_loop_eq, columns_with_primaryKeyClause,
    List.nil_append]

theorem postgres_CreateTableSQL_eq (table : TableMapping) :
    PostgreSQL.CreateTableSQL table =
      "CREATE TABLE IF NOT EXISTS " ++ PostgreSQL.Quote table.TableName ++ " (\n" ++
        stringsJoin
          (table.Fields.map PostgreSQL.columnDef ++
            primaryKeyClause
              ((table.Fields.filter (fun f => f.IsPrimaryKey)).map
                (fun f => PostgreSQL.Quote f.Name))) ",\n" ++
        "\n);" := by
  simp only [PostgreSQL.CreateTableSQL, postgres_loop_eq, columns_with_primaryKeyClause,
    List.nil_append]

theorem sqlite_CreateTableSQL_eq (table : TableMapping) :
    SQLite.CreateTableSQL table =
      "CREATE TABLE IF NOT EXISTS " ++ SQLite.Quote table.TableName ++ " (\n" ++
        stringsJoin
          (table.Fields.map SQLite.columnDef ++
            primaryKeyClause
              ((table.Fields.filter (fun f => f.IsPrimaryKey && !f.IsAutoInc)).map
                (fun f => SQLite.Quote f.Name))) ",\n" ++
        "\n);" := by
  simp only [SQLite.CreateTableSQL, sqlite_loop_eq, columns_with_primaryKeyClause,
    List.nil_append]

theorem mysql_columnDef_split (f : FieldMapping) :
    ∃ rest : String,
      MySQL.columnDef f = "  " ++ MySQL.Quote f.Name ++ " " ++ MySQL.GetDataTypeSQL f ++ rest ∧
      ("NOT NULL".data <:+: rest.data ↔ f.IsNullable = false) ∧
      ("UNIQUE".data <:+: rest.data ↔ f.IsUnique = true) ∧
      ("AUTO_INCREMENT".data <:+: rest.data ↔ f.IsAutoInc = true) ∧
      ¬ "PRIMARY KEY".data <:+: rest.data := by
  obtain ⟨name, ty, size, pk, ai, nl, uq⟩ := f
  refine ⟨(if nl then "" else " NOT NULL") ++ (if ai then " AUTO_INCREMENT" else "") ++
    (if uq then " UNIQUE" else ""), ?_, ?_⟩
  · cases nl <;> cases ai <;> cases uq <;>
      simp [MySQL.columnDef, MySQL.AutoIncrementSQL, String.append_assoc]
  · cases nl <;> cases ai <;> cases uq <;> dsimp only <;> decide

theorem postgres_columnDef_split (f : FieldMapping) :
    ∃ rest : String,
      PostgreSQL.columnDef f =
        "  " ++ PostgreSQL.Quote f.Name ++ " " ++ PostgreSQL.GetDataTypeSQL f ++ rest ∧
      ("NOT NULL".data <:+: rest.data ↔ f.IsNullable = false) ∧
      ("UNIQUE".data <:+: rest.data ↔ f.IsUnique = true) ∧
      ¬ "PRIMARY KEY".data <:+: rest.data := by
  obtain ⟨name, ty, size, pk, ai, nl, uq⟩ := f
  refine ⟨(if nl then "" else " NOT NULL") ++ (if uq then " UNIQUE" else ""), ?_, ?_⟩
  · cases nl <;> cases uq <;> simp [PostgreSQL.columnDef, String.append_assoc]
  · cases nl <;> cases uq <;> dsimp only <;> decide

theorem sqlite_columnDef_split (f : FieldMapping) :
    ∃ rest : String,
      SQLite.columnDef f =
        "  " ++ SQLite.Quote f.Name ++ " " ++ SQLite.GetDataTypeSQL f ++ rest ∧
      ("NOT NULL".data <:+: rest.data ↔ f.IsNullable = false) ∧
      ("UNIQUE".data <:+: rest.data ↔ f.IsUnique = true) ∧
      ("AUTOINCREMENT".data <:+: rest.data ↔ f.IsAutoInc = true) ∧
      ("PRIMARY KEY".data <:+: rest.data ↔ (f.IsPrimaryKey = true ∧ f.IsAutoInc = true)) := by
  obtain ⟨name, ty, size, pk, ai, nl, uq⟩ := f
  refine ⟨(if nl then "" else " NOT NULL") ++
    (if ai then (if pk then " PRIMARY KEY" else "") ++ " AUTOINCREMENT" else "") ++
    (if uq then " UNIQUE" else ""), ?_, ?_⟩
  · cases nl <;> cases ai <;> cases uq <;> cases pk <;>
      simp [SQLite.columnDef, SQLite.AutoIncrementSQL, String.append_assoc]
  · cases nl <;> cases ai <;> cases uq <;> cases pk <;> dsimp only <;> decide

/-- C6: on each dialect the column list of `CreateTableSQL` is the column lines followed by one
`PRIMARY KEY (...)` clause that lists, in mapping order, the quoted names of all primary-key
fields (MySQL, PostgreSQL) or of the primary-key fields that are not auto-increment (SQLite),
and by no clause when that list is empty. A MySQL or PostgreSQL column line never declares
PRIMARY KEY after its type; a SQLite column line does so exactly for a primary-key field that
is auto-increment. So a field is declared primary key, inline or in the clause, exactly when
it is a primary-key field, and never in both places. -/
theorem C6_trailing_primary_key_clause (table : TableMapping) (f : FieldMapping)
    (p : String) (ps : List String) :
    (NewMySQL.CreateTableSQL table =
        "CREATE TABLE IF NOT EXISTS " ++ NewMySQL.Quote table.TableName ++ " (\n" ++
          stringsJoin
            (table.Fields.map MySQL.columnDef ++
              primaryKeyClause
                ((table.Fields.filter (fun f => f.IsPrimaryKey)).map
                  (fun f => NewMySQL.Quote f.Name))) ",\n" ++
          "\n) ENGINE=InnoDB DEFAULT CHARSET=utf8mb4 COLLATE=utf8mb4_unicode_ci;" ∧
      NewPostgreSQL.CreateTableSQL table =
        "CREATE TABLE IF NOT EXISTS " ++ NewPostgreSQL.Quote table.TableName ++ " (\n" ++
          stringsJoin
            (table.Fields.map PostgreSQL.columnDef ++
              primaryKeyClause
                ((table.Fields.filter (fun f => f.IsPrimaryKey)).map
                  (fun f => NewPostgreSQL.Quote f.Name))) ",\n" ++
          "\n);" ∧
      NewSQLite.CreateTableSQL table =
        "CREATE TABLE IF NOT EXISTS " ++ NewSQLite.Quote table.TableName ++ " (\n" ++
          stringsJoin
            (table.Fields.map SQLite.columnDef ++
              primaryKeyClause
                ((table.Fields.filter (fun f => f.IsPrimaryKey && !f.IsAutoInc)).map
                  (fun f => NewSQLite.Quote f.Name))) ",\n" ++
          "\n);") ∧
    (primaryKeyClause [] = [] ∧
      primaryKeyClause (p :: ps) = ["  PRIMARY KEY (" ++ stringsJoin (p :: ps) ", " ++ ")"]) ∧
    ((∃ rest : String,
        MySQL.columnDef f =
          "  " ++ NewMySQL.Quote f.Name ++ " " ++ NewMySQL.GetDataTypeSQL f ++ rest ∧
        ¬ "PRIMARY KEY".data <:+: rest.data) ∧
      (∃ rest : String,
        PostgreSQL.columnDef f =
          "  " ++ NewPostgreSQL.Quote f.Name ++ " " ++ NewPostgreSQL.GetDataTypeSQL f ++ rest ∧
        ¬ "PRIMARY KEY".data <:+: rest.data) ∧
      (∃ rest : String,
        SQLite.columnDef f =
          "  " ++ NewSQLite.Quote f.Name ++ " " ++ NewSQLite.GetDataTypeSQL f ++ rest ∧
        ("PRIMARY KEY".data <:+: rest.data ↔ (f.IsPrimaryKey = true ∧ f.IsAutoInc = true)) ∧
        (("PRIMARY KEY".data <:+: rest.data ∨ (f.IsPrimaryKey && !f.IsAutoInc) = true) ↔
          f.IsPrimaryKey = true) ∧
        ¬ ("PRIMARY KEY".data <:+: rest.data ∧ (f.IsPrimaryKey && !f.IsAutoInc) = true))) := by
  refine ⟨⟨mysql_CreateTableSQL_eq table, postgres_CreateTableSQL_eq table,
    sqlite_CreateTableSQL_eq table⟩, ⟨rfl, rfl⟩, ?_, ?_, ?_⟩
  · obtain ⟨rest, h, -, -, -, hpk⟩ := mysql_columnDef_split f
    exact ⟨rest, h, hpk⟩
  · obtain ⟨rest, h, -, -, hpk⟩ := postgres_columnDef_split f
    exact ⟨rest, h, hpk⟩
  · obtain ⟨rest, h, -, -, -, hpk⟩ := sqlite_columnDef_split f
    refine ⟨rest, h, hpk, ?_, ?_⟩
    · rw [hpk]
      cases f.IsPrimaryKey <;> cases f.IsAutoInc <;> simp
    · rw [hpk]
      cases f.IsPrimaryKey <;> cases f.IsAutoInc <;> simp

/-- C7: on each dialect the column list of `CreateTableSQL` starts with one column line per
field, in mapping order; after its two-blank indentation the line of a field is the quoted
field name (backticks on MySQL, double quotes on PostgreSQL and SQLite), a blank and
`GetDataTypeSQL` of the field, and what follows the type contains `NOT NULL` exactly when the
field is not nullable and `UNIQUE` exactly when the field is unique. -/
theorem C7_one_column_line_per_field (table : TableMapping) (f : FieldMapping) :
    ((∃ trailing : List String,
        NewMySQL.CreateTableSQL table =
          "CREATE TABLE IF NOT EXISTS " ++ NewMySQL.Quote table.TableName ++ " (\n" ++
            stringsJoin (table.Fields.map MySQL.columnDef ++ trailing) ",\n" ++
            "\n) ENGINE=InnoDB DEFAULT CHARSET=utf8mb4 COLLATE=utf8mb4_unicode_ci;" ∧
        trailing.length ≤ 1) ∧
      (∃ trailing : List String,
        NewPostgreSQL.CreateTableSQL table =
          "CREATE TABLE IF NOT EXISTS " ++ NewPostgreSQL.Quote table.TableName ++ " (\n" ++
            stringsJoin (table.Fields.map PostgreSQL.columnDef ++ trailing) ",\n" ++ "\n);" ∧
        trailing.length ≤ 1) ∧
      (∃ trailing : List String,
        NewSQLite.CreateTableSQL table =
          "CREATE TABLE IF NOT EXISTS " ++ NewSQLite.Quote table.TableName ++ " (\n" ++
            stringsJoin (table.Fields.map SQLite.columnDef ++ trailing) ",\n" ++ "\n);" ∧
        trailing.length ≤ 1)) ∧
    ((∃ rest : String,
        MySQL.columnDef f =
          "  " ++ ("`" ++ f.Name ++ "`") ++ " " ++ NewMySQL.GetDataTypeSQL f ++ rest ∧
        ("NOT NULL".data <:+: rest.data ↔ f.IsNullable = false) ∧
        ("UNIQUE".data <:+: rest.data ↔ f.IsUnique = true)) ∧
      (∃ rest : String,
        PostgreSQL.columnDef f =
          "  " ++ ("\"" ++ f.Name ++ "\"") ++ " " ++ NewPostgreSQL.GetDataTypeSQL f ++ rest ∧
        ("NOT NULL".data <:+: rest.data ↔ f.IsNullable = false) ∧
        ("UNIQUE".data <:+: rest.data ↔ f.IsUnique = true)) ∧
      (∃ rest : String,
        SQLite.columnDef f =
          "  " ++ ("\"" ++ f.Name ++ "\"") ++ " " ++ NewSQLite.GetDataTypeSQL f ++ rest ∧
        ("NOT NULL".data <:+: rest.data ↔ f.IsNullable = false) ∧
        ("UNIQUE".data <:+: rest.data ↔ f.IsUnique = true))) := by
  have hlen : ∀ pks : List String, (primaryKeyClause pks).length ≤ 1 := by
    intro pks; unfold primaryKeyClause; split <;> simp
  refine ⟨⟨⟨_, mysql_CreateTableSQL_eq table, hlen _⟩,
    ⟨_, postgres_CreateTableSQL_eq table, hlen _⟩,
    ⟨_, sqlite_CreateTableSQL_eq table, hlen _⟩⟩, ?_, ?_, ?_⟩
  · obtain ⟨rest, h, hnn, hu, -, -⟩ := mysql_columnDef_split f
    exact ⟨rest, h, hnn, hu⟩
  · obtain ⟨rest, h, hnn, hu, -⟩ := postgres_columnDef_split f
    exact ⟨rest, h, hnn, hu⟩
  · obtain ⟨rest, h, hnn, hu, -, -⟩ := sqlite_columnDef_split f
    exact ⟨rest, h, hnn, hu⟩

/-- C8 (refuted on the code): for a field flagged auto-increment but not primary key, the
SQLite `CreateTableSQL` renders the column line `"n" INTEGER NOT NULL AUTOINCREMENT`: the line
carries `AUTOINCREMENT` and nowhere declares `PRIMARY KEY`, since the loop appends
`AutoIncrementSQL()` for every auto-increment field and ` PRIMARY KEY` only under the nested
test `field.IsPrimaryKey`. -/
theorem C8_sqlite_autoincrement_without_primary_key :
    NewSQLite.CreateTableSQL autoIncNotPrimaryKey =
        "CREATE TABLE IF NOT EXISTS \"counters\" (\n  \"n\" INTEGER NOT NULL AUTOINCREMENT\n);" ∧
      autoIncNotPrimaryKey.Fields.map SQLite.columnDef =
        ["  \"n\" INTEGER NOT NULL AUTOINCREMENT"] ∧
      "AUTOINCREMENT".data <:+: "  \"n\" INTEGER NOT NULL AUTOINCREMENT".data ∧
      ¬ "PRIMARY KEY".data <:+: "  \"n\" INTEGER NOT NULL AUTOINCREMENT".data := by
  refine ⟨by decide, by decide, by decide, by decide⟩

/-- C9 (as stated, refuted): a `Text` field flagged auto-increment is rendered by the
PostgreSQL dialect with the type `TEXT`, not `SERIAL`. -/
theorem C9_postgres_text_autoincrement_not_serial :
    textAutoInc.IsAutoInc = true ∧
      NewPostgreSQL.GetDataTypeSQL textAutoInc = "TEXT" ∧
      NewPostgreSQL.CreateTableSQL { TableName := "t", Fields := [textAutoInc] } =
        "CREATE TABLE IF NOT EXISTS \"t\" (\n  \"code\" TEXT NOT NULL\n);" ∧
      ¬ (∀ f : FieldMapping, f.IsAutoInc = true → NewPostgreSQL.GetDataTypeSQL f = "SERIAL") := by
  refine ⟨by decide, by decide, by decide, ?_⟩
  intro h
  exact absurd (h textAutoInc (by decide)) (by decide)

/-- C9 (amended): in the PostgreSQL dialect a field of type `Integer` flagged auto-increment has
the type `SERIAL`, and its column line in `CreateTableSQL` is the quoted name, `SERIAL` and the
`NOT NULL` and `UNIQUE` constraints; the column line of any field is the quoted name, its type
and those two constraints, with no auto-increment keyword appended, and `AutoIncrementSQL` is
the empty string. -/
theorem C9_postgres_integer_autoincrement_serial (table : TableMapping) (f g : FieldMapping)
    (hT : f.Type_ = DataType.Integer) (hA : f.IsAutoInc = true) :
    NewPostgreSQL.GetDataTypeSQL f = "SERIAL" ∧
    PostgreSQL.columnDef f =
      "  \"" ++ f.Name ++ "\" SERIAL" ++ (if f.IsNullable then "" else " NOT NULL") ++
        (if f.IsUnique then " UNIQUE" else "") ∧
    NewPostgreSQL.AutoIncrementSQL = "" ∧
    PostgreSQL.columnDef g =
      "  \"" ++ g.Name ++ "\" " ++ NewPostgreSQL.GetDataTypeSQL g ++
        (if g.IsNullable then "" else " NOT NULL") ++ (if g.IsUnique then " UNIQUE" else "") ∧
    NewPostgreSQL.CreateTableSQL table =
      "CREATE TABLE IF NOT EXISTS \"" ++ table.TableName ++ "\" (\n" ++
        stringsJoin
          (table.Fields.map PostgreSQL.columnDef ++
            primaryKeyClause
              ((table.Fields.filter (fun f => f.IsPrimaryKey)).map
                (fun f => "\"" ++ f.Name ++ "\""))) ",\n" ++
        "\n);" := by
  have hcol : ∀ g : FieldMapping, PostgreSQL.columnDef g =
      "  \"" ++ g.Name ++ "\" " ++ NewPostgreSQL.GetDataTypeSQL g ++
        (if g.IsNullable then "" else " NOT NULL") ++ (if g.IsUnique then " UNIQUE" else "") := by
    intro g
    cases hn : g.IsNullable <;> cases hu : g.IsUnique <;>
      simp only [PostgreSQL.columnDef, NewPostgreSQL, PostgreSQL.Quote, hn, hu] <;>
      apply String.ext <;> simp [String.data_append]
  have hser : NewPostgreSQL.GetDataTypeSQL f = "SERIAL" := by
    simp [NewPostgreSQL, PostgreSQL.GetDataTypeSQL, hT, hA]
  refine ⟨hser, ?_, rfl, hcol g, ?_⟩
  · rw [hcol f, hser]
    apply String.ext
    simp [String.data_append]
  · rw [show NewPostgreSQL.CreateTableSQL table = PostgreSQL.CreateTableSQL table from rfl,
      postgres_CreateTableSQL_eq]
    simp only [PostgreSQL.Quote, NewPostgreSQL]
    apply String.ext
    simp [String.data_append]

/-- Witness for C9 (amended): the field `id` of type `Integer`, primary key and
auto-increment. -/
theorem C9_postgres_integer_autoincrement_serial_witness :
    (({ Name := "id", Type_ := .Integer, Size := 0, IsPrimaryKey := true, IsAutoInc := true,
        IsNullable := false, IsUnique := false } : FieldMapping).Type_ = DataType.Integer) ∧
    (({ Name := "id", Type_ := .Integer, Size := 0, IsPrimaryKey := true, IsAutoInc := true,
        IsNullable := false, IsUnique := false } : FieldMapping).IsAutoInc = true) ∧
    NewPostgreSQL.GetDataTypeSQL
        { Name := "id", Type_ := .Integer, Size := 0, IsPrimaryKey := true, IsAutoInc := true,
          IsNullable := false, IsUnique := false } = "SERIAL" :=
  ⟨rfl, rfl,
    (C9_postgres_integer_autoincrement_serial { TableName := "users", Fields := [] }
      { Name := "id", Type_ := .Integer, Size := 0, IsPrimaryKey := true, IsAutoInc := true,
        IsNullable := false, IsUnique := false } textAutoInc rfl rfl).1⟩

/-- C10 (as stated, refuted): `DropColumnSQL("users", "age")` on SQLite returns text, two SQL
comment lines, through the same `string` result that carries a statement on the other
dialects; the caller's outcome is this text, not the specification's distinct "unsupported
operation" result. -/
theorem C10_sqlite_drop_column_returns_text :
    NewSQLite.DropColumnSQL "users" "age" =
        "-- SQLite não suporta DROP COLUMN diretamente.\n-- É necessário recriar a tabela sem a coluna \"age\"" ∧
      NewSQLite.dropColumnOutcome "users" "age" =
        Except.ok "-- SQLite não suporta DROP COLUMN diretamente.\n-- É necessário recriar a tabela sem a coluna \"age\"" ∧
      specDropColumnSQL Variant.D3 "users" "age" =
        Except.error (UnsupportedOperationError.unsupported "DROP COLUMN") ∧
      NewSQLite.dropColumnOutcome "users" "age" ≠ specDropColumnSQL Variant.D3 "users" "age" := by
  refine ⟨by decide, congrArg Except.ok (by decide), rfl, ?_⟩
  intro h
  cases h

/-- C10 (amended): on SQLite `DropColumnSQL` returns, as ordinary text, two SQL comment lines
saying that DROP COLUMN is not supported and naming the quoted column, whatever the table; this
text differs from every statement that `DropColumnSQL` returns on MySQL or PostgreSQL. On MySQL
and PostgreSQL it returns `ALTER TABLE <quoted table> DROP COLUMN <quoted column>`, as the
specification words it. -/
theorem C10_drop_column_text (t c t' c' : String) :
    NewSQLite.DropColumnSQL t c =
        "-- SQLite não suporta DROP COLUMN diretamente.\n-- É necessário recriar a tabela sem a coluna \"" ++
          c ++ "\"" ∧
      (NewSQLite.DropColumnSQL t c ≠ NewMySQL.DropColumnSQL t' c' ∧
        NewSQLite.DropColumnSQL t c ≠ NewPostgreSQL.DropColumnSQL t' c') ∧
      NewMySQL.DropColumnSQL t c = "ALTER TABLE `" ++ t ++ "` DROP COLUMN `" ++ c ++ "`" ∧
      NewPostgreSQL.DropColumnSQL t c =
        "ALTER TABLE \"" ++ t ++ "\" DROP COLUMN \"" ++ c ++ "\"" ∧
      NewMySQL.dropColumnOutcome t c = specDropColumnSQL Variant.D1 t c ∧
      NewPostgreSQL.dropColumnOutcome t c = specDropColumnSQL Variant.D2 t c := by
  refine ⟨?_, ⟨?_, ?_⟩, ?_, ?_, rfl, rfl⟩
  · simp only [NewSQLite, SQLite.DropColumnSQL, SQLite.Quote]
    apply String.ext
    simp [String.data_append]
  · intro h
    have h' := congrArg String.data h
    simp [NewSQLite, SQLite.DropColumnSQL, NewMySQL, MySQL.DropColumnSQL,
      String.data_append] at h'
  · intro h
    have h' := congrArg String.data h
    simp [NewSQLite, SQLite.DropColumnSQL, NewPostgreSQL, PostgreSQL.DropColumnSQL,
      String.data_append] at h'
  · simp only [NewMySQL, MySQL.DropColumnSQL, MySQL.Quote]
    apply String.ext
    simp [String.data_append]
  · simp only [NewPostgreSQL, PostgreSQL.DropColumnSQL, PostgreSQL.Quote]
    apply String.ext
    simp [String.data_append]

theorem calls_params (b : Builder) (cs : List Call) :
    (b.calls cs).params = b.params ++ cs.filterMap Call.param? := by
  induction cs generalizing b with
  | nil => simp [Builder.calls]
  | cons c rest ih =>
    rw [calls_cons, ih]
    cases c <;> simp [Builder.call, Builder.Table, Builder.Select, Builder.Where,
      Builder.OrderBy, Builder.Limit, Builder.Offset, Builder.Join, Builder.Having, GroupBy_eq,
      Call.param?]

/-- When every `Where` call precedes every `Having` call on a fresh builder, the parameter
sequence of `BuildSelect` is the WHERE values followed by the HAVING values, so the value of
the `i`-th WHERE condition is at position `i+1` and that of the `j`-th HAVING condition at
position `n+j+1`, the indices `BuildSelect` passes to `Placeholder`. -/
theorem params_aligned_where_then_having (d : Dialect) (ws hs : List Condition) :
    ((NewBuilder d).calls (ws.map Condition.whereCall ++ hs.map Condition.havingCall)).conditions
        = ws ∧
      ((NewBuilder d).calls (ws.map Condition.whereCall ++ hs.map Condition.havingCall)).having
        = hs ∧
      ((NewBuilder d).calls
          (ws.map Condition.whereCall ++ hs.map Condition.havingCall)).BuildSelect.2 =
        ws.map Condition.Value ++ hs.map Condition.Value := by
  have hw : ∀ l : List Condition,
      (l.map Condition.whereCall).filterMap Call.condition? = l ∧
      (l.map Condition.whereCall).filterMap Call.having? = [] ∧
      (l.map Condition.whereCall).filterMap Call.param? = l.map Condition.Value := by
    intro l
    induction l with
    | nil => exact ⟨rfl, rfl, rfl⟩
    | cons c rest ih =>
      obtain ⟨h1, h2, h3⟩ := ih
      simp only [List.map_cons, List.filterMap_cons, Condition.whereCall, Call.condition?,
        Call.having?, Call.param?, h1, h2, h3, and_self]
  have hh : ∀ l : List Condition,
      (l.map Condition.havingCall).filterMap Call.condition? = [] ∧
      (l.map Condition.havingCall).filterMap Call.having? = l ∧
      (l.map Condition.havingCall).filterMap Call.param? = l.map Condition.Value := by
    intro l
    induction l with
    | nil => exact ⟨rfl, rfl, rfl⟩
    | cons c rest ih =>
      obtain ⟨h1, h2, h3⟩ := ih
      simp only [List.map_cons, List.filterMap_cons, Condition.havingCall, Call.condition?,
        Call.having?, Call.param?, h1, h2, h3, and_self]
  refine ⟨?_, ?_, ?_⟩
  · rw [calls_conditions, List.filterMap_append, (hw ws).1, (hh hs).1]
    simp [NewBuilder]
  · rw [calls_having, List.filterMap_append, (hw ws).2.1, (hh hs).2.1]
    simp [NewBuilder]
  · show ((NewBuilder d).calls _).params = _
    rw [calls_params, List.filterMap_append, (hw ws).2.2, (hh hs).2.2]
    simp [NewBuilder]

/-! ## Bulk writer -/

theorem wrapInt64_eq_self (x : Int) (h1 : -2 ^ 63 ≤ x) (h2 : x < 2 ^ 63) : wrapInt64 x = x := by
  unfold wrapInt64
  omega

theorem chunk_index_lt_iff (n bs k : Nat) (hbs : 1 ≤ bs) :
    k < (n + bs - 1) / bs ↔ k * bs < n := by
  rw [Nat.lt_iff_add_one_le, Nat.le_div_iff_mul_le (by omega), Nat.add_mul]
  omega

theorem chunkLoop_eq_runChunks {α : Type} (bs : Nat) (items : List α)
    (step : List ExecCall → List α → List ExecCall × Option Error)
    (hbs : 1 ≤ bs) (hbs' : (bs : Int) < 2 ^ 63) (hn : items.length < 2 ^ 62) :
    ∀ (m k fuel : Nat) (calls : List ExecCall),
      k + m = (items.length + bs - 1) / bs → m < fuel →
      chunkLoop (bs : Int) items step fuel ((k * bs : Nat) : Int) calls =
        { calls := (runChunks step
            ((List.range' k m).map (fun j => (items.drop (j * bs)).take bs)) calls).1,
          outcome := .returned (runChunks step
            ((List.range' k m).map (fun j => (items.drop (j * bs)).take bs)) calls).2 } := by
  intro m
  induction m with
  | zero =>
    intro k fuel calls hk hf
    obtain ⟨f, rfl⟩ : ∃ f, fuel = f + 1 := ⟨fuel - 1, by omega⟩
    have hge : ¬ (k * bs < items.length) := by
      rw [← chunk_index_lt_iff _ _ _ hbs]; omega
    have hge' : ¬ (((k * bs : Nat) : Int) < (items.length : Int)) := by
      intro h; exact hge (by exact_mod_cast h)
    rw [chunkLoop, if_neg hge']
    rfl
  | succ m ih =>
    intro k fuel calls hk hf
    obtain ⟨f, rfl⟩ : ∃ f, fuel = f + 1 := ⟨fuel - 1, by omega⟩
    have hlt : k * bs < items.length := by
      rw [← chunk_index_lt_iff _ _ _ hbs]; omega
    have hlt' : ((k * bs : Nat) : Int) < (items.length : Int) := by exact_mod_cast hlt
    have hnext : ((k * bs : Nat) : Int) + (bs : Int) = (((k + 1) * bs : Nat) : Int) := by
      push_cast; ring
    have hbound : (((k + 1) * bs : Nat) : Int) < 2 ^ 63 := by
      rcases Nat.eq_zero_or_pos k with h0 | hpos
      · subst h0; simpa using hbs'
      · have h1 : bs ≤ k * bs := Nat.le_mul_of_pos_left bs hpos
        have h2 : (k + 1) * bs = k * bs + bs := by ring
        have h3 : (k + 1) * bs < 2 ^ 63 := by omega
        exact_mod_cast h3
    have hwrap : wrapInt64 (((k * bs : Nat) : Int) + (bs : Int)) = (((k + 1) * bs : Nat) : Int) := by
      rw [hnext]
      apply wrapInt64_eq_self _ _ hbound
      have : (0 : Int) ≤ (((k + 1) * bs : Nat) : Int) := Int.natCast_nonneg _
      omega
    have hbatch : (items.drop (k * bs)).take
        ((if (((k + 1) * bs : Nat) : Int) > (items.length : Int) then (items.length : Int)
            else (((k + 1) * bs : Nat) : Int)) - ((k * bs : Nat) : Int)).toNat =
        (items.drop (k * bs)).take bs := by
      have h2 : (k + 1) * bs = k * bs + bs := by ring
      by_cases hc : (((k + 1) * bs : Nat) : Int) > (items.length : Int)
      · rw [if_pos hc]
        have hc' : items.length < (k + 1) * bs := by exact_mod_cast hc
        have e : ((items.length : Int) - ((k * bs : Nat) : Int)).toNat = items.length - k * bs := by
          omega
        rw [e, List.take_of_length_le (by simp), List.take_of_length_le (by simp; omega)]
      · rw [if_neg hc]
        have e : ((((k + 1) * bs : Nat) : Int) - ((k * bs : Nat) : Int)).toNat = bs := by
          rw [h2]; push_cast; omega
        rw [e]
    have hnopanic : ¬ (((k * bs : Nat) : Int) < 0 ∨
        (if (((k + 1) * bs : Nat) : Int) > (items.length : Int) then (items.length : Int)
            else (((k + 1) * bs : Nat) : Int)) < ((k * bs : Nat) : Int)) := by
      have h2 : (k + 1) * bs = k * bs + bs := by ring
      have h3 : ((k * bs : Nat) : Int) ≤ (((k + 1) * bs : Nat) : Int) := by
        rw [h2]; push_cast; omega
      intro h
      rcases h with h | h
      · have : (0 : Int) ≤ ((k * bs : Nat) : Int) := Int.natCast_nonneg _
        omega
      · split at h <;> omega
    rw [chunkLoop]
    simp only [hlt', if_true, hwrap, hnopanic, if_false, Int.toNat_ofNat, hbatch,
      List.range'_succ, List.map_cons, runChunks]
    rcases hstep : step calls ((items.drop (k * bs)).take bs) with ⟨calls', _ | err⟩
    · simp only []
      exact ih (k + 1) f calls' (by omega) (by omega)
    · simp only []

theorem runAll_prefix {β : Type} (exec : List β → β → Option Error) (plan calls : List β) :
    ∃ k, k ≤ plan.length ∧ (runAll exec plan calls).1 = calls ++ plan.take k ∧
      ((runAll exec plan calls).2 = none → k = plan.length) := by
  induction plan generalizing calls with
  | nil => exact ⟨0, Nat.le_refl _, by simp [runAll], fun _ => rfl⟩
  | cons st rest ih =>
    cases h : exec calls st with
    | some err =>
      refine ⟨1, by simp, by simp [runAll, h], ?_⟩
      simp [runAll, h]
    | none =>
      obtain ⟨k, hk, h1, h2⟩ := ih (calls ++ [st])
      refine ⟨k + 1, by simpa using hk, by simp [runAll, h, h1], ?_⟩
      intro hnone
      simp only [runAll, h] at hnone
      simp [h2 hnone]

theorem runAll_ok {β : Type} (exec : List β → β → Option Error) (plan calls : List β)
    (hok : ∀ (i : Nat) (st : β), plan[i]? = some st → exec (calls ++ plan.take i) st = none) :
    runAll exec plan calls = (calls ++ plan, none) := by
  induction plan generalizing calls with
  | nil => simp [runAll]
  | cons st rest ih =>
    have h0 : exec calls st = none := by simpa using hok 0 st (by simp)
    simp only [runAll, h0]
    rw [ih (calls ++ [st])]
    · simp
    · intro i st' hi
      have := hok (i + 1) st' (by simpa using hi)
      simpa using this

theorem runAll_fail {β : Type} (exec : List β → β → Option Error) (plan calls : List β)
    (k : Nat) (stk : β) (e : Error)
    (hok : ∀ (i : Nat) (st : β), i < k → plan[i]? = some st →
      exec (calls ++ plan.take i) st = none)
    (hk : plan[k]? = some stk) (hfail : exec (calls ++ plan.take k) stk = some e) :
    runAll exec plan calls = (calls ++ plan.take (k + 1), some e) := by
  induction plan generalizing calls k with
  | nil => simp at hk
  | cons st rest ih =>
    cases k with
    | zero =>
      simp at hk
      subst hk
      simp at hfail
      simp [runAll, hfail]
    | succ k =>
      have h0 : exec calls st = none := by simpa using hok 0 st (by omega) (by simp)
      simp only [runAll, h0]
      rw [ih (calls ++ [st]) k]
      · simp
      · intro i st' hi hst
        have := hok (i + 1) st' (by omega) (by simpa using hst)
        simpa using this
      · simpa using hk
      · simpa using hfail

theorem runChunks_insert (b : BulkOperation) (db : ExecDB) (chunks : List (List Record))
    (calls : List ExecCall) :
    runChunks (fun calls batch => b.insertBatch db calls batch) chunks calls =
      runAll db.ExecContext (chunks.map b.insertCall) calls := by
  induction chunks generalizing calls with
  | nil => rfl
  | cons c rest ih =>
    simp only [runChunks, List.map_cons, runAll, BulkOperation.insertBatch]
    cases db.ExecContext calls (b.insertCall c) with
    | some err => rfl
    | none => exact ih _

theorem chunksOf_length_le {α : Type} (bs : Nat) (items : List α) (hbs : 1 ≤ bs) :
    (items.length + bs - 1) / bs ≤ items.length := by
  have h1 : items.length ≤ items.length * bs := Nat.le_mul_of_pos_right _ (by omega)
  have e : (items.length + 1) * bs = items.length * bs + bs := by ring
  have h2 : items.length + bs - 1 < (items.length + 1) * bs := by omega
  exact Nat.le_of_lt_succ ((Nat.div_lt_iff_lt_mul (by omega)).mpr h2)

theorem BulkInsert_eq_runAll (b : BulkOperation) (db : ExecDB) (records : List Record)
    (fuel : Nat) (hb : 1 ≤ b.batch) (hb' : b.batch < 2 ^ 63)
    (hn : records.length < 2 ^ 62) (hfuel : records.length < fuel) :
    b.BulkInsert db records fuel =
      { calls :=
          (runAll db.ExecContext ((chunksOf b.batch.toNat records).map b.insertCall) []).1,
        outcome := .returned
          (runAll db.ExecContext ((chunksOf b.batch.toNat records).map b.insertCall) []).2 } := by
  have hbs : 1 ≤ b.batch.toNat := by omega
  have hcast : ((b.batch.toNat : Nat) : Int) = b.batch := by omega
  unfold BulkOperation.BulkInsert
  by_cases h0 : records.length = 0
  · have hz : (records.length + b.batch.toNat - 1) / b.batch.toNat = 0 := by
      rw [h0]; exact Nat.div_eq_of_lt (by omega)
    have hc : chunksOf b.batch.toNat records = [] := by
      unfold chunksOf; rw [hz]; rfl
    rw [if_pos h0, hc]
    rfl
  · rw [if_neg h0]
    have h := chunkLoop_eq_runChunks b.batch.toNat records
      (fun calls batch => b.insertBatch db calls batch) hbs (by rw [hcast]; exact hb') hn
      ((records.length + b.batch.toNat - 1) / b.batch.toNat) 0 fuel [] (by simp)
      (Nat.lt_of_le_of_lt (chunksOf_length_le _ _ hbs) hfuel)
    rw [hcast] at h
    simp only [Nat.zero_mul, Nat.cast_zero] at h
    rw [h, runChunks_insert, chunksOf, List.range_eq_range']

theorem chunksOf_getElem? {α : Type} (bs : Nat) (items : List α) (k : Nat)
    (hk : k < (items.length + bs - 1) / bs) :
    (chunksOf bs items)[k]? = some ((items.drop (k * bs)).take bs) := by
  unfold chunksOf
  rw [List.getElem?_map, List.getElem?_range hk]
  rfl

theorem chunksOf_flatten_take {α : Type} (bs : Nat) (items : List α) (m : Nat) :
    ((List.range m).map (fun k => (items.drop (k * bs)).take bs)).flatten =
      items.take (m * bs) := by
  induction m with
  | zero => simp
  | succ m ih =>
    rw [List.range_succ, List.map_append, List.flatten_append, ih]
    have e : (m + 1) * bs = m * bs + bs := by ring
    simp [e, List.take_add]

theorem chunksOf_flatten {α : Type} (bs : Nat) (items : List α) (hbs : 1 ≤ bs) :
    (chunksOf bs items).flatten = items := by
  unfold chunksOf
  rw [chunksOf_flatten_take]
  apply List.take_of_length_le
  by_contra h
  have h' : (items.length + bs - 1) / bs * bs < items.length := by omega
  exact absurd ((chunk_index_lt_iff _ _ _ hbs).mpr h') (Nat.lt_irrefl _)

theorem insertColumns_eq (b : BulkOperation) :
    b.insertColumns =
      (b.mapping.Fields.filter (fun f => !f.IsAutoInc)).map (fun f => b.dialect.Quote f.Name) := by
  unfold BulkOperation.insertColumns
  suffices h : ∀ (fields : List FieldMapping) (acc : List String),
      fields.foldl
        (fun columns field =>
          if !field.IsAutoInc then columns ++ [b.dialect.Quote field.Name] else columns) acc =
      acc ++ (fields.filter (fun f => !f.IsAutoInc)).map (fun f => b.dialect.Quote f.Name) by
    simpa using h b.mapping.Fields []
  intro fields
  induction fields with
  | nil => simp
  | cons f rest ih =>
    intro acc
    rw [List.foldl_cons, ih]
    cases h : f.IsAutoInc <;> simp [h]

theorem insertCall_fold (b : BulkOperation) (batch : List Record)
    (acc : List Value × List String) :
    batch.foldl
        (fun (acc : List Value × List String) record =>
          (acc.1 ++ b.extractValues record,
            acc.2 ++ [b.buildValuePlaceholders b.insertColumns.length]))
        acc =
      (acc.1, acc.2 ++ List.replicate batch.length
        (b.buildValuePlaceholders b.insertColumns.length)) := by
  induction batch generalizing acc with
  | nil => simp
  | cons r rest ih =>
    rw [List.foldl_cons, ih]
    simp [BulkOperation.extractValues, List.replicate_succ]

theorem insertCall_eq (b : BulkOperation) (batch : List Record) :
    b.insertCall batch =
      { query :=
          "INSERT INTO " ++ b.dialect.Quote b.mapping.TableName ++ " (" ++
            stringsJoin
              ((b.mapping.Fields.filter (fun f => !f.IsAutoInc)).map
                (fun f => b.dialect.Quote f.Name)) ", " ++
            ") VALUES " ++
            stringsJoin
              (List.replicate batch.length
                ("(" ++
                  stringsJoin
                    (List.replicate (b.mapping.Fields.filter (fun f => !f.IsAutoInc)).length "?")
                    ", " ++
                  ")")) ", ",
        args := [] } := by
  unfold BulkOperation.insertCall
  simp only [insertCall_fold]
  simp only [List.nil_append, BulkOperation.buildValuePlaceholders, insertColumns_eq,
    List.length_map]

theorem chunk_statements (b : BulkOperation) (records : List Record) (bs k : Nat)
    (hk : k ≤ (records.length + bs - 1) / bs) :
    ((chunksOf bs records).take k).map b.insertCall =
      (List.range k).map
        (fun j => insertStatement b (min ((j + 1) * bs) records.length - j * bs)) := by
  unfold chunksOf
  rw [← List.map_take, List.take_range, Nat.min_eq_left hk, List.map_map]
  apply List.map_congr_left
  intro j _
  have e : (j + 1) * bs = j * bs + bs := by ring
  have hl : ((records.drop (j * bs)).take bs).length =
      min ((j + 1) * bs) records.length - j * bs := by
    rw [List.length_take, List.length_drop, e]; omega
  simp only [Function.comp, insertCall_eq, insertStatement, hl]

/-- C11: for a batch size `b >= 1` (a Go `int`, so below `2^63`) and a record slice of length
`n` (below `2^62`, as every Go slice of interface values is), `BulkInsert` returns within
`n + 1` loop iterations; the calls it makes are the statements of the first chunks, in order,
and, when no call fails, of all chunks: their number is the ceiling of `n/b`, chunk `k` holds
the records at the indices `[k*b, min((k+1)*b, n))`, so no chunk is empty, every chunk but the
last has `b` records, and the chunks concatenated are the input; an empty input makes no call
and returns `nil`; `n = 2500` and `b = 1000` give chunks of 1000, 1000 and 500 records.
The loop hands its per-batch step, whatever the step, exactly those chunks in order until
the step fails, and `BulkInsert` runs it with `insertBatch`; the statement issued for chunk
`k` is the INSERT text with `min((k+1)*b, n) - k*b` row groups, so for `n = 2500` and
`b = 1000` on a database that accepts every statement the calls are the three statements
with 1000, 1000 and 500 row groups. -/
theorem C11_bulk_insert_chunks (b : BulkOperation) (db : ExecDB) (records : List Record)
    (fuel : Nat) (hb : 1 ≤ b.batch) (hb' : b.batch < 2 ^ 63)
    (hn : records.length < 2 ^ 62) (hfuel : records.length < fuel) :
    (∃ (k : Nat) (err : Option Error),
      k ≤ (chunksOf b.batch.toNat records).length ∧
      b.BulkInsert db records fuel =
        { calls := ((chunksOf b.batch.toNat records).take k).map b.insertCall,
          outcome := .returned err } ∧
      (err = none → k = (chunksOf b.batch.toNat records).length)) ∧
    ((∀ calls call, db.ExecContext calls call = none) →
      b.BulkInsert db records fuel =
        { calls := (chunksOf b.batch.toNat records).map b.insertCall,
          outcome := .returned none }) ∧
    ((chunksOf b.batch.toNat records).length =
        (records.length + b.batch.toNat - 1) / b.batch.toNat ∧
      records.length ≤ (chunksOf b.batch.toNat records).length * b.batch.toNat ∧
      (∀ t : Nat, records.length ≤ t * b.batch.toNat →
        (chunksOf b.batch.toNat records).length ≤ t)) ∧
    (∀ k : Nat, k < (chunksOf b.batch.toNat records).length →
      (chunksOf b.batch.toNat records)[k]? =
        some ((records.drop (k * b.batch.toNat)).take b.batch.toNat) ∧
      ((records.drop (k * b.batch.toNat)).take b.batch.toNat).length =
        min ((k + 1) * b.batch.toNat) records.length - k * b.batch.toNat ∧
      1 ≤ ((records.drop (k * b.batch.toNat)).take b.batch.toNat).length ∧
      (k + 1 < (chunksOf b.batch.toNat records).length →
        ((records.drop (k * b.batch.toNat)).take b.batch.toNat).length = b.batch.toNat)) ∧
    (chunksOf b.batch.toNat records).flatten = records ∧
    (records = [] → b.BulkInsert db records fuel = { calls := [], outcome := .returned none }) ∧
    (records.length = 2500 → b.batch = 1000 →
      (chunksOf b.batch.toNat records).map List.length = [1000, 1000, 500]) ∧
    ((∀ (step : List ExecCall → List Record → List ExecCall × Option Error)
        (calls : List ExecCall),
        chunkLoop b.batch records step fuel 0 calls =
          { calls := (runChunks step
              ((List.range ((records.length + b.batch.toNat - 1) / b.batch.toNat)).map
                (fun k => (records.drop (k * b.batch.toNat)).take b.batch.toNat)) calls).1,
            outcome := .returned (runChunks step
              ((List.range ((records.length + b.batch.toNat - 1) / b.batch.toNat)).map
                (fun k => (records.drop (k * b.batch.toNat)).take b.batch.toNat))
              calls).2 }) ∧
      b.BulkInsert db records fuel =
        { calls := (runChunks (fun calls batch => b.insertBatch db calls batch)
            ((List.range ((records.length + b.batch.toNat - 1) / b.batch.toNat)).map
              (fun k => (records.drop (k * b.batch.toNat)).take b.batch.toNat)) []).1,
          outcome := .returned (runChunks (fun calls batch => b.insertBatch db calls batch)
            ((List.range ((records.length + b.batch.toNat - 1) / b.batch.toNat)).map
              (fun k => (records.drop (k * b.batch.toNat)).take b.batch.toNat)) []).2 } ∧
      (∀ (calls : List ExecCall) (batch : List Record),
        b.insertBatch db calls batch =
          (calls ++ [insertStatement b batch.length],
            db.ExecContext calls (insertStatement b batch.length)))) ∧
    ((∃ (k : Nat) (err : Option Error),
        k ≤ (records.length + b.batch.toNat - 1) / b.batch.toNat ∧
        b.BulkInsert db records fuel =
          { calls := (List.range k).map
              (fun j => insertStatement b
                (min ((j + 1) * b.batch.toNat) records.length - j * b.batch.toNat)),
            outcome := .returned err } ∧
        (err = none → k = (records.length + b.batch.toNat - 1) / b.batch.toNat)) ∧
      ((∀ calls call, db.ExecContext calls call = none) →
        b.BulkInsert db records fuel =
          { calls := (List.range ((records.length + b.batch.toNat - 1) / b.batch.toNat)).map
              (fun j => insertStatement b
                (min ((j + 1) * b.batch.toNat) records.length - j * b.batch.toNat)),
            outcome := .returned none }) ∧
      (records.length = 2500 → b.batch = 1000 →
        (∀ calls call, db.ExecContext calls call = none) →
        b.BulkInsert db records fuel =
          { calls := [insertStatement b 1000, insertStatement b 1000, insertStatement b 500],
            outcome := .returned none })) := by
  have hbs : 1 ≤ b.batch.toNat := by omega
  have hlen : (chunksOf b.batch.toNat records).length =
      (records.length + b.batch.toNat - 1) / b.batch.toNat := by
    simp [chunksOf]
  have heq := BulkInsert_eq_runAll b db records fuel hb hb' hn hfuel
  have hcast : ((b.batch.toNat : Nat) : Int) = b.batch := by omega
  have hloop : ∀ (step : List ExecCall → List Record → List ExecCall × Option Error)
      (calls : List ExecCall),
      chunkLoop b.batch records step fuel 0 calls =
        { calls := (runChunks step
            ((List.range ((records.length + b.batch.toNat - 1) / b.batch.toNat)).map
              (fun k => (records.drop (k * b.batch.toNat)).take b.batch.toNat)) calls).1,
          outcome := .returned (runChunks step
            ((List.range ((records.length + b.batch.toNat - 1) / b.batch.toNat)).map
              (fun k => (records.drop (k * b.batch.toNat)).take b.batch.toNat))
            calls).2 } := by
    intro step calls
    have h := chunkLoop_eq_runChunks b.batch.toNat records step hbs
      (by rw [hcast]; exact hb') hn
      ((records.length + b.batch.toNat - 1) / b.batch.toNat) 0 fuel calls (by simp)
      (Nat.lt_of_le_of_lt (chunksOf_length_le _ _ hbs) hfuel)
    rw [hcast] at h
    simp only [Nat.zero_mul, Nat.cast_zero] at h
    rw [h, List.range_eq_range']
  have hfirst : ∃ (k : Nat) (err : Option Error),
      k ≤ (chunksOf b.batch.toNat records).length ∧
      b.BulkInsert db records fuel =
        { calls := ((chunksOf b.batch.toNat records).take k).map b.insertCall,
          outcome := .returned err } ∧
      (err = none → k = (chunksOf b.batch.toNat records).length) := by
    obtain ⟨k, hk, h1, h2⟩ :=
      runAll_prefix db.ExecContext ((chunksOf b.batch.toNat records).map b.insertCall) []
    refine ⟨k,
      (runAll db.ExecContext ((chunksOf b.batch.toNat records).map b.insertCall) []).2,
      by simpa using hk, ?_, ?_⟩
    · rw [heq, h1, List.nil_append, List.map_take]
    · intro hnone
      simpa using h2 hnone
  have hall : (∀ calls call, db.ExecContext calls call = none) →
      b.BulkInsert db records fuel =
        { calls := (List.range ((records.length + b.batch.toNat - 1) / b.batch.toNat)).map
            (fun j => insertStatement b
              (min ((j + 1) * b.batch.toNat) records.length - j * b.batch.toNat)),
          outcome := .returned none } := by
    intro hok
    rw [heq, runAll_ok _ _ _ (fun i st _ => hok _ st)]
    have := chunk_statements b records b.batch.toNat
      ((records.length + b.batch.toNat - 1) / b.batch.toNat) (Nat.le_refl _)
    rw [← hlen, List.take_length] at this
    rw [hlen] at this
    simp [this]
  refine ⟨hfirst, ?_, ⟨hlen, ?_, ?_⟩, ?_, chunksOf_flatten _ _ hbs, ?_, ?_,
    ⟨hloop, ?_, ?_⟩, ⟨?_, hall, ?_⟩⟩
  · intro hok
    rw [heq, runAll_ok _ _ _ (fun i st _ => hok _ st)]
    simp
  · rw [hlen]
    by_contra h
    have h' : (records.length + b.batch.toNat - 1) / b.batch.toNat * b.batch.toNat <
        records.length := by omega
    exact absurd ((chunk_index_lt_iff _ _ _ hbs).mpr h') (Nat.lt_irrefl _)
  · intro t ht
    rw [hlen]
    by_contra h
    have h' : t < (records.length + b.batch.toNat - 1) / b.batch.toNat := by omega
    have := (chunk_index_lt_iff _ _ _ hbs).mp h'
    omega
  · intro k hk
    rw [hlen] at hk
    have hkn := (chunk_index_lt_iff _ _ _ hbs).mp hk
    have e : (k + 1) * b.batch.toNat = k * b.batch.toNat + b.batch.toNat := by ring
    refine ⟨chunksOf_getElem? _ _ _ hk, ?_, ?_, ?_⟩
    · rw [List.length_take, List.length_drop, e]; omega
    · rw [List.length_take, List.length_drop]; omega
    · intro hk1
      rw [hlen] at hk1
      have hk1n := (chunk_index_lt_iff _ _ _ hbs).mp hk1
      rw [List.length_take, List.length_drop]; omega
  · intro h
    subst h
    rfl
  · intro h1 h2
    have h3 : b.batch.toNat = 1000 := by omega
    simp [chunksOf, h1, h3, List.range_succ, List.length_take, List.length_drop]
  · by_cases h0 : records.length = 0
    · have hz : (records.length + b.batch.toNat - 1) / b.batch.toNat = 0 := by
        rw [h0]; exact Nat.div_eq_of_lt (by omega)
      rw [hz]
      simp only [BulkOperation.BulkInsert, h0, if_true, List.range_zero, List.map_nil,
        runChunks]
    · simp only [BulkOperation.BulkInsert, h0, if_false]
      exact hloop _ []
  · intro calls batch
    simp only [BulkOperation.insertBatch, insertCall_eq, insertStatement]
  · obtain ⟨k, err, hk, hrun, hnone⟩ := hfirst
    rw [hlen] at hk hnone
    exact ⟨k, err, hk, by rw [hrun, chunk_statements b records _ k hk], hnone⟩
  · intro h1 h2 hok
    have h3 : b.batch.toNat = 1000 := by omega
    rw [hall hok, h1, h3]
    rfl

/-- Witness for C11: five records written in batches of two on a handle that never fails;
the calls are the statements with 2, 2 and 1 row groups. -/
theorem C11_bulk_insert_chunks_witness :
    (1 ≤ usersBulk.batch ∧ usersBulk.batch < 2 ^ 63 ∧ fiveRecords.length < 2 ^ 62 ∧
      fiveRecords.length < 6) ∧
    (∀ calls call, alwaysOk.ExecContext calls call = none) ∧
    usersBulk.BulkInsert alwaysOk fiveRecords 6 =
      { calls := (chunksOf usersBulk.batch.toNat fiveRecords).map usersBulk.insertCall,
        outcome := .returned none } ∧
    usersBulk.BulkInsert alwaysOk fiveRecords 6 =
      { calls := [insertStatement usersBulk 2, insertStatement usersBulk 2,
          insertStatement usersBulk 1],
        outcome := .returned none } :=
  ⟨by decide, fun _ _ => rfl,
    (C11_bulk_insert_chunks usersBulk alwaysOk fiveRecords 6 (by decide) (by decide)
      (by decide) (by decide)).2.1 (fun _ _ => rfl),
    ((C11_bulk_insert_chunks usersBulk alwaysOk fiveRecords 6 (by decide) (by decide)
      (by decide) (by decide)).2.2.2.2.2.2.2.2.2.1 (fun _ _ => rfl)).trans (by decide)⟩

/-- C12: `insertBatch` makes one `ExecContext` call and returns its error; for a chunk of `r`
records the statement is `INSERT INTO <quoted table> (`, the quoted names of the
non-auto-increment fields in mapping order joined by `, `, `) VALUES ` and `r` value groups
joined by `, `, each group being `(`, one `?` per listed column joined by `, `, and `)`. -/
theorem C12_insert_statement_shape (b : BulkOperation) (db : ExecDB)
    (calls : List ExecCall) (batch : List Record) :
    b.insertBatch db calls batch =
        (calls ++ [b.insertCall batch], db.ExecContext calls (b.insertCall batch)) ∧
      (b.insertCall batch).query =
        "INSERT INTO " ++ b.dialect.Quote b.mapping.TableName ++ " (" ++
          stringsJoin
            ((b.mapping.Fields.filter (fun f => !f.IsAutoInc)).map
              (fun f => b.dialect.Quote f.Name)) ", " ++
          ") VALUES " ++
          stringsJoin
            (List.replicate batch.length
              ("(" ++
                stringsJoin
                  (List.replicate (b.mapping.Fields.filter (fun f => !f.IsAutoInc)).length "?")
                  ", " ++
                ")")) ", " ∧
      (usersBulk.insertCall (fiveRecords.take 2)).query =
        "INSERT INTO \"users\" (\"name\") VALUES (?), (?)" := by
  refine ⟨rfl, ?_, by decide⟩
  rw [insertCall_eq]

/-- C13 (refuted on the code): for the one-record chunk `{name: "ann"}` of `users(id, name)`
the statement of `insertBatch` is `INSERT INTO "users" ("name") VALUES (?)` with one
placeholder, while the parameter sequence handed to `ExecContext` is empty, not `["ann"]`:
`extractValues` returns `nil` for every record, so the parameter sequence of every chunk is
empty. -/
theorem C13_insert_parameters_empty :
    usersBulk.insertCall [⟨[("name", Value.str "ann")]⟩] =
        { query := "INSERT INTO \"users\" (\"name\") VALUES (?)", args := [] } ∧
      (⟨[("name", Value.str "ann")]⟩ : Record).valuesFor usersMapping = [Value.str "ann"] ∧
      (∀ (b : BulkOperation) (batch : List Record), (b.insertCall batch).args = []) := by
  refine ⟨by decide, by decide, ?_⟩
  intro b batch
  rw [insertCall_eq]

/-- C14 (refuted on the code): `BulkUpdate` on five records and `BulkDelete` on three ids, in
batches of two, make no `ExecContext` call and return `nil`: `updateBatch` and `deleteBatch`
return `nil` without doing anything. -/
theorem C14_bulk_update_delete_return_nil :
    usersBulk.BulkUpdate alwaysOk fiveRecords [("name", Value.str "z")] 6 =
        { calls := [], outcome := .returned none } ∧
      usersBulk.BulkDelete alwaysOk [Value.int 1, Value.int 2, Value.int 3] 6 =
        { calls := [], outcome := .returned none } := by
  refine ⟨by decide, by decide⟩

theorem runChunks_nil_step {α : Type} (chunks : List (List α)) (calls : List ExecCall) :
    runChunks (fun calls _ => (calls, (none : Option Error))) chunks calls = (calls, none) := by
  induction chunks generalizing calls with
  | nil => rfl
  | cons c rest ih => simp only [runChunks]; exact ih _

/-- For every batch size from 1 on and every input, `BulkUpdate` and `BulkDelete` make no
`ExecContext` call and return `nil`. -/
theorem bulk_update_delete_do_nothing (b : BulkOperation) (db : ExecDB)
    (records : List Record) (conditions : List (String × Value)) (ids : List Value)
    (fuel : Nat) (hb : 1 ≤ b.batch) (hb' : b.batch < 2 ^ 63)
    (hn : records.length < 2 ^ 62) (hi : ids.length < 2 ^ 62)
    (hfuel : records.length < fuel) (hfuel' : ids.length < fuel) :
    b.BulkUpdate db records conditions fuel = { calls := [], outcome := .returned none } ∧
      b.BulkDelete db ids fuel = { calls := [], outcome := .returned none } := by
  have hbs : 1 ≤ b.batch.toNat := by omega
  have hcast : ((b.batch.toNat : Nat) : Int) = b.batch := by omega
  constructor
  · unfold BulkOperation.BulkUpdate
    split
    · rfl
    · have h := chunkLoop_eq_runChunks b.batch.toNat records
        (fun calls batch => b.updateBatch db calls batch conditions) hbs
        (by rw [hcast]; exact hb') hn
        ((records.length + b.batch.toNat - 1) / b.batch.toNat) 0 fuel [] (by simp)
        (Nat.lt_of_le_of_lt (chunksOf_length_le _ _ hbs) hfuel)
      rw [hcast] at h
      simp only [Nat.zero_mul, Nat.cast_zero] at h
      rw [h]
      simp only [BulkOperation.updateBatch, runChunks_nil_step]
  · unfold BulkOperation.BulkDelete
    split
    · rfl
    · have h := chunkLoop_eq_runChunks b.batch.toNat ids
        (fun calls batch => b.deleteBatch db calls batch) hbs
        (by rw [hcast]; exact hb') hi
        ((ids.length + b.batch.toNat - 1) / b.batch.toNat) 0 fuel [] (by simp)
        (Nat.lt_of_le_of_lt (chunksOf_length_le _ _ hbs) hfuel')
      rw [hcast] at h
      simp only [Nat.zero_mul, Nat.cast_zero] at h
      rw [h]
      simp only [BulkOperation.deleteBatch, runChunks_nil_step]

theorem BulkInsert_fail_at (b : BulkOperation) (db : ExecDB) (records : List Record)
    (fuel k : Nat) (e : Error) (chunk : List Record)
    (hb : 1 ≤ b.batch) (hb' : b.batch < 2 ^ 63)
    (hn : records.length < 2 ^ 62) (hfuel : records.length < fuel)
    (hok : ∀ (i : Nat) (c : List Record), i < k → (chunksOf b.batch.toNat records)[i]? = some c →
      db.ExecContext (((chunksOf b.batch.toNat records).take i).map b.insertCall)
        (b.insertCall c) = none)
    (hk : (chunksOf b.batch.toNat records)[k]? = some chunk)
    (hfail : db.ExecContext (((chunksOf b.batch.toNat records).take k).map b.insertCall)
      (b.insertCall chunk) = some e) :
    b.BulkInsert db records fuel =
      { calls := ((chunksOf b.batch.toNat records).take (k + 1)).map b.insertCall,
        outcome := .returned (some e) } := by
  rw [BulkInsert_eq_runAll b db records fuel hb hb' hn hfuel,
    runAll_fail db.ExecContext _ [] k (b.insertCall chunk) e]
  · simp [List.map_take]
  · intro i st hi hst
    rw [List.getElem?_map] at hst
    cases hc : (chunksOf b.batch.toNat records)[i]? with
    | none => rw [hc] at hst; simp at hst
    | some c =>
      rw [hc] at hst
      simp at hst
      subst hst
      simpa [List.map_take] using hok i c hi hc
  · rw [List.getElem?_map, hk]; rfl
  · simpa [List.map_take] using hfail

/-- C15: if the statements of the chunks before chunk `k` succeed and the statement of chunk
`k` fails with `e`, `BulkInsert` returns the error; the calls it has made are the statements of
the chunks `0..k`, once each and in order: none for a chunk after `k`, and no other call (no
rollback of the chunks `0..k-1`). -/
theorem C15_bulk_insert_aborts_on_failure (b : BulkOperation) (db : ExecDB)
    (records : List Record) (fuel k : Nat) (e : Error) (chunk : List Record)
    (hb : 1 ≤ b.batch) (hb' : b.batch < 2 ^ 63)
    (hn : records.length < 2 ^ 62) (hfuel : records.length < fuel)
    (hok : ∀ (i : Nat) (c : List Record), i < k → (chunksOf b.batch.toNat records)[i]? = some c →
      db.ExecContext (((chunksOf b.batch.toNat records).take i).map b.insertCall)
        (b.insertCall c) = none)
    (hk : (chunksOf b.batch.toNat records)[k]? = some chunk)
    (hfail : db.ExecContext (((chunksOf b.batch.toNat records).take k).map b.insertCall)
      (b.insertCall chunk) = some e) :
    (∃ err : Error, (b.BulkInsert db records fuel).outcome = .returned (some err)) ∧
      (b.BulkInsert db records fuel).calls =
        ((chunksOf b.batch.toNat records).take k).map b.insertCall ++ [b.insertCall chunk] ∧
      (b.BulkInsert db records fuel).calls.length = k + 1 ∧
      (∀ i : Nat, i ≤ k →
        (b.BulkInsert db records fuel).calls[i]? =
          ((chunksOf b.batch.toNat records)[i]?).map b.insertCall) ∧
      (∀ i : Nat, k < i → (b.BulkInsert db records fuel).calls[i]? = none) := by
  have h := BulkInsert_fail_at b db records fuel k e chunk hb hb' hn hfuel hok hk hfail
  have hklt : k < (chunksOf b.batch.toNat records).length := by
    by_contra hge
    rw [List.getElem?_eq_none (by omega)] at hk
    exact absurd hk (by simp)
  have hlen : (((chunksOf b.batch.toNat records).take (k + 1)).map b.insertCall).length =
      k + 1 := by
    rw [List.length_map, List.length_take]; omega
  rw [h]
  refine ⟨⟨e, rfl⟩, ?_, hlen, ?_, ?_⟩
  · show ((chunksOf b.batch.toNat records).take (k + 1)).map b.insertCall = _
    rw [List.take_succ, hk]
    simp
  · intro i hi
    show (((chunksOf b.batch.toNat records).take (k + 1)).map b.insertCall)[i]? = _
    rw [List.getElem?_map, List.getElem?_take_of_lt (by omega)]
  · intro i hi
    show (((chunksOf b.batch.toNat records).take (k + 1)).map b.insertCall)[i]? = none
    exact List.getElem?_eq_none (by omega)

/-- Witness for C15: five records in batches of two on a handle whose second call fails. -/
theorem C15_bulk_insert_aborts_on_failure_witness :
    (failingAt 1 "boom").ExecContext
        (((chunksOf usersBulk.batch.toNat fiveRecords).take 1).map usersBulk.insertCall)
        (usersBulk.insertCall [⟨[("name", .str "c")]⟩, ⟨[("name", .str "d")]⟩]) = some "boom" ∧
      (usersBulk.BulkInsert (failingAt 1 "boom") fiveRecords 6).calls.length = 2 :=
  ⟨by decide,
    (C15_bulk_insert_aborts_on_failure usersBulk (failingAt 1 "boom") fiveRecords 6 1 "boom"
      [⟨[("name", .str "c")]⟩, ⟨[("name", .str "d")]⟩] (by decide) (by decide) (by decide)
      (by decide)
      (by
        intro i c hi _
        have hi0 : i = 0 := by omega
        subst hi0
        rfl)
      (by decide) (by decide)).2.2.1⟩

/-- C16 (as stated, refuted): writing five records in batches of two, a handle that fails the
first statement and a handle that fails the second one, both with the error `boom`, make
`BulkInsert` return the same error `boom`, after zero and after one completed chunk: the
returned error tells neither the number of completed chunks nor the records not yet written. -/
theorem C16_error_does_not_report_progress :
    (usersBulk.BulkInsert (failingAt 0 "boom") fiveRecords 6).outcome =
        .returned (some "boom") ∧
      (usersBulk.BulkInsert (failingAt 1 "boom") fiveRecords 6).outcome =
        .returned (some "boom") ∧
      (usersBulk.BulkInsert (failingAt 0 "boom") fiveRecords 6).calls.length = 1 ∧
      (usersBulk.BulkInsert (failingAt 1 "boom") fiveRecords 6).calls.length = 2 := by
  refine ⟨by decide, by decide, by decide, by decide⟩

/-- C16 (amended): if the statements of the chunks before chunk `k` succeed and `ExecContext`
fails the statement of chunk `k` with the error `e`, `BulkInsert` returns `e` itself,
unchanged. -/
theorem C16_bulk_insert_returns_driver_error (b : BulkOperation) (db : ExecDB)
    (records : List Record) (fuel k : Nat) (e : Error) (chunk : List Record)
    (hb : 1 ≤ b.batch) (hb' : b.batch < 2 ^ 63)
    (hn : records.length < 2 ^ 62) (hfuel : records.length < fuel)
    (hok : ∀ (i : Nat) (c : List Record), i < k → (chunksOf b.batch.toNat records)[i]? = some c →
      db.ExecContext (((chunksOf b.batch.toNat records).take i).map b.insertCall)
        (b.insertCall c) = none)
    (hk : (chunksOf b.batch.toNat records)[k]? = some chunk)
    (hfail : db.ExecContext (((chunksOf b.batch.toNat records).take k).map b.insertCall)
      (b.insertCall chunk) = some e) :
    (b.BulkInsert db records fuel).outcome = .returned (some e) := by
  rw [BulkInsert_fail_at b db records fuel k e chunk hb hb' hn hfuel hok hk hfail]

/-- Witness for C16 (amended): five records in batches of two on a handle whose second call
fails with `boom`. -/
theorem C16_bulk_insert_returns_driver_error_witness :
    (failingAt 1 "boom").ExecContext
        (((chunksOf usersBulk.batch.toNat fiveRecords).take 1).map usersBulk.insertCall)
        (usersBulk.insertCall [⟨[("name", .str "c")]⟩, ⟨[("name", .str "d")]⟩]) = some "boom" ∧
      (usersBulk.BulkInsert (failingAt 1 "boom") fiveRecords 6).outcome =
        .returned (some "boom") :=
  ⟨by decide,
    C16_bulk_insert_returns_driver_error usersBulk (failingAt 1 "boom") fiveRecords 6 1 "boom"
      [⟨[("name", .str "c")]⟩, ⟨[("name", .str "d")]⟩] (by decide) (by decide) (by decide)
      (by decide)
      (by
        intro i c hi _
        have hi0 : i = 0 := by omega
        subst hi0
        rfl)
      (by decide) (by decide)⟩

/-! ## Migrator -/

theorem addColumnStatements_cons (table : String) (f : FieldMapping)
    (fields : List FieldMapping) :
    addColumnStatements table (f :: fields) =
      Statement.AddColumn table f ::
        Statement.RecordMigration ("add_column_" ++ table ++ "_" ++ f.Name) ::
        addColumnStatements table fields := by
  simp [addColumnStatements]

theorem addColumnStatements_append (table : String) (l₁ l₂ : List FieldMapping) :
    addColumnStatements table (l₁ ++ l₂) =
      addColumnStatements table l₁ ++ addColumnStatements table l₂ := by
  simp [addColumnStatements]

theorem updateLoop_eq_runAll (m : Migrator) (mapping : TableMapping)
    (currentColumns : List String) (fields : List FieldMapping) (executed : List Statement) :
    m.updateLoop mapping currentColumns fields executed =
      runAll (fun h st => (m.db.ExecContext h st).map (updateError st))
        (addColumnStatements mapping.TableName (missingFields currentColumns fields))
        executed := by
  induction fields generalizing executed with
  | nil => rfl
  | cons field rest ih =>
    by_cases hin : field.Name ∈ currentColumns
    · have hm : missingFields currentColumns (field :: rest) =
          missingFields currentColumns rest := by
        simp [missingFields, hin]
      rw [hm, ← ih]
      simp [Migrator.updateLoop, hin]
    · have hm : missingFields currentColumns (field :: rest) =
          field :: missingFields currentColumns rest := by
        simp [missingFields, hin]
      rw [hm, addColumnStatements_cons]
      simp only [Migrator.updateLoop, hin, not_false_eq_true, if_true, runAll,
        Migrator.recordMigration]
      cases h1 : m.db.ExecContext executed (Statement.AddColumn mapping.TableName field) with
      | some err => simp [updateError]
      | none =>
        simp only [Option.map_none']
        cases h2 : m.db.ExecContext
            (executed ++ [Statement.AddColumn mapping.TableName field])
            (Statement.RecordMigration
              ("add_column_" ++ mapping.TableName ++ "_" ++ field.Name)) with
        | some err => simp [updateError]
        | none =>
          simp only [Option.map_none']
          exact ih _

/-- C17: when the column query of `updateTable` answers the live columns `L`, the statements
`updateTable` executes are, for the fields of the mapping whose name is not in `L` and in
mapping order, the `AddColumnSQL(table, field)` statement followed by the audit-row insert
named `add_column_<table>_<field>`: a leading part of that list in any case, and the whole
list, with result `nil`, when no statement fails. Every statement belongs to a field that is
not in `L`, none is a `DROP COLUMN`, and a mapping with one new field gives one `ADD COLUMN`
and one audit row. -/
theorem C17_update_table_adds_missing_columns (m : Migrator) (executed : List Statement)
    (mapping : TableMapping) (L : List String)
    (hq : m.getTableColumns executed mapping.TableName = .ok L) :
    (∃ k : Nat,
      k ≤ (addColumnStatements mapping.TableName (missingFields L mapping.Fields)).length ∧
      (m.updateTable executed mapping).1 =
        executed ++
          (addColumnStatements mapping.TableName (missingFields L mapping.Fields)).take k ∧
      ((m.updateTable executed mapping).2 = none →
        k = (addColumnStatements mapping.TableName (missingFields L mapping.Fields)).length)) ∧
    ((∀ h st, m.db.ExecContext h st = none) →
      m.updateTable executed mapping =
        (executed ++ addColumnStatements mapping.TableName (missingFields L mapping.Fields),
          none)) ∧
    addColumnStatements mapping.TableName (missingFields L mapping.Fields) =
      (mapping.Fields.filter (fun f => f.Name ∉ L)).flatMap
        (fun f => [Statement.AddColumn mapping.TableName f,
          Statement.RecordMigration
            ("add_column_" ++ mapping.TableName ++ "_" ++ f.Name)]) ∧
    (∀ st ∈ addColumnStatements mapping.TableName (missingFields L mapping.Fields),
      ∃ f ∈ mapping.Fields, f.Name ∉ L ∧
        (st = Statement.AddColumn mapping.TableName f ∨
          st = Statement.RecordMigration
            ("add_column_" ++ mapping.TableName ++ "_" ++ f.Name))) ∧
    (∀ f : FieldMapping,
      (Statement.AddColumn mapping.TableName f).query m.dialect =
        m.dialect.AddColumnSQL mapping.TableName f) ∧
    (∀ f : FieldMapping, missingFields L mapping.Fields = [f] →
      addColumnStatements mapping.TableName (missingFields L mapping.Fields) =
        [Statement.AddColumn mapping.TableName f,
          Statement.RecordMigration
            ("add_column_" ++ mapping.TableName ++ "_" ++ f.Name)]) := by
  have hu : m.updateTable executed mapping =
      runAll (fun h st => (m.db.ExecContext h st).map (updateError st))
        (addColumnStatements mapping.TableName (missingFields L mapping.Fields)) executed := by
    unfold Migrator.updateTable
    rw [hq]
    exact updateLoop_eq_runAll m mapping L mapping.Fields executed
  refine ⟨?_, ?_, rfl, ?_, fun _ => rfl, ?_⟩
  · rw [hu]
    exact runAll_prefix _ _ _
  · intro hok
    rw [hu]
    apply runAll_ok
    intro i st _
    simp [hok]
  · intro st hst
    simp only [addColumnStatements, missingFields, List.mem_flatMap, List.mem_filter,
      decide_eq_true_eq, List.mem_cons, List.mem_singleton, List.not_mem_nil, or_false] at hst
    obtain ⟨f, ⟨hf, hL⟩, h⟩ := hst
    exact ⟨f, hf, hL, h⟩
  · intro f hf
    rw [hf]
    rfl

/-- Witness for C17: `users(id, name, age)` against the live table `users(id, name)` of the
schema model. -/
theorem C17_update_table_adds_missing_columns_witness :
    sqliteMigrator.getTableColumns usersCreated usersWithAge.TableName = .ok ["id", "name"] ∧
    sqliteMigrator.updateTable usersCreated usersWithAge =
      (usersCreated ++
        addColumnStatements usersWithAge.TableName
          (missingFields ["id", "name"] usersWithAge.Fields), none) :=
  ⟨rfl,
    (C17_update_table_adds_missing_columns sqliteMigrator usersCreated usersWithAge
      ["id", "name"] rfl).2.1 (fun _ _ => rfl)⟩

theorem runAll_append_ok {β : Type} (exec : List β → β → Option Error) (p q calls : List β)
    (hok : ∀ (i : Nat) (st : β), p[i]? = some st → exec (calls ++ p.take i) st = none) :
    runAll exec (p ++ q) calls = runAll exec q (calls ++ p) := by
  induction p generalizing calls with
  | nil => simp
  | cons st rest ih =>
    have h0 : exec calls st = none := by simpa using hok 0 st (by simp)
    show runAll exec (st :: (rest ++ q)) calls = _
    simp only [runAll, h0]
    rw [ih (calls ++ [st])]
    · simp
    · intro i st' hi
      have := hok (i + 1) st' (by simpa using hi)
      simpa using this

theorem missingFields_union (L L' A : List String) (fields : List FieldMapping)
    (hL : ∀ x, x ∈ L' ↔ x ∈ L ∨ x ∈ A) :
    missingFields L' fields = (missingFields L fields).filter (fun g => g.Name ∉ A) := by
  simp only [missingFields, List.filter_filter]
  apply List.filter_congr
  intro g _
  by_cases h1 : g.Name ∈ L <;> by_cases h2 : g.Name ∈ A <;> simp [hL, h1, h2]

theorem filter_drop_of_take_mem (M : List FieldMapping) (j : Nat) (A : List String)
    (hA : ∀ g ∈ M.take j, g.Name ∈ A) :
    M.filter (fun g => g.Name ∉ A) = (M.drop j).filter (fun g => g.Name ∉ A) := by
  have h2 : (M.take j).filter (fun g => g.Name ∉ A) = [] := by
    rw [List.filter_eq_nil_iff]
    intro g hg
    simpa using hA g hg
  nth_rewrite 1 [← List.take_append_drop j M]
  rw [List.filter_append, h2, List.nil_append]

theorem missingFields_rerun (L L' : List String) (fields : List FieldMapping) (j : Nat)
    (hL : ∀ x, x ∈ L' ↔ x ∈ L ∨ x ∈ ((missingFields L fields).take j).map FieldMapping.Name) :
    missingFields L' fields =
      ((missingFields L fields).drop j).filter
        (fun g => g.Name ∉ ((missingFields L fields).take j).map FieldMapping.Name) := by
  rw [missingFields_union L L' _ fields hL]
  exact filter_drop_of_take_mem _ j _ (fun g hg => List.mem_map_of_mem _ hg)

theorem missingFields_rerun_nodup (L L' : List String) (fields : List FieldMapping) (j : Nat)
    (hL : ∀ x, x ∈ L' ↔ x ∈ L ∨ x ∈ ((missingFields L fields).take j).map FieldMapping.Name)
    (hnd : ((missingFields L fields).map FieldMapping.Name).Nodup) :
    missingFields L' fields = (missingFields L fields).drop j := by
  rw [missingFields_rerun L L' fields j hL, List.filter_eq_self]
  intro g hg
  rw [← List.take_append_drop j (missingFields L fields), List.map_append,
    List.nodup_append] at hnd
  have hdisj := hnd.2.2
  simp only [decide_not, Bool.not_eq_true', decide_eq_false_iff_not]
  intro hmem
  exact hdisj hmem (List.mem_map_of_mem _ hg)

theorem updateTable_all_ok (m : Migrator) (executed : List Statement)
    (mapping : TableMapping) (L : List String)
    (hq : m.getTableColumns executed mapping.TableName = .ok L)
    (hall : ∀ h st, m.db.ExecContext h st = none) :
    m.updateTable executed mapping =
      (executed ++ addColumnStatements mapping.TableName (missingFields L mapping.Fields),
        none) := by
  unfold Migrator.updateTable
  rw [hq]
  show m.updateLoop mapping L mapping.Fields executed = _
  rw [updateLoop_eq_runAll]
  apply runAll_ok
  intro i st _
  simp [hall]

/-- C19: let the column query answer `L` and let `f` be the `(j+1)`-th field of the mapping
whose name is not in `L`. If the statements for the `j` missing fields before it succeed and
its `ADD COLUMN` fails with `e`, `updateTable` returns the error `erro ao adicionar coluna
<f>: <e>` having executed the `ADD COLUMN` and the audit-row insert of each of those `j`
fields, then the failing `ADD COLUMN`, and nothing for a later field. A re-run that finds the
live columns `L` plus the `j` added names has, as fields still missing, the missing fields
from `f` on whose name was not added (all of them when the names are distinct) and none of
the `j` fields already added; it executes their statements in mapping order. -/
theorem C19_update_table_partial_failure (m : Migrator) (executed : List Statement)
    (mapping : TableMapping) (L : List String) (j : Nat) (f : FieldMapping) (e : Error)
    (hq : m.getTableColumns executed mapping.TableName = .ok L)
    (hj : (missingFields L mapping.Fields)[j]? = some f)
    (hok : ∀ (i : Nat) (st : Statement),
      (addColumnStatements mapping.TableName ((missingFields L mapping.Fields).take j))[i]? =
          some st →
        m.db.ExecContext
          (executed ++
            (addColumnStatements mapping.TableName
              ((missingFields L mapping.Fields).take j)).take i) st = none)
    (hfail : m.db.ExecContext
      (executed ++
        addColumnStatements mapping.TableName ((missingFields L mapping.Fields).take j))
      (Statement.AddColumn mapping.TableName f) = some e) :
    m.updateTable executed mapping =
        (executed ++
            addColumnStatements mapping.TableName ((missingFields L mapping.Fields).take j) ++
            [Statement.AddColumn mapping.TableName f],
          some ("erro ao adicionar coluna " ++ f.Name ++ ": " ++ e)) ∧
    (∀ (executed' : List Statement) (L' : List String),
      (∀ x, x ∈ L' ↔
        x ∈ L ∨ x ∈ ((missingFields L mapping.Fields).take j).map FieldMapping.Name) →
      m.getTableColumns executed' mapping.TableName = .ok L' →
        missingFields L' mapping.Fields =
          ((missingFields L mapping.Fields).drop j).filter
            (fun g => g.Name ∉ ((missingFields L mapping.Fields).take j).map FieldMapping.Name) ∧
        (((missingFields L mapping.Fields).map FieldMapping.Name).Nodup →
          missingFields L' mapping.Fields = (missingFields L mapping.Fields).drop j) ∧
        (∀ g ∈ (missingFields L mapping.Fields).take j,
          g ∉ missingFields L' mapping.Fields) ∧
        ((∀ h st, m.db.ExecContext h st = none) →
          m.updateTable executed' mapping =
            (executed' ++
              addColumnStatements mapping.TableName (missingFields L' mapping.Fields),
              none))) := by
  constructor
  · have hlt : j < (missingFields L mapping.Fields).length := by
      by_contra hge
      rw [List.getElem?_eq_none (by omega)] at hj
      exact absurd hj (by simp)
    have hget : (missingFields L mapping.Fields)[j] = f := by
      rw [List.getElem?_eq_getElem hlt] at hj
      exact Option.some.inj hj
    have hplan : addColumnStatements mapping.TableName (missingFields L mapping.Fields) =
        addColumnStatements mapping.TableName ((missingFields L mapping.Fields).take j) ++
          (Statement.AddColumn mapping.TableName f ::
            Statement.RecordMigration ("add_column_" ++ mapping.TableName ++ "_" ++ f.Name) ::
            addColumnStatements mapping.TableName
              ((missingFields L mapping.Fields).drop (j + 1))) := by
      rw [← addColumnStatements_cons, ← addColumnStatements_append, ← hget,
        ← List.drop_eq_getElem_cons hlt, List.take_append_drop]
    unfold Migrator.updateTable
    rw [hq]
    show m.updateLoop mapping L mapping.Fields executed = _
    rw [updateLoop_eq_runAll, hplan, runAll_append_ok]
    · simp only [runAll, hfail, Option.map_some', updateError]
    · intro i st hi
      simp [hok i st hi]
  · intro executed' L' hL hq'
    refine ⟨missingFields_rerun L L' _ j hL, missingFields_rerun_nodup L L' _ j hL, ?_, ?_⟩
    · intro g hg hmem
      have h1 : g.Name ∈ L' := (hL _).mpr (Or.inr (List.mem_map_of_mem _ hg))
      simp only [missingFields, List.mem_filter, decide_not, Bool.not_eq_true',
        decide_eq_false_iff_not] at hmem
      exact hmem.2 h1
    · intro hall
      exact updateTable_all_ok m executed' mapping L' hq' hall

/-- Witness for C19: `users(id, name, age)` against a live table with the column `id`, where
the `ADD COLUMN` of `age` fails. -/
theorem C19_update_table_partial_failure_witness :
    failingMigrator.getTableColumns [] usersWithAge.TableName = .ok ["id"] ∧
    (missingFields ["id"] usersWithAge.Fields)[1]? =
      some { Name := "age", Type_ := .Integer, Size := 0, IsPrimaryKey := false,
             IsAutoInc := false, IsNullable := true, IsUnique := false } ∧
    failingMigrator.updateTable [] usersWithAge =
      ([] ++ addColumnStatements usersWithAge.TableName
          ((missingFields ["id"] usersWithAge.Fields).take 1) ++
        [Statement.AddColumn usersWithAge.TableName
          { Name := "age", Type_ := .Integer, Size := 0, IsPrimaryKey := false,
            IsAutoInc := false, IsNullable := true, IsUnique := false }],
        some ("erro ao adicionar coluna " ++ "age" ++ ": " ++ "disk full")) :=
  ⟨rfl, by decide,
    (C19_update_table_partial_failure failingMigrator [] usersWithAge ["id"] 1
      { Name := "age", Type_ := .Integer, Size := 0, IsPrimaryKey := false,
        IsAutoInc := false, IsNullable := true, IsUnique := false } "disk full" rfl
      (by decide)
      (by
        intro i st hi
        have h2 : addColumnStatements usersWithAge.TableName
            ((missingFields ["id"] usersWithAge.Fields).take 1) =
            [Statement.AddColumn "users"
                { Name := "name", Type_ := .Text, Size := 0, IsPrimaryKey := false,
                  IsAutoInc := false, IsNullable := false, IsUnique := false },
              Statement.RecordMigration "add_column_users_name"] := by decide
        rw [h2] at hi ⊢
        match i, hi with
        | 0, hi => simp at hi; subst hi; rfl
        | 1, hi => simp at hi; subst hi; rfl
        | (n + 2), hi => simp at hi)
      (by decide)).1⟩

theorem executeAll_append (s : Schema) (h l : List Statement) :
    s.executeAll (h ++ l) = (s.executeAll h).executeAll l := by
  simp [Schema.executeAll, List.foldl_append]

theorem Schema.le_refl (s : Schema) : s.le s :=
  fun _ cols h => ⟨cols, h, fun _ hc => hc⟩

theorem Schema.le_trans {s₁ s₂ s₃ : Schema} (h₁ : s₁.le s₂) (h₂ : s₂.le s₃) : s₁.le s₃ := by
  intro t cols h
  obtain ⟨c2, hc2, hsub⟩ := h₁ t cols h
  obtain ⟨c3, hc3, hsub'⟩ := h₂ t c2 hc2
  exact ⟨c3, hc3, fun c hc => hsub' c (hsub c hc)⟩

theorem Schema.le_execute (s : Schema) (st : Statement) : s.le (s.execute st) := by
  intro t cols h
  cases st with
  | EnsureMigrationTable =>
    by_cases ht : t = "migrations"
    · subst ht
      exact ⟨cols, by simp [Schema.execute, h], fun _ hc => hc⟩
    · exact ⟨cols, by simp [Schema.execute, ht, h], fun _ hc => hc⟩
  | CreateTable mapping =>
    by_cases ht : t = mapping.TableName
    · subst ht
      exact ⟨cols, by simp [Schema.execute, h], fun _ hc => hc⟩
    · exact ⟨cols, by simp [Schema.execute, ht, h], fun _ hc => hc⟩
  | AddColumn table field =>
    by_cases ht : t = table
    · subst ht
      exact ⟨cols ++ [field.Name], by simp [Schema.execute, h],
        fun c hc => List.mem_append_left _ hc⟩
    · exact ⟨cols, by simp [Schema.execute, ht, h], fun _ hc => hc⟩
  | RecordMigration name => exact ⟨cols, by simp [Schema.execute, h], fun _ hc => hc⟩

theorem Schema.le_executeAll (s : Schema) (l : List Statement) : s.le (s.executeAll l) := by
  induction l generalizing s with
  | nil => exact Schema.le_refl s
  | cons st rest ih =>
    exact Schema.le_trans (Schema.le_execute s st) (ih (s.execute st))

theorem Schema.covers_mono {s s' : Schema} (h : s.le s') (mapping : TableMapping)
    (hc : s.covers mapping) : s'.covers mapping := by
  obtain ⟨cols, hcols, hall⟩ := hc
  obtain ⟨cols', hcols', hsub⟩ := h _ cols hcols
  exact ⟨cols', hcols', fun f hf => hsub _ (hall f hf)⟩

theorem schema_tableExists (s0 : Schema) (d : Dialect) (dt : DialectType)
    (hdt : dt ≠ DialectType.Other) (h : List Statement) (t : String) :
    (NewMigrator (schemaDB s0) d dt).tableExists h t = .ok ((s0.executeAll h t).isSome) := by
  cases dt <;> first | exact absurd rfl hdt | rfl

theorem schema_getTableColumns (s0 : Schema) (d : Dialect) (dt : DialectType)
    (hdt : dt ≠ DialectType.Other) (h : List Statement) (t : String) :
    (NewMigrator (schemaDB s0) d dt).getTableColumns h t =
      .ok ((s0.executeAll h t).getD []) := by
  cases dt <;> first | exact absurd rfl hdt | rfl

theorem missingFields_eq_nil (L : List String) (fields : List FieldMapping)
    (h : ∀ f ∈ fields, f.Name ∈ L) : missingFields L fields = [] := by
  unfold missingFields
  rw [List.filter_eq_nil_iff]
  intro f hf
  simpa using h f hf

theorem executeAll_addColumnStatements (s : Schema) (table : String)
    (fields : List FieldMapping) (cols : List String) (hs : s table = some cols) :
    (s.executeAll (addColumnStatements table fields)) table =
      some (cols ++ fields.map FieldMapping.Name) := by
  induction fields generalizing s cols with
  | nil => simpa [addColumnStatements, Schema.executeAll] using hs
  | cons f rest ih =>
    rw [addColumnStatements_cons]
    simp only [Schema.executeAll, List.foldl_cons]
    have h1 : ((s.execute (Statement.AddColumn table f)).execute
        (Statement.RecordMigration ("add_column_" ++ table ++ "_" ++ f.Name))) table =
        some (cols ++ [f.Name]) := by
      simp [Schema.execute, hs]
    have := ih _ (cols ++ [f.Name]) h1
    simpa [Schema.executeAll] using this

theorem schema_migrateModel_covered (s0 : Schema) (d : Dialect) (dt : DialectType)
    (hdt : dt ≠ DialectType.Other) (h : List Statement) (mapping : TableMapping)
    (hc : (s0.executeAll h).covers mapping) :
    (NewMigrator (schemaDB s0) d dt).migrateModel h (.ok mapping) = (h, none) := by
  obtain ⟨cols, hcols, hall⟩ := hc
  simp only [Migrator.migrateModel, schema_tableExists s0 d dt hdt, hcols, Option.isSome_some,
    Bool.not_true, Bool.false_eq_true, if_false]
  have hq := schema_getTableColumns s0 d dt hdt h mapping.TableName
  rw [hcols, Option.getD_some] at hq
  rw [updateTable_all_ok _ h mapping cols hq (fun _ _ => rfl), missingFields_eq_nil cols _ hall]
  simp [addColumnStatements]

theorem schema_migrateModel_first (s0 : Schema) (d : Dialect) (dt : DialectType)
    (hdt : dt ≠ DialectType.Other) (h : List Statement) (mapping : TableMapping) :
    ∃ h', (NewMigrator (schemaDB s0) d dt).migrateModel h (.ok mapping) = (h', none) ∧
      (s0.executeAll h').covers mapping ∧ (s0.executeAll h).le (s0.executeAll h') := by
  cases hex : s0.executeAll h mapping.TableName with
  | none =>
    refine ⟨h ++ [Statement.CreateTable mapping,
      Statement.RecordMigration ("create_table_" ++ mapping.TableName)], ?_, ?_, ?_⟩
    · simp only [Migrator.migrateModel, schema_tableExists s0 d dt hdt, hex,
        Option.isSome_none, Bool.not_false, if_true, Migrator.createTable,
        Migrator.recordMigration]
      simp [NewMigrator, schemaDB]
    · refine ⟨mapping.Fields.map FieldMapping.Name, ?_, fun f hf => List.mem_map_of_mem _ hf⟩
      rw [executeAll_append]
      have hex' : List.foldl Schema.execute s0 h mapping.TableName = none := hex
      simp [Schema.executeAll, Schema.execute, hex']
    · rw [executeAll_append]
      exact Schema.le_executeAll _ _
  | some cols =>
    have hq := schema_getTableColumns s0 d dt hdt h mapping.TableName
    rw [hex, Option.getD_some] at hq
    refine ⟨h ++ addColumnStatements mapping.TableName (missingFields cols mapping.Fields),
      ?_, ?_, ?_⟩
    · simp only [Migrator.migrateModel, schema_tableExists s0 d dt hdt, hex,
        Option.isSome_some, Bool.not_true, Bool.false_eq_true, if_false]
      exact updateTable_all_ok _ h mapping cols hq (fun _ _ => rfl)
    · refine ⟨cols ++ (missingFields cols mapping.Fields).map FieldMapping.Name, ?_, ?_⟩
      · rw [executeAll_append]
        exact executeAll_addColumnStatements _ _ _ cols hex
      · intro f hf
        by_cases hin : f.Name ∈ cols
        · exact List.mem_append_left _ hin
        · apply List.mem_append_right
          apply List.mem_map_of_mem
          simp [missingFields, hf, hin]
    · rw [executeAll_append]
      exact Schema.le_executeAll _ _

theorem schema_migrateLoop_rerun (s0 : Schema) (d : Dialect) (dt : DialectType)
    (models : List Model) (h : List Statement) :
    (s0.executeAll h).le
        (s0.executeAll ((NewMigrator (schemaDB s0) d dt).migrateLoop models h).1) ∧
      ∀ h2 : List Statement,
        (s0.executeAll ((NewMigrator (schemaDB s0) d dt).migrateLoop models h).1).le
            (s0.executeAll h2) →
          (NewMigrator (schemaDB s0) d dt).migrateLoop models h2 =
            (h2, ((NewMigrator (schemaDB s0) d dt).migrateLoop models h).2) := by
  induction models generalizing h with
  | nil => exact ⟨Schema.le_refl _, fun h2 _ => rfl⟩
  | cons model rest ih =>
    cases model with
    | error err =>
      exact ⟨Schema.le_refl _, fun h2 _ => rfl⟩
    | ok mapping =>
      by_cases hdt : dt = DialectType.Other
      · subst hdt
        exact ⟨Schema.le_refl _, fun h2 _ => rfl⟩
      · obtain ⟨h', hm, hcov, hle⟩ := schema_migrateModel_first s0 d dt hdt h mapping
        have hstep : (NewMigrator (schemaDB s0) d dt).migrateLoop (.ok mapping :: rest) h =
            (NewMigrator (schemaDB s0) d dt).migrateLoop rest h' := by
          simp only [Migrator.migrateLoop, hm]
        obtain ⟨ih1, ih2⟩ := ih h'
        rw [hstep]
        refine ⟨Schema.le_trans hle ih1, ?_⟩
        intro h2 hle2
        have hcov2 : (s0.executeAll h2).covers mapping :=
          Schema.covers_mono (Schema.le_trans ih1 hle2) mapping hcov
        have hm2 := schema_migrateModel_covered s0 d dt hdt h2 mapping hcov2
        simp only [Migrator.migrateLoop, hm2]
        exact ih2 h2 hle2

theorem execute_ensure_migrations (s : Schema) :
    ∃ cols, (s.executeAll [Statement.EnsureMigrationTable]) "migrations" = some cols := by
  cases hs : s "migrations" with
  | none =>
    exact ⟨["id", "name", "timestamp", "applied"],
      by simp [Schema.executeAll, Schema.execute, hs]⟩
  | some cols => exact ⟨cols, by simp [Schema.executeAll, Schema.execute, hs]⟩

theorem execute_ensure_of_some (s : Schema) (cols : List String)
    (hs : s "migrations" = some cols) :
    s.executeAll [Statement.EnsureMigrationTable] = s := by
  funext t
  by_cases ht : t = "migrations"
  · subst ht
    simp [Schema.executeAll, Schema.execute, hs]
  · simp [Schema.executeAll, Schema.execute, ht]

theorem schema_AutoMigrate_eq (s0 : Schema) (d : Dialect) (dt : DialectType)
    (executed : List Statement) (models : List Model) :
    (NewMigrator (schemaDB s0) d dt).AutoMigrate executed models =
      (NewMigrator (schemaDB s0) d dt).migrateLoop models
        (executed ++ [Statement.EnsureMigrationTable]) := rfl

/-- C18 (as stated, refuted): on the schema model, a second `AutoMigrate` of the unchanged
mapping `users(id, name)` executes one statement, the `CREATE TABLE IF NOT EXISTS
"migrations" (...)` of `ensureMigrationTable`, which every call of `AutoMigrate` executes
first: the number of CREATE statements executed during the second call is one, not zero. -/
theorem C18_second_call_executes_ensure :
    (sqliteMigrator.AutoMigrate [] [Except.ok usersMapping]).1 =
        [Statement.EnsureMigrationTable, Statement.CreateTable usersMapping,
          Statement.RecordMigration "create_table_users"] ∧
      (sqliteMigrator.AutoMigrate
          (sqliteMigrator.AutoMigrate [] [Except.ok usersMapping]).1
          [Except.ok usersMapping]).1 =
        (sqliteMigrator.AutoMigrate [] [Except.ok usersMapping]).1 ++
          [Statement.EnsureMigrationTable] ∧
      Statement.EnsureMigrationTable.query NewSQLite =
        "\n\t\tCREATE TABLE IF NOT EXISTS \"migrations\" (\n\t\t\tid SERIAL PRIMARY KEY,\n\t\t\tname VARCHAR(255) NOT NULL,\n\t\t\ttimestamp TIMESTAMP NOT NULL,\n\t\t\tapplied BOOLEAN NOT NULL DEFAULT FALSE\n\t\t)\n\t" := by
  refine ⟨by decide, by decide, ?_⟩
  simp only [Statement.query, NewSQLite, SQLite.Quote]
  apply String.ext
  simp [String.data_append]

/-- C18 (amended): on the schema model (every statement succeeds and updates the tables and
their columns), started in any schema, for any dialect and any models, an `AutoMigrate`
invoked right after an `AutoMigrate` of the same models executes exactly one statement, the
`CREATE TABLE IF NOT EXISTS` of the migrations table, and so no `CREATE TABLE` of a model's
table and no `ADD COLUMN`; it returns what the first call returned and leaves the schema as
the first call left it. -/
theorem C18_second_auto_migrate_only_ensures (s0 : Schema) (d : Dialect) (dt : DialectType)
    (executed : List Statement) (models : List Model) :
    (NewMigrator (schemaDB s0) d dt).AutoMigrate
        ((NewMigrator (schemaDB s0) d dt).AutoMigrate executed models).1 models =
      (((NewMigrator (schemaDB s0) d dt).AutoMigrate executed models).1 ++
          [Statement.EnsureMigrationTable],
        ((NewMigrator (schemaDB s0) d dt).AutoMigrate executed models).2) ∧
    s0.executeAll
        (((NewMigrator (schemaDB s0) d dt).AutoMigrate executed models).1 ++
          [Statement.EnsureMigrationTable]) =
      s0.executeAll ((NewMigrator (schemaDB s0) d dt).AutoMigrate executed models).1 := by
  obtain ⟨hle, hrerun⟩ := schema_migrateLoop_rerun s0 d dt models
    (executed ++ [Statement.EnsureMigrationTable])
  rw [← schema_AutoMigrate_eq] at hle hrerun
  constructor
  · rw [schema_AutoMigrate_eq s0 d dt
      ((NewMigrator (schemaDB s0) d dt).AutoMigrate executed models).1 models]
    apply hrerun
    rw [executeAll_append]
    exact Schema.le_executeAll _ _
  · obtain ⟨cols, hcols⟩ := execute_ensure_migrations (s0.executeAll executed)
    have hcols2 : s0.executeAll (executed ++ [Statement.EnsureMigrationTable]) "migrations" =
        some cols := by
      rw [executeAll_append]; exact hcols
    obtain ⟨cols', hcols', -⟩ := hle _ cols hcols2
    rw [executeAll_append]
    exact execute_ensure_of_some _ cols' hcols'

/-! ## Paginator -/

theorem roundHalfEven_ge (y : ℚ) (M : Int) (h : (M : ℚ) ≤ y) : M ≤ roundHalfEven y := by
  have hf : M ≤ ⌊y⌋ := Int.le_floor.mpr h
  unfold roundHalfEven
  simp only []
  split_ifs <;> omega

theorem roundHalfEven_le (y : ℚ) (M : Int) (h : y ≤ (M : ℚ)) : roundHalfEven y ≤ M := by
  have hfl : (⌊y⌋ : ℚ) ≤ y := Int.floor_le y
  have hf : ⌊y⌋ ≤ M := by
    have : ((⌊y⌋ : Int) : ℚ) ≤ (M : ℚ) := le_trans hfl h
    exact_mod_cast this
  unfold roundHalfEven
  simp only []
  by_cases heq : ⌊y⌋ = M
  · have hr : y - (⌊y⌋ : ℚ) < 1 / 2 := by
      rw [heq]
      have : y - (M : ℚ) ≤ 0 := by linarith
      linarith
    rw [if_pos hr]
    omega
  · have : ⌊y⌋ + 1 ≤ M := by omega
    split_ifs <;> omega

theorem roundHalfEven_gt (y : ℚ) (M : Int) (h : (M : ℚ) + 1 / 2 < y) :
    M + 1 ≤ roundHalfEven y := by
  have hf : M ≤ ⌊y⌋ := Int.le_floor.mpr (by linarith)
  unfold roundHalfEven
  simp only []
  by_cases heq : ⌊y⌋ = M
  · have hr : 1 / 2 < y - (⌊y⌋ : ℚ) := by
      rw [heq]; linarith
    rw [if_neg (by linarith), if_pos hr]
    omega
  · have : M + 1 ≤ ⌊y⌋ := by omega
    split_ifs <;> omega

theorem roundFloat64_pos (x : ℚ) (hx : 0 < x) :
    roundFloat64 x =
      roundHalfEven (x / 2 ^ (Int.log 2 x - 52)) * (2 : ℚ) ^ (Int.log 2 x - 52) := by
  unfold roundFloat64
  rw [if_neg (ne_of_gt hx), abs_of_pos hx]

theorem roundFloat64_ge (x : ℚ) (hx : 0 < x) (M : Int)
    (h : (M : ℚ) * 2 ^ (Int.log 2 x - 52) ≤ x) :
    (M : ℚ) * 2 ^ (Int.log 2 x - 52) ≤ roundFloat64 x := by
  have hu : (0 : ℚ) < 2 ^ (Int.log 2 x - 52) := zpow_pos (by norm_num) _
  rw [roundFloat64_pos x hx]
  have h1 : (M : ℚ) ≤ x / 2 ^ (Int.log 2 x - 52) := (le_div_iff₀ hu).mpr h
  have h2 : ((M : Int) : ℚ) ≤ (roundHalfEven (x / 2 ^ (Int.log 2 x - 52)) : ℚ) := by
    exact_mod_cast roundHalfEven_ge _ M h1
  exact mul_le_mul_of_nonneg_right h2 (le_of_lt hu)

theorem roundFloat64_le (x : ℚ) (hx : 0 < x) (M : Int)
    (h : x ≤ (M : ℚ) * 2 ^ (Int.log 2 x - 52)) :
    roundFloat64 x ≤ (M : ℚ) * 2 ^ (Int.log 2 x - 52) := by
  have hu : (0 : ℚ) < 2 ^ (Int.log 2 x - 52) := zpow_pos (by norm_num) _
  rw [roundFloat64_pos x hx]
  have h1 : x / 2 ^ (Int.log 2 x - 52) ≤ (M : ℚ) := (div_le_iff₀ hu).mpr h
  have h2 : (roundHalfEven (x / 2 ^ (Int.log 2 x - 52)) : ℚ) ≤ ((M : Int) : ℚ) := by
    exact_mod_cast roundHalfEven_le _ M h1
  exact mul_le_mul_of_nonneg_right h2 (le_of_lt hu)

theorem roundFloat64_gt (x : ℚ) (hx : 0 < x) (M : Int)
    (h : (M : ℚ) * 2 ^ (Int.log 2 x - 52) + 2 ^ (Int.log 2 x - 52) / 2 < x) :
    ((M : ℚ) + 1) * 2 ^ (Int.log 2 x - 52) ≤ roundFloat64 x := by
  have hu : (0 : ℚ) < 2 ^ (Int.log 2 x - 52) := zpow_pos (by norm_num) _
  rw [roundFloat64_pos x hx]
  have h1 : (M : ℚ) + 1 / 2 < x / 2 ^ (Int.log 2 x - 52) := by
    rw [lt_div_iff₀ hu]
    linarith
  have h2 : (((M + 1 : Int)) : ℚ) ≤ (roundHalfEven (x / 2 ^ (Int.log 2 x - 52)) : ℚ) := by
    exact_mod_cast roundHalfEven_gt _ M h1
  have h3 := mul_le_mul_of_nonneg_right h2 (le_of_lt hu)
  push_cast at h3
  exact h3

theorem two_zpow_log_le (x : ℚ) (hx : 0 < x) : (2 : ℚ) ^ Int.log 2 x ≤ x := by
  have h := Int.zpow_log_le_self (R := ℚ) (b := 2) (by norm_num) hx
  simpa using h

theorem log_two_lt_of_lt (x : ℚ) (hx : 0 < x) (k : Int) (h : x < (2 : ℚ) ^ k) :
    Int.log 2 x < k := by
  apply (Int.lt_zpow_iff_log_lt (R := ℚ) (b := 2) (by norm_num) hx).mp
  simpa using h

theorem le_log_two_of_le (x : ℚ) (hx : 0 < x) (k : Int) (h : (2 : ℚ) ^ k ≤ x) :
    k ≤ Int.log 2 x := by
  apply (Int.zpow_le_iff_le_log (R := ℚ) (b := 2) (by norm_num) hx).mp
  simpa using h

theorem int_mul_ulp (e : Int) (he : e ≤ 52) (N : Int) :
    ((N * 2 ^ (52 - e).toNat : Int) : ℚ) * (2 : ℚ) ^ (e - 52) = (N : ℚ) := by
  have h2 : (2 : ℚ) ≠ 0 := by norm_num
  push_cast
  rw [mul_assoc, ← zpow_natCast, ← zpow_add₀ h2]
  have : (((52 - e).toNat : Int)) + (e - 52) = 0 := by omega
  rw [this, zpow_zero, mul_one]

theorem ulp_eq (e : Int) : (2 : ℚ) ^ (e - 52) * 2 ^ (52 : Nat) = (2 : ℚ) ^ e := by
  have h2 : (2 : ℚ) ≠ 0 := by norm_num
  rw [← zpow_natCast, ← zpow_add₀ h2]
  congr 1
  omega

theorem roundFloat64_intCast (n : Int) (h0 : 0 ≤ n) (h : n < 2 ^ 53) :
    roundFloat64 (n : ℚ) = (n : ℚ) := by
  rcases eq_or_lt_of_le h0 with h0' | hpos
  · subst h0'; simp [roundFloat64]
  · have hx : (0 : ℚ) < (n : ℚ) := by exact_mod_cast hpos
    have hlt : (n : ℚ) < (2 : ℚ) ^ (53 : Int) := by
      have h53 : (2 : ℚ) ^ (53 : Int) = ((2 ^ 53 : Int) : ℚ) := by norm_num
      rw [h53]
      exact_mod_cast h
    have he : Int.log 2 (n : ℚ) ≤ 52 := by
      have := log_two_lt_of_lt _ hx 53 hlt
      omega
    have hM := int_mul_ulp (Int.log 2 (n : ℚ)) he n
    apply le_antisymm
    · have := roundFloat64_le (n : ℚ) hx _ (le_of_eq hM.symm)
      rwa [hM] at this
    · have := roundFloat64_ge (n : ℚ) hx _ (le_of_eq hM)
      rwa [hM] at this

theorem ceil_roundFloat64_div (t p : Int) (ht0 : 0 < t) (ht : t < 2 ^ 53) (hp0 : 0 < p) :
    ⌈roundFloat64 ((t : ℚ) / p)⌉ = ⌈(t : ℚ) / p⌉ := by
  have htq : (0 : ℚ) < (t : ℚ) := by exact_mod_cast ht0
  have hpq : (0 : ℚ) < (p : ℚ) := by exact_mod_cast hp0
  have hq : (0 : ℚ) < (t : ℚ) / p := div_pos htq hpq
  have h53 : (2 : ℚ) ^ (53 : Int) = ((2 ^ 53 : Int) : ℚ) := by norm_num
  have htlt : (t : ℚ) < (2 : ℚ) ^ (53 : Int) := by
    rw [h53]; exact_mod_cast ht
  have hp1 : (1 : ℚ) ≤ (p : ℚ) := by exact_mod_cast hp0
  have hqt : (t : ℚ) / p ≤ t := div_le_self (le_of_lt htq) hp1
  have he : Int.log 2 ((t : ℚ) / p) ≤ 52 := by
    have := log_two_lt_of_lt _ hq 53 (lt_of_le_of_lt hqt htlt)
    omega
  have hu : (0 : ℚ) < 2 ^ (Int.log 2 ((t : ℚ) / p) - 52) := zpow_pos (by norm_num) _
  rw [Int.ceil_eq_iff]
  constructor
  · -- strictly above ⌈q⌉ - 1
    have hM := int_mul_ulp (Int.log 2 ((t : ℚ) / p)) he (⌈(t : ℚ) / p⌉ - 1)
    have hlt : ((⌈(t : ℚ) / p⌉ - 1 : Int) : ℚ) < (t : ℚ) / p := by
      have := Int.lt_ceil.mp (show ⌈(t : ℚ) / p⌉ - 1 < ⌈(t : ℚ) / p⌉ by omega)
      exact this
    -- (N-1) * p + 1 ≤ t
    have hint : (⌈(t : ℚ) / p⌉ - 1) * p + 1 ≤ t := by
      have h1 : ((⌈(t : ℚ) / p⌉ - 1 : Int) : ℚ) * p < t := (lt_div_iff₀ hpq).mp hlt
      have h2 : (((⌈(t : ℚ) / p⌉ - 1) * p : Int) : ℚ) < ((t : Int) : ℚ) := by
        push_cast; push_cast at h1; exact h1
      have h3 : (⌈(t : ℚ) / p⌉ - 1) * p < t := by exact_mod_cast h2
      omega
    have hgap : ((⌈(t : ℚ) / p⌉ - 1 : Int) : ℚ) + 1 / p ≤ (t : ℚ) / p := by
      rw [le_div_iff₀ hpq, add_mul, one_div, inv_mul_cancel₀ (ne_of_gt hpq)]
      have : (((⌈(t : ℚ) / p⌉ - 1) * p + 1 : Int) : ℚ) ≤ ((t : Int) : ℚ) := by
        exact_mod_cast hint
      push_cast at this
      push_cast
      linarith
    -- half an ulp is below 1/p
    have hhalf : (2 : ℚ) ^ (Int.log 2 ((t : ℚ) / p) - 52) / 2 < 1 / p := by
      have hle := two_zpow_log_le _ hq
      rw [← ulp_eq] at hle
      have h1 : (2 : ℚ) ^ (Int.log 2 ((t : ℚ) / p) - 52) * 2 ^ (52 : Nat) * p ≤ t :=
        (le_div_iff₀ hpq).mp hle
      have h2 : (t : ℚ) < 2 ^ (53 : Nat) := by
        have : (t : ℚ) < ((2 ^ 53 : Int) : ℚ) := by exact_mod_cast ht
        simpa using this
      rw [div_lt_div_iff₀ (by norm_num) hpq]
      have h3 : (2 : ℚ) ^ (53 : Nat) = 2 ^ (52 : Nat) * 2 := by norm_num
      nlinarith
    have hstrict := roundFloat64_gt _ hq
      ((⌈(t : ℚ) / p⌉ - 1) * 2 ^ (52 - Int.log 2 ((t : ℚ) / p)).toNat)
      (by rw [hM]; linarith)
    rw [add_mul, hM, one_mul] at hstrict
    push_cast at hstrict ⊢
    linarith
  · have hM := int_mul_ulp (Int.log 2 ((t : ℚ) / p)) he ⌈(t : ℚ) / p⌉
    have hle : (t : ℚ) / p ≤ ((⌈(t : ℚ) / p⌉ : Int) : ℚ) := Int.le_ceil _
    have := roundFloat64_le _ hq (⌈(t : ℚ) / p⌉ * 2 ^ (52 - Int.log 2 ((t : ℚ) / p)).toNat)
      (by rw [hM]; exact hle)
    rwa [hM] at this

theorem roundFloat64_ge_two_zpow_log (x : ℚ) (hx : 0 < x) :
    (2 : ℚ) ^ Int.log 2 x ≤ roundFloat64 x := by
  have hcast : (((2 : Int) ^ (52 : Nat) : Int) : ℚ) = (2 : ℚ) ^ (52 : Nat) := by
    simp only [Int.cast_pow, Int.cast_ofNat]
  have h := roundFloat64_ge x hx (2 ^ (52 : Nat))
    (by rw [hcast, mul_comm, ulp_eq]; exact two_zpow_log_le x hx)
  rwa [hcast, mul_comm, ulp_eq] at h

theorem totalPages_eq_ceil (t p : Int) (ht0 : 0 ≤ t) (ht : t < 2 ^ 53) (hp : 1 ≤ p) :
    intOfFloat64 (mathCeil (float64Div (float64OfInt t) (float64OfInt p))) =
      ⌈(t : ℚ) / p⌉ := by
  have hpq : (0 : ℚ) < (p : ℚ) := by exact_mod_cast (show (0 : Int) < p by omega)
  have hint : ∀ N : Int, 0 ≤ N → intOfFloat64 (mathCeil ((N : ℚ))) = N := by
    intro N hN
    have hN' : (0 : ℚ) ≤ ((N : Int) : ℚ) := by exact_mod_cast hN
    simp [intOfFloat64, mathCeil, hN']
  rcases eq_or_lt_of_le ht0 with h0 | htpos
  · subst h0
    simp [float64Div, float64OfInt, roundFloat64, intOfFloat64, mathCeil]
  · have htq : (0 : ℚ) < (t : ℚ) := by exact_mod_cast htpos
    have hceil_nonneg : 0 ≤ ⌈(t : ℚ) / p⌉ := Int.ceil_nonneg (le_of_lt (div_pos htq hpq))
    unfold float64Div float64OfInt
    rw [roundFloat64_intCast t ht0 ht]
    by_cases hpsmall : p < 2 ^ 53
    · rw [roundFloat64_intCast p (by omega) hpsmall]
      unfold mathCeil
      rw [ceil_roundFloat64_div t p htpos ht (by omega)]
      have := hint ⌈(t : ℚ) / p⌉ hceil_nonneg
      simpa [mathCeil] using this
    · -- the divisor rounds to at least 2^53, the quotient lies in (0, 1)
      have h53 : (2 : ℚ) ^ (53 : Int) = ((2 ^ 53 : Int) : ℚ) := by norm_num
      have hp53 : (2 : ℚ) ^ (53 : Int) ≤ (p : ℚ) := by
        rw [h53]; exact_mod_cast (show (2 : Int) ^ 53 ≤ p by omega)
      have hlog : (53 : Int) ≤ Int.log 2 (p : ℚ) := le_log_two_of_le _ hpq 53 hp53
      have hP : (2 : ℚ) ^ (53 : Int) ≤ roundFloat64 (p : ℚ) :=
        le_trans (zpow_le_zpow_right₀ (by norm_num) hlog)
          (roundFloat64_ge_two_zpow_log _ hpq)
      have hPpos : (0 : ℚ) < roundFloat64 (p : ℚ) := lt_of_lt_of_le (zpow_pos (by norm_num) _) hP
      have htlt : (t : ℚ) < (2 : ℚ) ^ (53 : Int) := by
        rw [h53]; exact_mod_cast ht
      have hq' : (0 : ℚ) < (t : ℚ) / roundFloat64 (p : ℚ) := div_pos htq hPpos
      have hq'1 : (t : ℚ) / roundFloat64 (p : ℚ) < 1 := by
        rw [div_lt_one hPpos]; linarith
      have he' : Int.log 2 ((t : ℚ) / roundFloat64 (p : ℚ)) ≤ 52 := by
        have := log_two_lt_of_lt _ hq' 0 (by simpa using hq'1)
        omega
      have hM := int_mul_ulp (Int.log 2 ((t : ℚ) / roundFloat64 (p : ℚ))) he' 1
      have hup : roundFloat64 ((t : ℚ) / roundFloat64 (p : ℚ)) ≤ 1 := by
        have := roundFloat64_le _ hq'
          (1 * 2 ^ (52 - Int.log 2 ((t : ℚ) / roundFloat64 (p : ℚ))).toNat)
          (by rw [hM]; push_cast; exact le_of_lt hq'1)
        rw [hM] at this
        simpa using this
      have hlow : (0 : ℚ) < roundFloat64 ((t : ℚ) / roundFloat64 (p : ℚ)) :=
        lt_of_lt_of_le (zpow_pos (by norm_num) _) (roundFloat64_ge_two_zpow_log _ hq')
      have hc1 : ⌈roundFloat64 ((t : ℚ) / roundFloat64 (p : ℚ))⌉ = 1 := by
        rw [Int.ceil_eq_iff]
        constructor
        · simpa using hlow
        · simpa using hup
      have hc2 : ⌈(t : ℚ) / p⌉ = 1 := by
        rw [Int.ceil_eq_iff]
        constructor
        · simpa using div_pos htq hpq
        · rw [div_le_iff₀ hpq]
          push_cast
          linarith
      unfold mathCeil
      rw [hc1, hc2]
      simp [intOfFloat64]

/-- C20 (as stated, refuted): the paginator `NewPaginator(2^32 + 1, 2^32)` has `page >= 1`,
`perPage >= 1` and `total = 0`, and its `Offset()` is `0`, the product `(page-1)*perPage =
2^64` taken in 64-bit `int` arithmetic, not `2^64`. -/
theorem C20_offset_overflows :
    1 ≤ hugePaginator.page ∧ 1 ≤ hugePaginator.perPage ∧ hugePaginator.total = 0 ∧
      hugePaginator.Offset = 0 ∧
      (hugePaginator.page - 1) * hugePaginator.perPage = 2 ^ 64 ∧
      hugePaginator.Offset ≠ (hugePaginator.page - 1) * hugePaginator.perPage := by
  decide

/-- C20 (amended): for a paginator with `page >= 1`, `perPage >= 1`, `0 <= total < 2^53` and
`(page-1)*perPage < 2^63`: `Offset()` is `(page-1)*perPage`, `Limit()` is `perPage`,
`GetInfo().TotalPages` is the ceiling of `total/perPage`, the least `t` with
`t*perPage >= total`, `HasNext` holds exactly when `page < TotalPages` and `HasPrevious`
exactly when `page > 1`; page 2, perPage 10 and total 95 give offset 10, limit 10, 10 total
pages and both flags true. -/
theorem C20_paginator_arithmetic (p : Paginator) (hpage : 1 ≤ p.page) (hper : 1 ≤ p.perPage)
    (ht0 : 0 ≤ p.total) (ht : p.total < 2 ^ 53)
    (hoff : (p.page - 1) * p.perPage < 2 ^ 63) :
    p.Offset = (p.page - 1) * p.perPage ∧
    p.Limit = p.perPage ∧
    p.GetInfo.TotalPages = ⌈(p.total : ℚ) / p.perPage⌉ ∧
    p.total ≤ p.GetInfo.TotalPages * p.perPage ∧
    (∀ t : Int, p.total ≤ t * p.perPage → p.GetInfo.TotalPages ≤ t) ∧
    (p.GetInfo.HasNext = true ↔ p.page < p.GetInfo.TotalPages) ∧
    (p.GetInfo.HasPrevious = true ↔ p.page > 1) ∧
    (p.page = 2 → p.perPage = 10 → p.total = 95 →
      p.Offset = 10 ∧ p.Limit = 10 ∧ p.GetInfo.TotalPages = 10 ∧
        p.GetInfo.HasNext = true ∧ p.GetInfo.HasPrevious = true) := by
  have hpq : (0 : ℚ) < (p.perPage : ℚ) := by
    exact_mod_cast (show (0 : Int) < p.perPage by omega)
  have hT : p.GetInfo.TotalPages = ⌈(p.total : ℚ) / p.perPage⌉ :=
    totalPages_eq_ceil p.total p.perPage ht0 ht hper
  have hOff : p.Offset = (p.page - 1) * p.perPage := by
    have h1 : 0 ≤ p.page - 1 := by omega
    have h2 : p.page - 1 ≤ (p.page - 1) * p.perPage := by nlinarith
    have h3 : 0 ≤ (p.page - 1) * p.perPage := by nlinarith
    unfold Paginator.Offset
    rw [wrapInt64_eq_self (p.page - 1) (by omega) (by omega),
      wrapInt64_eq_self _ (by omega) hoff]
  have hge : p.total ≤ p.GetInfo.TotalPages * p.perPage := by
    rw [hT]
    have h1 : (p.total : ℚ) / p.perPage ≤ ((⌈(p.total : ℚ) / p.perPage⌉ : Int) : ℚ) :=
      Int.le_ceil _
    rw [div_le_iff₀ hpq] at h1
    exact_mod_cast h1
  have hleast : ∀ t : Int, p.total ≤ t * p.perPage → p.GetInfo.TotalPages ≤ t := by
    intro t hle
    rw [hT, Int.ceil_le, div_le_iff₀ hpq]
    exact_mod_cast hle
  have hnext : p.GetInfo.HasNext = true ↔ p.page < p.GetInfo.TotalPages := by
    simp [Paginator.GetInfo]
  have hprev : p.GetInfo.HasPrevious = true ↔ p.page > 1 := by
    simp [Paginator.GetInfo]
  refine ⟨hOff, rfl, hT, hge, hleast, hnext, hprev, ?_⟩
  intro h2 h10 h95
  have hTP : p.GetInfo.TotalPages = 10 := by
    have a := hleast 10 (by rw [h95, h10]; norm_num)
    rw [h95, h10] at hge
    omega
  refine ⟨by rw [hOff, h2, h10]; norm_num, h10, hTP, ?_, ?_⟩
  · rw [hnext, hTP, h2]; norm_num
  · rw [hprev, h2]; norm_num

/-- Witness for C20 (amended): page 2 with 10 items per page and 95 items in total. -/
theorem C20_paginator_arithmetic_witness :
    (1 ≤ ((NewPaginator 2 10).SetTotal 95).page ∧
      1 ≤ ((NewPaginator 2 10).SetTotal 95).perPage ∧
      0 ≤ ((NewPaginator 2 10).SetTotal 95).total ∧
      ((NewPaginator 2 10).SetTotal 95).total < 2 ^ 53 ∧
      (((NewPaginator 2 10).SetTotal 95).page - 1) *
        ((NewPaginator 2 10).SetTotal 95).perPage < 2 ^ 63) ∧
    ((NewPaginator 2 10).SetTotal 95).Offset = 10 ∧
    ((NewPaginator 2 10).SetTotal 95).Limit = 10 ∧
    ((NewPaginator 2 10).SetTotal 95).GetInfo.TotalPages = 10 ∧
    ((NewPaginator 2 10).SetTotal 95).GetInfo.HasNext = true ∧
    ((NewPaginator 2 10).SetTotal 95).GetInfo.HasPrevious = true :=
  ⟨by decide,
    (C20_paginator_arithmetic ((NewPaginator 2 10).SetTotal 95) (by decide) (by decide)
      (by decide) (by decide) (by decide)).2.2.2.2.2.2.2 rfl rfl rfl⟩

/-! ## Paginator invariant -/

theorem foldl_SetTotal_page (totals : List Int) (p : Paginator) :
    (totals.foldl Paginator.SetTotal p).page = p.page ∧
      (totals.foldl Paginator.SetTotal p).perPage = p.perPage := by
  induction totals generalizing p with
  | nil => exact ⟨rfl, rfl⟩
  | cons t ts ih => simpa [Paginator.SetTotal] using ih (p.SetTotal t)

/-- C21 (as stated, refuted): `NewPaginator(2^62, 4)` has `page >= 1` and `perPage >= 1`, also
after `SetTotal(100)`, and its `Offset()` is `-4`: the product `(2^62 - 1) * 4 = 2^64 - 4`
taken in 64-bit `int` arithmetic. -/
theorem C21_offset_negative :
    1 ≤ (NewPaginator (2 ^ 62) 4).page ∧ 1 ≤ (NewPaginator (2 ^ 62) 4).perPage ∧
      (NewPaginator (2 ^ 62) 4).Offset = -4 ∧
      ((NewPaginator (2 ^ 62) 4).SetTotal 100).Offset = -4 ∧
      ¬ (0 ≤ ((NewPaginator (2 ^ 62) 4).SetTotal 100).Offset) := by
  decide

/-- C21 (amended): for all integers `page`, `perPage` and every sequence of `SetTotal` calls
after `NewPaginator(page, perPage)`, the paginator's page is `1` when `page < 1` and `page`
otherwise, its perPage is `10` when `perPage < 1` and `perPage` otherwise, so `page >= 1`,
`perPage >= 1` and `Limit() >= 1`; and `Offset() = (page-1)*perPage >= 0` whenever that
product is below `2^63`. -/
theorem C21_paginator_invariant (page perPage : Int) (totals : List Int) :
    (totals.foldl Paginator.SetTotal (NewPaginator page perPage)).page =
        (if page < 1 then 1 else page) ∧
      (totals.foldl Paginator.SetTotal (NewPaginator page perPage)).perPage =
        (if perPage < 1 then 10 else perPage) ∧
      1 ≤ (totals.foldl Paginator.SetTotal (NewPaginator page perPage)).page ∧
      1 ≤ (totals.foldl Paginator.SetTotal (NewPaginator page perPage)).perPage ∧
      1 ≤ (totals.foldl Paginator.SetTotal (NewPaginator page perPage)).Limit ∧
      (((totals.foldl Paginator.SetTotal (NewPaginator page perPage)).page - 1) *
          (totals.foldl Paginator.SetTotal (NewPaginator page perPage)).perPage < 2 ^ 63 →
        (totals.foldl Paginator.SetTotal (NewPaginator page perPage)).Offset =
            ((totals.foldl Paginator.SetTotal (NewPaginator page perPage)).page - 1) *
              (totals.foldl Paginator.SetTotal (NewPaginator page perPage)).perPage ∧
          0 ≤ (totals.foldl Paginator.SetTotal (NewPaginator page perPage)).Offset) := by
  obtain ⟨hp, hq⟩ := foldl_SetTotal_page totals (NewPaginator page perPage)
  generalize totals.foldl Paginator.SetTotal (NewPaginator page perPage) = p at hp hq ⊢
  have hp' : p.page = if page < 1 then 1 else page := by rw [hp]; rfl
  have hq' : p.perPage = if perPage < 1 then 10 else perPage := by rw [hq]; rfl
  have h1 : 1 ≤ p.page := by rw [hp']; split <;> omega
  have h2 : 1 ≤ p.perPage := by rw [hq']; split <;> omega
  refine ⟨hp', hq', h1, h2, h2, ?_⟩
  intro hoff
  have a1 : 0 ≤ p.page - 1 := by omega
  have a2 : p.page - 1 ≤ (p.page - 1) * p.perPage := by nlinarith
  have a3 : 0 ≤ (p.page - 1) * p.perPage := by nlinarith
  have hOff : p.Offset = (p.page - 1) * p.perPage := by
    unfold Paginator.Offset
    rw [wrapInt64_eq_self (p.page - 1) (by omega) (by omega),
      wrapInt64_eq_self _ (by omega) hoff]
  exact ⟨hOff, by rw [hOff]; exact a3⟩

/-- Witness for C21 (amended): `NewPaginator(0, -5)` followed by `SetTotal(95)` and
`SetTotal(7)` has page 1, perPage 10, limit 10 and offset 0. -/
theorem C21_paginator_invariant_witness :
    ([95, 7].foldl Paginator.SetTotal (NewPaginator 0 (-5))).page = 1 ∧
      ([95, 7].foldl Paginator.SetTotal (NewPaginator 0 (-5))).perPage = 10 ∧
      (([95, 7].foldl Paginator.SetTotal (NewPaginator 0 (-5))).Offset = 0 ∧
        0 ≤ ([95, 7].foldl Paginator.SetTotal (NewPaginator 0 (-5))).Offset) :=
  ⟨(C21_paginator_invariant 0 (-5) [95, 7]).1, (C21_paginator_invariant 0 (-5) [95, 7]).2.1,
    (C21_paginator_invariant 0 (-5) [95, 7]).2.2.2.2.2 (by decide)⟩

/-! ## Hook registry -/

theorem hooksValue_zero (hs : List Hook) (v : Struct) : hooksValue hs v 0 = v := by
  simp [hooksValue]

theorem hooksValue_cons_succ (h : Hook) (hs : List Hook) (v : Struct) (k : Nat) :
    hooksValue (h :: hs) v (k + 1) = hooksValue hs (h v).1 k := by
  simp [hooksValue]

theorem executeLoop_invoked_type (t : HookType) (hs : List Hook) (i : Nat) (v : Struct)
    (inv : List HookCall) (c : HookCall)
    (hc : c ∈ (HookManager.executeLoop t hs i v inv).invoked) : c ∈ inv ∨ c.hookType = t := by
  induction hs generalizing i v inv with
  | nil => exact Or.inl hc
  | cons h hs ih =>
    unfold HookManager.executeLoop at hc
    split at hc
    · simp only [List.mem_append, List.mem_singleton] at hc
      rcases hc with hc | hc
      · exact Or.inl hc
      · exact Or.inr (by rw [hc])
    · rcases ih _ _ _ hc with hc | hc
      · simp only [List.mem_append, List.mem_singleton] at hc
        rcases hc with hc | hc
        · exact Or.inl hc
        · exact Or.inr (by rw [hc])
      · exact Or.inr hc

theorem executeLoop_all_ok (t : HookType) (hs : List Hook) (i : Nat) (v : Struct)
    (inv : List HookCall)
    (hok : ∀ (k : Nat) (h : Hook), hs[k]? = some h → (h (hooksValue hs v k)).2 = none) :
    HookManager.executeLoop t hs i v inv =
      { invoked := inv ++ (List.range' i hs.length).map (fun k => ⟨t, k⟩)
        value := hooksValue hs v hs.length
        err := none } := by
  induction hs generalizing i v inv with
  | nil => simp [HookManager.executeLoop, hooksValue]
  | cons h hs ih =>
    have h0 : (h v).2 = none := by
      have := hok 0 h (by simp)
      rwa [hooksValue_zero] at this
    unfold HookManager.executeLoop
    rw [h0]
    simp only
    rw [ih (i + 1) (h v).1 (inv ++ [HookCall.mk t i])]
    · simp [List.range'_succ, hooksValue_cons_succ]
    · intro k h' hk
      have := hok (k + 1) h' (by simpa using hk)
      rwa [hooksValue_cons_succ] at this

theorem executeLoop_fail_at (t : HookType) (hs : List Hook) (i : Nat) (v : Struct)
    (inv : List HookCall) (k : Nat) (h : Hook) (e : Error) (hk : hs[k]? = some h)
    (he : (h (hooksValue hs v k)).2 = some e)
    (hok : ∀ (j : Nat) (h' : Hook), j < k → hs[j]? = some h' →
      (h' (hooksValue hs v j)).2 = none) :
    HookManager.executeLoop t hs i v inv =
      { invoked := inv ++ (List.range' i (k + 1)).map (fun j => ⟨t, j⟩)
        value := (h (hooksValue hs v k)).1
        err := some e } := by
  induction hs generalizing i v inv k with
  | nil => simp at hk
  | cons h0 hs ih =>
    cases k with
    | zero =>
      simp only [List.getElem?_cons_zero, Option.some.injEq] at hk
      subst hk
      rw [hooksValue_zero] at he ⊢
      unfold HookManager.executeLoop
      rw [he]
      simp [List.range'_succ]
    | succ k =>
      have h0ok : (h0 v).2 = none := by
        have := hok 0 h0 (by omega) (by simp)
        rwa [hooksValue_zero] at this
      simp only [List.getElem?_cons_succ] at hk
      rw [hooksValue_cons_succ] at he ⊢
      unfold HookManager.executeLoop
      rw [h0ok]
      simp only
      rw [ih (i + 1) (h0 v).1 (inv ++ [HookCall.mk t i]) k hk he]
      · simp [List.range'_succ]
      · intro j h' hj hj'
        have := hok (j + 1) h' (by omega) (by simpa using hj')
        rwa [hooksValue_cons_succ] at this

theorem executeLoop_err_none (t : HookType) (hs : List Hook) (i : Nat) (v : Struct)
    (inv : List HookCall) (hnone : (HookManager.executeLoop t hs i v inv).err = none) :
    ∀ (k : Nat) (h : Hook), hs[k]? = some h → (h (hooksValue hs v k)).2 = none := by
  induction hs generalizing i v inv with
  | nil => intro k h hk; simp at hk
  | cons h0 hs ih =>
    unfold HookManager.executeLoop at hnone
    split at hnone
    · simp at hnone
    · rename_i h0ok
      intro k h hk
      cases k with
      | zero =>
        simp only [List.getElem?_cons_zero, Option.some.injEq] at hk
        subst hk
        rw [hooksValue_zero]; exact h0ok
      | succ k =>
        rw [hooksValue_cons_succ]
        exact ih _ _ _ hnone k h (by simpa using hk)

/-- C30: for every registry, hook type and value, `Execute` invokes only hooks looked up
under that type; it returns `nil` exactly when every hook of the type returns `nil` on
the value its predecessors left, and then it has invoked all of them in the order of the
list; when the hook at position `k` is the first to return an error, `Execute` returns
exactly that error after invoking positions `0..k` in order and nothing later; with no hook
of the type it returns `nil` without an invocation; `Register` appends to the list of its
type and leaves the other types alone, and a new registry has no hook. -/
theorem C30_execute_hooks_in_order (hm : HookManager) (hookType : HookType) (value : Struct) :
    (∀ c ∈ (hm.Execute hookType value).invoked, c.hookType = hookType) ∧
    ((hm.Execute hookType value).err = none ↔
      ∀ (i : Nat) (h : Hook), (hm.hooks hookType)[i]? = some h →
        (h (hooksValue (hm.hooks hookType) value i)).2 = none) ∧
    ((hm.Execute hookType value).err = none →
      (hm.Execute hookType value).invoked =
          (List.range (hm.hooks hookType).length).map (fun i => ⟨hookType, i⟩) ∧
        (hm.Execute hookType value).value =
          hooksValue (hm.hooks hookType) value (hm.hooks hookType).length) ∧
    (∀ (k : Nat) (h : Hook) (e : Error), (hm.hooks hookType)[k]? = some h →
      (h (hooksValue (hm.hooks hookType) value k)).2 = some e →
      (∀ (i : Nat) (h' : Hook), i < k → (hm.hooks hookType)[i]? = some h' →
        (h' (hooksValue (hm.hooks hookType) value i)).2 = none) →
      (hm.Execute hookType value).err = some e ∧
        (hm.Execute hookType value).invoked =
          (List.range (k + 1)).map (fun i => ⟨hookType, i⟩) ∧
        (hm.Execute hookType value).value = (h (hooksValue (hm.hooks hookType) value k)).1) ∧
    (hm.hooks hookType = [] →
      hm.Execute hookType value = { invoked := [], value := value, err := none }) ∧
    (∀ hook : Hook,
      (hm.Register hookType hook).hooks hookType = hm.hooks hookType ++ [hook] ∧
        ∀ t : HookType, t ≠ hookType → (hm.Register hookType hook).hooks t = hm.hooks t) ∧
    NewHookManager.hooks hookType = [] := by
  refine ⟨?_, ⟨?_, ?_⟩, ?_, ?_, ?_, ?_, rfl⟩
  · intro c hc
    rcases executeLoop_invoked_type _ _ _ _ _ c hc with h | h
    · simp at h
    · exact h
  · exact executeLoop_err_none _ _ _ _ _
  · intro hok
    unfold HookManager.Execute
    rw [executeLoop_all_ok _ _ _ _ _ hok]
  · intro hnone
    have hok := executeLoop_err_none _ _ _ _ _ hnone
    unfold HookManager.Execute
    rw [executeLoop_all_ok _ _ _ _ _ hok]
    exact ⟨by simp [List.range_eq_range'], rfl⟩
  · intro k h e hk he hok
    unfold HookManager.Execute
    rw [executeLoop_fail_at _ _ _ _ _ k h e hk he hok]
    exact ⟨rfl, by simp [List.range_eq_range'], rfl⟩
  · intro hnil
    unfold HookManager.Execute
    rw [hnil]
    rfl
  · intro hook
    refine ⟨by simp [HookManager.Register], ?_⟩
    intro t ht
    simp [HookManager.Register, ht]

/-- Witness for C30: after registering, in this order, a passing before-create hook, a
failing after-create hook, a failing before-create hook and another passing before-create
hook, `Execute` for `BeforeCreate` invokes positions 0 and 1 of that type and returns the
error of position 1. -/
theorem C30_execute_hooks_in_order_witness :
    (sampleHooks.Execute BeforeCreate zeroUser).err = some "second" ∧
    (sampleHooks.Execute BeforeCreate zeroUser).invoked =
      (List.range (1 + 1)).map (fun i => ⟨BeforeCreate, i⟩) ∧
    (sampleHooks.Execute BeforeCreate zeroUser).value =
      ((failingHook "second") (hooksValue (sampleHooks.hooks BeforeCreate) zeroUser 1)).1 :=
  (C30_execute_hooks_in_order sampleHooks BeforeCreate zeroUser).2.2.2.1 1
    (failingHook "second") "second" rfl rfl
    (by
      intro i h' hi hh
      have hi0 : i = 0 := by omega
      subst hi0
      simp only [sampleHooks, HookManager.Register, NewHookManager, BeforeCreate,
        AfterCreate] at hh
      simp at hh
      subst hh
      rfl)
/-! ## Create -/

theorem Create_of_validate_ne (m : ModelHandler) (data : Struct)
    (h : m.session.validator.Validate data ≠ Outcome.returned none) :
    m.Create data =
      { calls := [], hooks := [], cache := m.session.cache, data := data,
        outcome := m.session.validator.Validate data } := by
  unfold ModelHandler.Create
  split
  · rename_i heq
    exact absurd heq h
  · rfl

theorem Create_of_before_err (m : ModelHandler) (data : Struct) (e : Error)
    (hv : m.session.validator.Validate data = Outcome.returned none)
    (hb : (m.session.hooks.Execute BeforeCreate data).err = some e) :
    m.Create data =
      { calls := [], hooks := (m.session.hooks.Execute BeforeCreate data).invoked,
        cache := m.session.cache, data := (m.session.hooks.Execute BeforeCreate data).value,
        outcome := Outcome.returned (some e) } := by
  unfold ModelHandler.Create
  simp only [hv, hb]

theorem Create_of_lookup_panic (m : ModelHandler) (data : Struct)
    (hv : m.session.validator.Validate data = Outcome.returned none)
    (hb : (m.session.hooks.Execute BeforeCreate data).err = none)
    (hl : ModelHandler.createLoop (m.session.hooks.Execute BeforeCreate data).value
      m.mapping.Fields [] [] = none) :
    m.Create data =
      { calls := [], hooks := (m.session.hooks.Execute BeforeCreate data).invoked,
        cache := m.session.cache, data := (m.session.hooks.Execute BeforeCreate data).value,
        outcome := Outcome.panicked } := by
  unfold ModelHandler.Create
  simp only [hv, hb, hl]

theorem Create_of_exec_err (m : ModelHandler) (data : Struct) (columns : List String)
    (values : List Value) (e : Error)
    (hv : m.session.validator.Validate data = Outcome.returned none)
    (hb : (m.session.hooks.Execute BeforeCreate data).err = none)
    (hl : ModelHandler.createLoop (m.session.hooks.Execute BeforeCreate data).value
      m.mapping.Fields [] [] = some (columns, values))
    (hx : m.session.db.ExecContext [] (m.insertCall columns values) = some e) :
    m.Create data =
      { calls := [SQLCall.ExecContext (m.insertCall columns values)],
        hooks := (m.session.hooks.Execute BeforeCreate data).invoked,
        cache := m.session.cache, data := (m.session.hooks.Execute BeforeCreate data).value,
        outcome := Outcome.returned (some e) } := by
  unfold ModelHandler.Create
  simp only [hv, hb, hl, hx]

theorem Create_of_after_err (m : ModelHandler) (data : Struct) (columns : List String)
    (values : List Value) (e : Error)
    (hv : m.session.validator.Validate data = Outcome.returned none)
    (hb : (m.session.hooks.Execute BeforeCreate data).err = none)
    (hl : ModelHandler.createLoop (m.session.hooks.Execute BeforeCreate data).value
      m.mapping.Fields [] [] = some (columns, values))
    (hx : m.session.db.ExecContext [] (m.insertCall columns values) = none)
    (ha : (m.session.hooks.Execute AfterCreate
      (m.session.hooks.Execute BeforeCreate data).value).err = some e) :
    m.Create data =
      { calls := [SQLCall.ExecContext (m.insertCall columns values)],
        hooks := (m.session.hooks.Execute BeforeCreate data).invoked ++
          (m.session.hooks.Execute AfterCreate
            (m.session.hooks.Execute BeforeCreate data).value).invoked,
        cache := m.session.cache,
        data := (m.session.hooks.Execute AfterCreate
          (m.session.hooks.Execute BeforeCreate data).value).value,
        outcome := Outcome.returned (some e) } := by
  unfold ModelHandler.Create
  simp only [hv, hb, hl, hx, ha]

theorem Create_of_success (m : ModelHandler) (data : Struct) (columns : List String)
    (values : List Value)
    (hv : m.session.validator.Validate data = Outcome.returned none)
    (hb : (m.session.hooks.Execute BeforeCreate data).err = none)
    (hl : ModelHandler.createLoop (m.session.hooks.Execute BeforeCreate data).value
      m.mapping.Fields [] [] = some (columns, values))
    (hx : m.session.db.ExecContext [] (m.insertCall columns values) = none)
    (ha : (m.session.hooks.Execute AfterCreate
      (m.session.hooks.Execute BeforeCreate data).value).err = none) :
    m.Create data =
      { calls := [SQLCall.ExecContext (m.insertCall columns values)],
        hooks := (m.session.hooks.Execute BeforeCreate data).invoked ++
          (m.session.hooks.Execute AfterCreate
            (m.session.hooks.Execute BeforeCreate data).value).invoked,
        cache := m.session.cache.Delete ("table:" ++ m.mapping.TableName),
        data := (m.session.hooks.Execute AfterCreate
          (m.session.hooks.Execute BeforeCreate data).value).value,
        outcome := Outcome.returned none } := by
  unfold ModelHandler.Create
  simp only [hv, hb, hl, hx, ha]

/-- The paths through `Create`: it ends without a statement and with the cache untouched
(validation did not pass, a before-create hook failed or a value lookup panicked), or the
INSERT failed, or an after-create hook failed after a successful INSERT, or everything
succeeded and the cache entry of the table was deleted. -/
theorem Create_paths (m : ModelHandler) (data : Struct) :
    ((m.Create data).calls = [] ∧ (m.Create data).cache = m.session.cache ∧
        (m.Create data).outcome ≠ Outcome.returned none) ∨
    (∃ (call : ExecCall) (e : Error), (m.Create data).calls = [SQLCall.ExecContext call] ∧
        m.session.db.ExecContext [] call = some e ∧
        (m.Create data).cache = m.session.cache ∧
        (m.Create data).outcome = Outcome.returned (some e)) ∨
    (∃ (call : ExecCall) (e : Error), (m.Create data).calls = [SQLCall.ExecContext call] ∧
        m.session.db.ExecContext [] call = none ∧
        (m.session.hooks.Execute AfterCreate
          (m.session.hooks.Execute BeforeCreate data).value).err = some e ∧
        (m.Create data).cache = m.session.cache ∧
        (m.Create data).outcome = Outcome.returned (some e)) ∨
    (∃ call : ExecCall, (m.Create data).calls = [SQLCall.ExecContext call] ∧
        m.session.db.ExecContext [] call = none ∧
        (m.Create data).cache = m.session.cache.Delete ("table:" ++ m.mapping.TableName) ∧
        (m.Create data).outcome = Outcome.returned none) := by
  by_cases hv : m.session.validator.Validate data = Outcome.returned none
  · cases hb : (m.session.hooks.Execute BeforeCreate data).err with
    | some e =>
      rw [Create_of_before_err m data e hv hb]
      exact Or.inl ⟨rfl, rfl, by simp⟩
    | none =>
      cases hl : ModelHandler.createLoop (m.session.hooks.Execute BeforeCreate data).value
          m.mapping.Fields [] [] with
      | none =>
        rw [Create_of_lookup_panic m data hv hb hl]
        exact Or.inl ⟨rfl, rfl, by simp⟩
      | some cv =>
        obtain ⟨columns, values⟩ := cv
        cases hx : m.session.db.ExecContext [] (m.insertCall columns values) with
        | some e =>
          rw [Create_of_exec_err m data columns values e hv hb hl hx]
          exact Or.inr (Or.inl ⟨_, e, rfl, hx, rfl, rfl⟩)
        | none =>
          cases ha : (m.session.hooks.Execute AfterCreate
              (m.session.hooks.Execute BeforeCreate data).value).err with
          | some e =>
            rw [Create_of_after_err m data columns values e hv hb hl hx ha]
            exact Or.inr (Or.inr (Or.inl ⟨_, e, rfl, hx, rfl, rfl, rfl⟩))
          | none =>
            rw [Create_of_success m data columns values hv hb hl hx ha]
            exact Or.inr (Or.inr (Or.inr ⟨_, rfl, hx, rfl, rfl⟩))
  · rw [Create_of_validate_ne m data hv]
    exact Or.inl ⟨rfl, rfl, hv⟩

/-- C22: for every handler and record, when `Validate` returns an error `Create` returns
that error with no call on the database, no hook invocation, the cache as it was and the
record untouched; when validation passes and a before-create hook returns an error, `Create`
returns that error with no call on the database, the cache as it was, and exactly the
invocations that `Execute` made for `BeforeCreate`, none of them of another type. -/
theorem C22_create_fails_fast (m : ModelHandler) (data : Struct) :
    (∀ e : Error, m.session.validator.Validate data = Outcome.returned (some e) →
      (m.Create data).outcome = Outcome.returned (some e) ∧ (m.Create data).calls = [] ∧
        (m.Create data).hooks = [] ∧ (m.Create data).cache = m.session.cache ∧
        (m.Create data).data = data) ∧
    (∀ e : Error, m.session.validator.Validate data = Outcome.returned none →
      (m.session.hooks.Execute BeforeCreate data).err = some e →
      (m.Create data).outcome = Outcome.returned (some e) ∧ (m.Create data).calls = [] ∧
        (m.Create data).hooks = (m.session.hooks.Execute BeforeCreate data).invoked ∧
        (∀ c ∈ (m.Create data).hooks, c.hookType = BeforeCreate) ∧
        (m.Create data).cache = m.session.cache) := by
  constructor
  · intro e hv
    rw [Create_of_validate_ne m data (by rw [hv]; simp)]
    exact ⟨hv, rfl, rfl, rfl, rfl⟩
  · intro e hv hb
    rw [Create_of_before_err m data e hv hb]
    refine ⟨rfl, rfl, rfl, ?_, rfl⟩
    intro c hc
    rcases executeLoop_invoked_type _ _ _ _ _ c hc with h | h
    · simp at h
    · exact h

/-- Witness for C22: on the tests' session a `User` with an empty `Name` fails validation
with `Name: campo obrigatório`, and `Create` returns that error without a call; with the
hooks of `sampleHooks` registered, a valid `User` makes the second before-create hook fail,
and `Create` returns its error without a call after the two before-create invocations. -/
theorem C22_create_fails_fast_witness :
    ((testSession okDB).validator.Validate (User 0 "" "test@example.com" 20 zeroTime) =
        Outcome.returned (some "Name: campo obrigatório") ∧
      (((testSession okDB).Model zeroUser).Create
          (User 0 "" "test@example.com" 20 zeroTime)).outcome =
        Outcome.returned (some "Name: campo obrigatório") ∧
      (((testSession okDB).Model zeroUser).Create
          (User 0 "" "test@example.com" 20 zeroTime)).calls = [] ∧
      (((testSession okDB).Model zeroUser).Create
          (User 0 "" "test@example.com" 20 zeroTime)).hooks = []) ∧
    (hookedSession.validator.Validate (User 0 "John Doe" "john@example.com" 25 zeroTime) =
        Outcome.returned none ∧
      (hookedSession.hooks.Execute BeforeCreate
          (User 0 "John Doe" "john@example.com" 25 zeroTime)).err = some "second" ∧
      ((hookedSession.Model zeroUser).Create
          (User 0 "John Doe" "john@example.com" 25 zeroTime)).outcome =
        Outcome.returned (some "second") ∧
      ((hookedSession.Model zeroUser).Create
          (User 0 "John Doe" "john@example.com" 25 zeroTime)).calls = [] ∧
      ((hookedSession.Model zeroUser).Create
          (User 0 "John Doe" "john@example.com" 25 zeroTime)).hooks =
        [⟨BeforeCreate, 0⟩, ⟨BeforeCreate, 1⟩]) :=
  ⟨⟨by decide,
      ((C22_create_fails_fast ((testSession okDB).Model zeroUser)
        (User 0 "" "test@example.com" 20 zeroTime)).1 "Name: campo obrigatório" (by decide)).1,
      ((C22_create_fails_fast ((testSession okDB).Model zeroUser)
        (User 0 "" "test@example.com" 20 zeroTime)).1 "Name: campo obrigatório" (by decide)).2.1,
      ((C22_create_fails_fast ((testSession okDB).Model zeroUser)
        (User 0 "" "test@example.com" 20 zeroTime)).1 "Name: campo obrigatório" (by decide)).2.2.1⟩,
    ⟨by decide, by decide,
      ((C22_create_fails_fast (hookedSession.Model zeroUser)
        (User 0 "John Doe" "john@example.com" 25 zeroTime)).2 "second" (by decide) (by decide)).1,
      ((C22_create_fails_fast (hookedSession.Model zeroUser)
        (User 0 "John Doe" "john@example.com" 25 zeroTime)).2 "second" (by decide) (by decide)).2.1,
      ((C22_create_fails_fast (hookedSession.Model zeroUser)
        (User 0 "John Doe" "john@example.com" 25 zeroTime)).2 "second" (by decide)
        (by decide)).2.2.1.trans (by decide)⟩⟩

/-- C23 (as stated, refuted): on a session whose cache holds an entry under `table:account`
and whose after-create hook fails, `Create` of an `Account` executes its INSERT, which
succeeds, and returns the hook's error with the cache entry still in place. -/
theorem C23_after_hook_failure_keeps_cache :
    ((staleSession.Model (Account 0 "" "")).Create (Account 0 "Ann" "ann@example.com")).calls =
      [SQLCall.ExecContext
        ⟨"INSERT INTO `account` (`Name`, `Email`) VALUES (?, ?)",
          [Value.str "Ann", Value.str "ann@example.com"]⟩] ∧
    staleSession.db.ExecContext []
        ⟨"INSERT INTO `account` (`Name`, `Email`) VALUES (?, ?)",
          [Value.str "Ann", Value.str "ann@example.com"]⟩ = none ∧
    ((staleSession.Model (Account 0 "" "")).Create (Account 0 "Ann" "ann@example.com")).outcome =
      Outcome.returned (some "after-create failed") ∧
    (staleSession.Model (Account 0 "" "")).mapping.TableName = "account" ∧
    ((staleSession.Model (Account 0 "" "")).Create
        (Account 0 "Ann" "ann@example.com")).cache.items "table:account" =
      some ⟨Value.int 1, 0⟩ := by
  decide

/-- C23 (amended): for every handler and record, when `Create` returns `nil` it has executed
its INSERT successfully and the cache is the session's cache with the entry
`table:<table name>` deleted, every other entry being as before; when `Create` does not
return `nil` (validation, a before-create hook, the value lookup, the INSERT or an
after-create hook failed) the cache is as it was; in particular it is as it was whenever no
statement was executed. -/
theorem C23_cache_invalidated_on_success (m : ModelHandler) (data : Struct) :
    ((m.Create data).outcome = Outcome.returned none →
      (∃ call : ExecCall, (m.Create data).calls = [SQLCall.ExecContext call] ∧
        m.session.db.ExecContext [] call = none) ∧
      (m.Create data).cache = m.session.cache.Delete ("table:" ++ m.mapping.TableName) ∧
      (m.Create data).cache.items ("table:" ++ m.mapping.TableName) = none ∧
      (∀ k : String, k ≠ "table:" ++ m.mapping.TableName →
        (m.Create data).cache.items k = m.session.cache.items k)) ∧
    ((m.Create data).outcome ≠ Outcome.returned none →
      (m.Create data).cache = m.session.cache) ∧
    ((m.Create data).calls = [] → (m.Create data).cache = m.session.cache) := by
  rcases Create_paths m data with ⟨hc, hk, ho⟩ | ⟨call, e, hc, hx, hk, ho⟩ |
    ⟨call, e, hc, hx, ha, hk, ho⟩ | ⟨call, hc, hx, hk, ho⟩
  · exact ⟨fun h => absurd h ho, fun _ => hk, fun _ => hk⟩
  · refine ⟨fun h => ?_, fun _ => hk, fun _ => hk⟩
    rw [ho] at h; simp at h
  · refine ⟨fun h => ?_, fun _ => hk, fun _ => hk⟩
    rw [ho] at h; simp at h
  · refine ⟨fun _ => ⟨⟨call, hc, hx⟩, hk, ?_, ?_⟩, fun h => absurd ho h, fun h => ?_⟩
    · rw [hk]; simp [Cache.Delete]
    · intro k hne
      rw [hk]; simp [Cache.Delete, hne]
    · rw [hc] at h; simp at h

/-- Witness for C23 (amended): on the tests' session with an entry under `table:account` in
the cache and no hook, `Create` of an `Account` returns `nil` and the entry is gone. -/
theorem C23_cache_invalidated_on_success_witness :
    ((cachedSession.Model (Account 0 "" "")).Create
        (Account 0 "Ann" "ann@example.com")).outcome = Outcome.returned none ∧
    cachedSession.cache.items "table:account" = some ⟨Value.int 1, 0⟩ ∧
    ((cachedSession.Model (Account 0 "" "")).Create
        (Account 0 "Ann" "ann@example.com")).cache.items
        ("table:" ++ (cachedSession.Model (Account 0 "" "")).mapping.TableName) = none :=
  ⟨by decide, by decide,
    ((C23_cache_invalidated_on_success (cachedSession.Model (Account 0 "" ""))
      (Account 0 "Ann" "ann@example.com")).1 (by decide)).2.2.1⟩
theorem createLoop_eq_none (v : Struct) (fields : List FieldMapping) (columns : List String)
    (values : List Value) :
    ModelHandler.createLoop v fields columns values = none ↔
      ∃ f ∈ fields, f.IsAutoInc = false ∧ fieldInterface (v.FieldByName f.Name) = none := by
  induction fields generalizing columns values with
  | nil => simp [ModelHandler.createLoop]
  | cons f fs ih =>
    unfold ModelHandler.createLoop
    by_cases ha : f.IsAutoInc = true
    · simp only [ha, if_true, ih, List.mem_cons, exists_eq_or_imp]
      simp
    · have ha' : f.IsAutoInc = false := by simpa using ha
      simp only [ha', Bool.false_eq_true, if_false, List.mem_cons, exists_eq_or_imp, true_and]
      cases hx : fieldInterface (v.FieldByName f.Name) with
      | none => simp
      | some x => simp [ih]

/-- C24 (refuted on the tests' own input): on the tests' session, whatever the database
does, the handler for `models.User` has the columns `id, name, email, age, created_at,
deleted_at`; the record of the tests' `Create` passes validation, has no field named `name`
(its field is `Name`), and `Create` panics at that lookup without a call on the database.
In general the loop of `Create` panics exactly when some column that is not auto-increment
is not the name of an exported field of the record. -/
theorem C24_create_lookup_panics (db : SessionDB) :
    ((testSession db).Model zeroUser).mapping.TableName = "user" ∧
    ((testSession db).Model zeroUser).mapping.Fields.map (fun f => f.Name) =
      ["id", "name", "email", "age", "created_at", "deleted_at"] ∧
    (testSession db).validator.Validate johnDoe = Outcome.returned none ∧
    ((testSession db).hooks.Execute BeforeCreate johnDoe).err = none ∧
    johnDoe.FieldByName "name" = none ∧
    fieldInterface (johnDoe.FieldByName "Name") = some (Value.str "John Doe") ∧
    (((testSession db).Model zeroUser).Create johnDoe).outcome = Outcome.panicked ∧
    (((testSession db).Model zeroUser).Create johnDoe).calls = [] ∧
    (∀ (v : Struct) (fields : List FieldMapping),
      ModelHandler.createLoop v fields [] [] = none ↔
        ∃ f ∈ fields, f.IsAutoInc = false ∧ fieldInterface (v.FieldByName f.Name) = none) := by
  have hv : (testSession db).validator.Validate johnDoe = Outcome.returned none := by
    show NewValidator.Validate johnDoe = Outcome.returned none
    decide
  have hb : ((testSession db).hooks.Execute BeforeCreate johnDoe).err = none := rfl
  have hl : ModelHandler.createLoop ((testSession db).hooks.Execute BeforeCreate johnDoe).value
      ((testSession db).Model zeroUser).mapping.Fields [] [] = none := by
    show ModelHandler.createLoop johnDoe (Parser.Parse zeroUser).Fields [] [] = none
    decide
  refine ⟨(by decide : (Parser.Parse zeroUser).TableName = "user"),
    (by decide : (Parser.Parse zeroUser).Fields.map (fun f => f.Name) =
      ["id", "name", "email", "age", "created_at", "deleted_at"]),
    hv, hb, by decide, by decide, ?_, ?_,
    fun v fields => createLoop_eq_none v fields [] []⟩
  · rw [Create_of_lookup_panic _ _ hv hb hl]
  · rw [Create_of_lookup_panic _ _ hv hb hl]

/-- C25 (refuted): `Create` never stores anything in the record. With no before-create and
no after-create hook registered the record after `Create` is the record before it, whatever
the database does; on the tests' session `Create` of an `Account` with `ID` 0, whose
mapping has the auto-increment primary key `ID`, executes its INSERT, returns `nil` and
leaves `ID` at 0. -/
theorem C25_create_leaves_id_unset :
    (∀ (m : ModelHandler) (data : Struct), m.session.hooks.hooks BeforeCreate = [] →
      m.session.hooks.hooks AfterCreate = [] → (m.Create data).data = data) ∧
    ((testSession okDB).Model (Account 0 "" "")).mapping.Fields.head? =
      some ⟨"ID", DataType.Integer, 0, true, true, false, false⟩ ∧
    (((testSession okDB).Model (Account 0 "" "")).Create
        (Account 0 "Ann" "ann@example.com")).calls =
      [SQLCall.ExecContext
        ⟨"INSERT INTO `account` (`Name`, `Email`) VALUES (?, ?)",
          [Value.str "Ann", Value.str "ann@example.com"]⟩] ∧
    (((testSession okDB).Model (Account 0 "" "")).Create
        (Account 0 "Ann" "ann@example.com")).outcome = Outcome.returned none ∧
    (((testSession okDB).Model (Account 0 "" "")).Create
        (Account 0 "Ann" "ann@example.com")).data = Account 0 "Ann" "ann@example.com" ∧
    fieldInterface ((((testSession okDB).Model (Account 0 "" "")).Create
        (Account 0 "Ann" "ann@example.com")).data.FieldByName "ID") = some (Value.int 0) := by
  refine ⟨?_, by decide, by decide, by decide, by decide, by decide⟩
  intro m data hb ha
  have eb : ∀ v : Struct, m.session.hooks.Execute BeforeCreate v =
      { invoked := [], value := v, err := none } := by
    intro v; unfold HookManager.Execute; rw [hb]; rfl
  have ea : ∀ v : Struct, m.session.hooks.Execute AfterCreate v =
      { invoked := [], value := v, err := none } := by
    intro v; unfold HookManager.Execute; rw [ha]; rfl
  unfold ModelHandler.Create
  simp only [eb, ea]
  split
  · split
    · rfl
    · split <;> rfl
  · rfl

theorem updateFields_some (m : ModelHandler) (v : Struct) (fields : List FieldMapping)
    (updates0 : List String) (values0 : List Value) (updates : List String)
    (values : List Value)
    (h : m.updateFields v fields updates0 values0 = some (updates, values)) :
    updates = updates0 ++
        (fields.filter (fun f => !(f.IsPrimaryKey || f.IsAutoInc))).map
          (fun f => m.session.dialect.Quote f.Name ++ " = ?") ∧
      values = values0 ++
        (fields.filter (fun f => !(f.IsPrimaryKey || f.IsAutoInc))).map
          (fun f => ((v.FieldByName f.Name).map (fun g => g.Value)).getD Value.null) := by
  induction fields generalizing updates0 values0 with
  | nil =>
    simp only [ModelHandler.updateFields, Option.some.injEq, Prod.mk.injEq] at h
    simp [h.1, h.2]
  | cons f fs ih =>
    unfold ModelHandler.updateFields at h
    by_cases hk : (f.IsPrimaryKey || f.IsAutoInc) = true
    · simp only [hk, if_true] at h
      have := ih _ _ h
      simp only [List.filter_cons, hk, Bool.not_true, Bool.false_eq_true, if_false]
      exact this
    · simp only [hk, Bool.false_eq_true, if_false] at h
      cases hx : fieldInterface (v.FieldByName f.Name) with
      | none => rw [hx] at h; simp at h
      | some x =>
        rw [hx] at h
        have hval : ((v.FieldByName f.Name).map (fun g => g.Value)).getD Value.null = x := by
          cases hf : v.FieldByName f.Name with
          | none => rw [hf] at hx; simp [fieldInterface] at hx
          | some g =>
            rw [hf] at hx
            simp only [fieldInterface] at hx
            split at hx
            · simpa using hx
            · simp at hx
        have := ih _ _ h
        have hk' : (f.IsPrimaryKey || f.IsAutoInc) = false := by simpa using hk
        simp only [List.filter_cons, hk', Bool.not_false, if_true, List.map_cons, hval]
        simpa [List.append_assoc] using this

/-- C29 (refuted on the tests' own input): on the tests' session, whatever the database
does, `Update` with the tests' record and condition panics without a call on the database,
at the lookup of a field named `name`. Where the lookups succeed, the SET list holds every
column of the mapping that is neither primary key nor auto-increment, whatever the record's
values are, and the parameters are the record's values for these columns followed by the
condition values: for an `Account` with only `Name` set the statement assigns the empty
string to `Email`. -/
theorem C29_update_assigns_every_column (db : SessionDB) :
    (((testSession db).Model zeroUser).Update johnUpdated [emailIsJohn]).outcome =
      Outcome.panicked ∧
    (((testSession db).Model zeroUser).Update johnUpdated [emailIsJohn]).calls = [] ∧
    johnUpdated.FieldByName "name" = none ∧
    (∀ (m : ModelHandler) (data : Struct) (conditions : List Condition),
      (m.Update data conditions).outcome ≠ Outcome.panicked →
      (m.Update data conditions).calls =
        [SQLCall.ExecContext
          (m.updateCall
            ((m.mapping.Fields.filter (fun f => !(f.IsPrimaryKey || f.IsAutoInc))).map
              (fun f => m.session.dialect.Quote f.Name ++ " = ?"))
            ((m.mapping.Fields.filter (fun f => !(f.IsPrimaryKey || f.IsAutoInc))).map
              (fun f => ((data.FieldByName f.Name).map (fun g => g.Value)).getD Value.null))
            conditions)]) ∧
    (((testSession db).Model (Account 0 "" "")).Update (Account 0 "John Updated" "")
        [⟨"Email", OpEq, Value.str "john@example.com"⟩]).calls =
      [SQLCall.ExecContext
        ⟨"UPDATE `account` SET `Name` = ?, `Email` = ? WHERE `Email` = ?",
          [Value.str "John Updated", Value.str "", Value.str "john@example.com"]⟩] := by
  have hl : ((testSession db).Model zeroUser).updateFields johnUpdated
      ((testSession db).Model zeroUser).mapping.Fields [] [] = none := by
    show ((testSession db).Model zeroUser).updateFields johnUpdated
      (Parser.Parse zeroUser).Fields [] [] = none
    rfl
  refine ⟨?_, ?_, by decide, ?_, ?_⟩
  · unfold ModelHandler.Update; rw [hl]
  · unfold ModelHandler.Update; rw [hl]
  · intro m data conditions hne
    unfold ModelHandler.Update at hne ⊢
    cases hu : m.updateFields data m.mapping.Fields [] [] with
    | none => rw [hu] at hne; simp at hne
    | some uv =>
      obtain ⟨updates, values⟩ := uv
      obtain ⟨h1, h2⟩ := updateFields_some m data _ _ _ _ _ hu
      simp only [List.nil_append] at h1 h2
      simp only [h1, h2]
  · have hu : ((testSession db).Model (Account 0 "" "")).updateFields
        (Account 0 "John Updated" "")
        ((testSession db).Model (Account 0 "" "")).mapping.Fields [] [] =
        some (["`Name` = ?", "`Email` = ?"], [Value.str "John Updated", Value.str ""]) := by
      show ((testSession db).Model (Account 0 "" "")).updateFields
        (Account 0 "John Updated" "") (Parser.Parse (Account 0 "" "")).Fields [] [] = _
      rfl
    unfold ModelHandler.Update
    rw [hu]
    simp only [List.cons.injEq, and_true, SQLCall.ExecContext.injEq]
    rfl
/-! ## Find -/

theorem foldl_Where_fields (conditions : List Condition) (b : Builder) :
    (conditions.foldl (fun builder cond => builder.Where cond.Column cond.Operation cond.Value)
        b).conditions = b.conditions ++ conditions ∧
      (conditions.foldl (fun builder cond => builder.Where cond.Column cond.Operation cond.Value)
        b).params = b.params ++ conditions.map (fun c => c.Value) ∧
      (conditions.foldl (fun builder cond => builder.Where cond.Column cond.Operation cond.Value)
        b).dialect = b.dialect ∧
      (conditions.foldl (fun builder cond => builder.Where cond.Column cond.Operation cond.Value)
        b).table = b.table := by
  induction conditions generalizing b with
  | nil => simp
  | cons c cs ih =>
    obtain ⟨h1, h2, h3, h4⟩ := ih (b.Where c.Column c.Operation c.Value)
    simp only [List.foldl_cons, h1, h2, h3, h4]
    simp [Builder.Where]

theorem foldl_whereScope (scopeConds : List Condition) (b : Builder) :
    (scopeConds.map whereScope).foldl (fun builder scope => scope builder) b =
      scopeConds.foldl (fun builder cond => builder.Where cond.Column cond.Operation cond.Value)
        b := by
  induction scopeConds generalizing b with
  | nil => rfl
  | cons c cs ih => simp only [List.map_cons, List.foldl_cons, ih]; rfl

theorem Find_of_paginator (m : ModelHandler) (paginator : Paginator) (dest : Dest)
    (conditions : List Condition) (hp : m.paginator = some paginator) :
    m.Find dest conditions =
      { calls := [SQLCall.QueryRowContext
          ⟨"SELECT " ++ m.session.dialect.Quote "COUNT(*) as count" ++ " FROM " ++
            m.session.dialect.Quote m.mapping.TableName, []⟩]
        paginator := some paginator
        outcome := Outcome.panicked } := by
  have hq : m.countBuilder.BuildSelect =
      ("SELECT " ++ m.session.dialect.Quote "COUNT(*) as count" ++ " FROM " ++
        m.session.dialect.Quote m.mapping.TableName, []) := by
    simp [ModelHandler.countBuilder, Session.Query, NewBuilder, Builder.Table, Builder.Select,
      Builder.BuildSelect, stringsJoin]
  have hcols : ∀ db : SessionDB, (NewExecutor db m.countBuilder).builder.columns =
      ["COUNT(*) as count"] := by
    intro db
    simp [NewExecutor, ModelHandler.countBuilder, Session.Query, NewBuilder, Builder.Table,
      Builder.Select]
  have hscan : ∀ (db : SessionDB) (e : Option Error),
      (NewExecutor db m.countBuilder).scanRow e RowDest.pointerToOther = Outcome.panicked := by
    intro db e
    simp only [Executor.scanRow, hcols]
  have hrow : ∀ db : SessionDB,
      (NewExecutor db m.countBuilder).QueryRow [] RowDest.pointerToOther =
        ([SQLCall.QueryRowContext
          ⟨"SELECT " ++ m.session.dialect.Quote "COUNT(*) as count" ++ " FROM " ++
            m.session.dialect.Quote m.mapping.TableName, []⟩], Outcome.panicked) := by
    intro db
    simp only [Executor.QueryRow, hscan, List.nil_append]
    simp only [NewExecutor, hq]
  unfold ModelHandler.Find
  simp only [hp, Session.Exec]
  cases m.session.tx with
  | none => simp only [hrow]
  | some tx => simp only [hrow]

theorem Find_of_no_paginator (m : ModelHandler) (dest : Dest) (conditions : List Condition)
    (hp : m.paginator = none) :
    (m.Find dest conditions).calls =
        [SQLCall.QueryContext
          ⟨(m.findBuilder conditions).BuildSelect.1, (m.findBuilder conditions).BuildSelect.2⟩] ∧
      (m.Find dest conditions).paginator = none := by
  unfold ModelHandler.Find
  simp only [hp, Session.Exec]
  cases m.session.tx with
  | none => simp [Executor.Query, NewExecutor]
  | some tx => simp [Executor.Query, NewExecutor]

/-- C26 (refuted): for every handler with pagination active, every destination and every
list of conditions, `Find` makes exactly one call on the database, the count query
`SELECT <quoted "COUNT(*) as count"> FROM <quoted table>` with no WHERE clause and no
parameter, and then panics in `scanRow`; the count builder has no condition and no parameter
whatever scopes and conditions the main builder carries. On the tests' session with
`Paginate(1, 10)` and the condition `email = john@example.com` the count query has no WHERE
and no parameter while the main builder renders `WHERE email = ?` with one parameter. -/
theorem C26_count_query_ignores_conditions (m : ModelHandler) (paginator : Paginator)
    (dest : Dest) (conditions : List Condition) (db : SessionDB) :
    { m with paginator := some paginator }.Find dest conditions =
      { calls := [SQLCall.QueryRowContext
          ⟨"SELECT " ++ m.session.dialect.Quote "COUNT(*) as count" ++ " FROM " ++
            m.session.dialect.Quote m.mapping.TableName, []⟩]
        paginator := some paginator
        outcome := Outcome.panicked } ∧
    m.countBuilder.conditions = [] ∧ m.countBuilder.params = [] ∧
    (m.findBuilder conditions).conditions = (m.findBuilder []).conditions ++ conditions ∧
    (m.findBuilder conditions).params =
      (m.findBuilder []).params ++ conditions.map (fun c => c.Value) ∧
    ((((testSession db).Model zeroUser).Paginate 1 10).Find dest [emailIsJohn]).calls =
      [SQLCall.QueryRowContext ⟨"SELECT `COUNT(*) as count` FROM `user`", []⟩] ∧
    ((((testSession db).Model zeroUser).Paginate 1 10).Find dest [emailIsJohn]).outcome =
      Outcome.panicked ∧
    ((((testSession db).Model zeroUser).Paginate 1 10).findBuilder [emailIsJohn]).BuildSelect =
      ("SELECT * FROM `user` WHERE `email` = ?", [Value.str "john@example.com"]) := by
  refine ⟨Find_of_paginator _ paginator dest conditions rfl, rfl, rfl, ?_, ?_, ?_, ?_, ?_⟩
  · exact (foldl_Where_fields conditions _).1
  · exact (foldl_Where_fields conditions _).2.1
  · rw [Find_of_paginator _ (NewPaginator 1 10) dest [emailIsJohn] rfl]
    simp only [List.cons.injEq, and_true, SQLCall.QueryRowContext.injEq]
    show (⟨"SELECT " ++ NewMySQL.Quote "COUNT(*) as count" ++ " FROM " ++
      NewMySQL.Quote (Parser.Parse zeroUser).TableName, []⟩ : ExecCall) = _
    decide
  · rw [Find_of_paginator _ (NewPaginator 1 10) dest [emailIsJohn] rfl]
  · show (((NewBuilder NewMySQL).Table (Parser.Parse zeroUser).TableName).Where "email" OpEq
      (Value.str "john@example.com")).BuildSelect = _
    decide

/-- C27 (refuted): `Find` never reads the soft-delete flags. For every handler, destination
and list of conditions, `Find` after `WithTrashed` and `Find` after `OnlyTrashed` make the
same calls and end the same way as `Find` on the handler itself; without scopes the main
builder carries exactly the explicit conditions. On the tests' session, `Find` without
conditions executes `SELECT * FROM user` (quoted), with no WHERE clause, by default as well
as after `OnlyTrashed`. -/
theorem C27_find_ignores_trashed_flags (m : ModelHandler) (dest : Dest)
    (conditions : List Condition) :
    m.WithTrashed.Find dest conditions = m.Find dest conditions ∧
    m.OnlyTrashed.Find dest conditions = m.Find dest conditions ∧
    (m.OnlyTrashed.onlyTrashed = true ∧ m.WithTrashed.includeTrashed = true) ∧
    (m.scopes = [] → (m.findBuilder conditions).conditions = conditions) ∧
    (((testSession okDB).Model zeroUser).Find okDest []).calls =
      [SQLCall.QueryContext ⟨"SELECT * FROM `user`", []⟩] ∧
    (((testSession okDB).Model zeroUser).OnlyTrashed.Find okDest []).calls =
      [SQLCall.QueryContext ⟨"SELECT * FROM `user`", []⟩] ∧
    (((testSession okDB).Model zeroUser).OnlyTrashed.Find okDest []).outcome =
      Outcome.returned none := by
  refine ⟨rfl, rfl, ⟨rfl, rfl⟩, ?_, by decide, by decide, by decide⟩
  intro hs
  rw [ModelHandler.findBuilder, (foldl_Where_fields conditions _).1, hs]
  rfl

/-- C28: for every handler, destination, list of conditions and list of scopes: `Scope`
appends the scopes to those registered before; the builder of `Find` is the session's
builder on the table with the registered scopes applied in that order and then the explicit
conditions, so that its conditions and parameters are those of the builder the scopes
produce followed by the explicit conditions and their values in argument order, and scopes
registered later are applied to the builder that the earlier ones produced; when every scope
adds one condition, the conditions are the scope conditions in registration order followed
by the explicit ones, on the session's dialect and the mapping's table; `Find` without
pagination executes exactly the SELECT statement of that builder, and every query that `Find`
executes with `QueryContext` is that statement up to LIMIT and OFFSET, with these
parameters. -/
theorem C28_find_scopes_then_conditions (m : ModelHandler) (dest : Dest)
    (conditions : List Condition) (scopes : List Scope) :
    (m.Scope scopes).scopes = m.scopes ++ scopes ∧
    m.findBuilder [] =
      m.scopes.foldl (fun builder scope => scope builder)
        ((NewBuilder m.session.dialect).Table m.mapping.TableName) ∧
    (m.Scope scopes).findBuilder [] =
      scopes.foldl (fun builder scope => scope builder) (m.findBuilder []) ∧
    m.findBuilder conditions =
      conditions.foldl
        (fun builder cond => builder.Where cond.Column cond.Operation cond.Value)
        (m.findBuilder []) ∧
    (m.findBuilder conditions).conditions = (m.findBuilder []).conditions ++ conditions ∧
    (m.findBuilder conditions).params =
      (m.findBuilder []).params ++ conditions.map (fun c => c.Value) ∧
    (∀ scopeConds : List Condition, m.scopes = scopeConds.map whereScope →
      (m.findBuilder conditions).conditions = scopeConds ++ conditions ∧
        (m.findBuilder conditions).params = (scopeConds ++ conditions).map (fun c => c.Value) ∧
        (m.findBuilder conditions).dialect = m.session.dialect ∧
        (m.findBuilder conditions).table = m.mapping.TableName) ∧
    (m.paginator = none →
      (m.Find dest conditions).calls =
        [SQLCall.QueryContext
          ⟨(m.findBuilder conditions).BuildSelect.1, (m.findBuilder conditions).params⟩]) ∧
    (∀ call : ExecCall, SQLCall.QueryContext call ∈ (m.Find dest conditions).calls →
      call.args = (m.findBuilder conditions).params ∧
        ∃ b : Builder, call.query = b.BuildSelect.1 ∧
          b.conditions = (m.findBuilder conditions).conditions ∧
          whereClause b = whereClause (m.findBuilder conditions)) := by
  have hparams : ∀ b : Builder, b.BuildSelect.2 = b.params := fun b => rfl
  refine ⟨rfl, rfl, ?_, rfl, (foldl_Where_fields conditions _).1,
    (foldl_Where_fields conditions _).2.1, ?_, ?_, ?_⟩
  · simp [ModelHandler.findBuilder, ModelHandler.Scope, List.foldl_append]
  · intro scopeConds hs
    have hb : m.findBuilder [] =
        scopeConds.foldl
          (fun builder cond => builder.Where cond.Column cond.Operation cond.Value)
          ((NewBuilder m.session.dialect).Table m.mapping.TableName) := by
      simp only [ModelHandler.findBuilder, hs, foldl_whereScope, List.foldl_nil,
        Session.Query]
    have hfb : m.findBuilder conditions =
        conditions.foldl
          (fun builder cond => builder.Where cond.Column cond.Operation cond.Value)
          (m.findBuilder []) := rfl
    obtain ⟨c1, c2, c3, c4⟩ := foldl_Where_fields conditions (m.findBuilder [])
    obtain ⟨s1, s2, s3, s4⟩ := foldl_Where_fields scopeConds
      ((NewBuilder m.session.dialect).Table m.mapping.TableName)
    rw [hfb, c1, c2, c3, c4, hb, s1, s2, s3, s4]
    simp [NewBuilder, Builder.Table]
  · intro hp
    rw [(Find_of_no_paginator m dest conditions hp).1, hparams]
  · intro call hc
    cases hp : m.paginator with
    | none =>
      rw [(Find_of_no_paginator m dest conditions hp).1] at hc
      simp only [List.mem_singleton, SQLCall.QueryContext.injEq] at hc
      subst hc
      exact ⟨rfl, m.findBuilder conditions, rfl, rfl, rfl⟩
    | some paginator =>
      rw [Find_of_paginator m paginator dest conditions hp] at hc
      simp at hc

/-- Witness for C28: on the tests' session, a handler for `models.User` with the scopes
`active = true` and `age >= 18` registered in this order executes, for the explicit
condition `email = john@example.com`, one SELECT whose WHERE clause lists the three
conditions in that order, with their values as parameters. -/
theorem C28_find_scopes_then_conditions_witness :
    ((((testSession okDB).Model zeroUser).Scope
        [whereScope ⟨"active", OpEq, Value.bool true⟩]).Scope
        [whereScope ⟨"age", OpGe, Value.int 18⟩]).paginator = none ∧
    (((((testSession okDB).Model zeroUser).Scope
        [whereScope ⟨"active", OpEq, Value.bool true⟩]).Scope
        [whereScope ⟨"age", OpGe, Value.int 18⟩]).Find okDest [emailIsJohn]).calls =
      [SQLCall.QueryContext
        ⟨"SELECT * FROM `user` WHERE `active` = ? AND `age` >= ? AND `email` = ?",
          [Value.bool true, Value.int 18, Value.str "john@example.com"]⟩] :=
  ⟨rfl,
    ((C28_find_scopes_then_conditions
      ((((testSession okDB).Model zeroUser).Scope
        [whereScope ⟨"active", OpEq, Value.bool true⟩]).Scope
        [whereScope ⟨"age", OpGe, Value.int 18⟩]) okDest [emailIsJohn] []).2.2.2.2.2.2.2.1
      rfl).trans (by decide)⟩

/-! ## Cache -/

/-- C33 (as stated, refuted): after `Set(k, v, d)` with the largest duration at an instant in
2027, a `Get(k)` one nanosecond later, which is not later than `t0 + d`, returns a miss and
removes the entry: the expiration `t0 + d` does not fit the `int64` of `UnixNano` and wraps
to a negative number. -/
theorem C33_expiration_overflows :
    someInstant + 1 ≤ someInstant + maxDuration ∧
    ((NewCache.Set someInstant "k" (Value.int 7) maxDuration).items "k").map
        (fun item => item.Expiration) = some (someInstant - 1 - 2 ^ 63) ∧
    ((NewCache.Set someInstant "k" (Value.int 7) maxDuration).Get (someInstant + 1) "k").1 =
      none ∧
    ((NewCache.Set someInstant "k" (Value.int 7) maxDuration).Get
        (someInstant + 1) "k").2.items "k" = none := by
  decide

/-- C33 (amended): with instants and `t0 + d` within the range of `int64` nanoseconds, after
`Set(k, v, d)` at `t0` a `Get(k)` at `t > t0 + d` returns a miss and leaves the cache without
`k` (the other keys as they were), and a `Get(k)` at `t <= t0 + d` returns `v` as a hit and
leaves the cache unchanged. -/
theorem C33_get_after_set (c : Cache) (k : String) (v : Value) (d t0 t : Int)
    (ht : -2 ^ 63 ≤ t ∧ t < 2 ^ 63) (hexp : -2 ^ 63 ≤ t0 + d ∧ t0 + d < 2 ^ 63) :
    (t0 + d < t →
      ((c.Set t0 k v d).Get t k).1 = none ∧
        ((c.Set t0 k v d).Get t k).2.items k = none ∧
        ∀ k' : String, k' ≠ k → ((c.Set t0 k v d).Get t k).2.items k' = c.items k') ∧
    (t ≤ t0 + d →
      ((c.Set t0 k v d).Get t k).1 = some v ∧ ((c.Set t0 k v d).Get t k).2 = c.Set t0 k v d) := by
  have h1 : wrapInt64 t = t := wrapInt64_eq_self t ht.1 ht.2
  have h2 : wrapInt64 (t0 + d) = t0 + d := wrapInt64_eq_self _ hexp.1 hexp.2
  constructor
  · intro hlt
    have hgt : t > t0 + d := hlt
    simp only [Cache.Get, Cache.Set, if_true, h1, h2, hgt, Cache.Delete]
    refine ⟨trivial, trivial, ?_⟩
    intro k' hk'
    simp [hk']
  · intro hle
    have hngt : ¬ (t > t0 + d) := by omega
    simp only [Cache.Get, Cache.Set, if_true, h1, h2, hngt, if_false]
    exact ⟨trivial, trivial⟩

/-- Witness for C33 (amended): `Set(k, v, 1ms)` at an instant in 2027; a `Get` two
milliseconds later misses and removes the entry, a `Get` half a millisecond later hits. -/
theorem C33_get_after_set_witness :
    ((-2 ^ 63 ≤ someInstant + 2000000 ∧ someInstant + 2000000 < 2 ^ 63) ∧
      (-2 ^ 63 ≤ someInstant + 1000000 ∧ someInstant + 1000000 < 2 ^ 63) ∧
      someInstant + 1000000 < someInstant + 2000000) ∧
    ((NewCache.Set someInstant "k" (Value.int 7) 1000000).Get (someInstant + 2000000) "k").1 =
      none ∧
    ((NewCache.Set someInstant "k" (Value.int 7) 1000000).Get
      (someInstant + 2000000) "k").2.items "k" = none :=
  ⟨by decide,
    ((C33_get_after_set NewCache "k" (Value.int 7) 1000000 someInstant (someInstant + 2000000)
      (by decide) (by decide)).1 (by decide)).1,
    ((C33_get_after_set NewCache "k" (Value.int 7) 1000000 someInstant (someInstant + 2000000)
      (by decide) (by decide)).1 (by decide)).2.1⟩

/-! ## Transactions -/

theorem infix_of_append (a b c : String) : b.data <:+: (a ++ b ++ c).data := by
  refine ⟨a.data, c.data, ?_⟩
  simp [String.data_append]

theorem RunInTransaction_begin_failed (tm : TxManager) (executed : List TxEvent)
    (fn : List TxEvent → TxRun) (e : Error) (hb : tm.db.BeginTx executed = some e) :
    tm.RunInTransaction executed fn =
      { events := executed ++ [TxEvent.BeginTx]
        outcome := TxOutcome.returned
          (some (ErrorValue.errorString ("erro ao iniciar transação: " ++ e))) } := by
  unfold TxManager.RunInTransaction
  simp only [hb]

theorem RunInTransaction_fn_err (tm : TxManager) (executed : List TxEvent)
    (fn : List TxEvent → TxRun) (e : ErrorValue) (hb : tm.db.BeginTx executed = none)
    (hf : (fn (executed ++ [TxEvent.BeginTx, TxEvent.Closure])).outcome =
      TxOutcome.returned (some e)) :
    tm.RunInTransaction executed fn =
      { events := (fn (executed ++ [TxEvent.BeginTx, TxEvent.Closure])).events ++
          [TxEvent.Rollback]
        outcome :=
          match tm.db.Rollback (fn (executed ++ [TxEvent.BeginTx, TxEvent.Closure])).events with
          | some rbErr => TxOutcome.returned
              (some (ErrorValue.errorString
                ("erro ao fazer rollback: " ++ rbErr ++ " (erro original: " ++ e.Error ++ ")")))
          | none => TxOutcome.returned (some e) } := by
  unfold TxManager.RunInTransaction
  simp only [hb, hf]
  cases tm.db.Rollback (fn (executed ++ [TxEvent.BeginTx, TxEvent.Closure])).events <;> rfl

theorem RunInTransaction_fn_ok (tm : TxManager) (executed : List TxEvent)
    (fn : List TxEvent → TxRun) (hb : tm.db.BeginTx executed = none)
    (hf : (fn (executed ++ [TxEvent.BeginTx, TxEvent.Closure])).outcome =
      TxOutcome.returned none) :
    tm.RunInTransaction executed fn =
      { events := (fn (executed ++ [TxEvent.BeginTx, TxEvent.Closure])).events ++
          [TxEvent.Commit]
        outcome :=
          match tm.db.Commit (fn (executed ++ [TxEvent.BeginTx, TxEvent.Closure])).events with
          | some err => TxOutcome.returned
              (some (ErrorValue.errorString ("erro ao fazer commit: " ++ err)))
          | none => TxOutcome.returned none } := by
  unfold TxManager.RunInTransaction
  simp only [hb, hf]
  cases tm.db.Commit (fn (executed ++ [TxEvent.BeginTx, TxEvent.Closure])).events <;> rfl

/-- C34 (as stated, refuted): on a database handle whose `Rollback` fails with
`connection lost`, a closure that returns the error `insert failed` makes
`RunInTransaction` do `BeginTx`, closure, `Rollback` and return a new error that quotes
both texts but does not wrap the closure's error: it has no `Unwrap`, and `errors.Is` of
it and the closure's error is false. -/
theorem C34_rollback_failure_drops_cause :
    ((NewTxManager rollbackFails).RunInTransaction []
        (plainClosure (TxOutcome.returned (some insertFailed)))).events =
      [TxEvent.BeginTx, TxEvent.Closure, TxEvent.Rollback] ∧
    ((NewTxManager rollbackFails).RunInTransaction []
        (plainClosure (TxOutcome.returned (some insertFailed)))).outcome =
      TxOutcome.returned (some (ErrorValue.errorString
        "erro ao fazer rollback: connection lost (erro original: insert failed)")) ∧
    errorsUnwrap (ErrorValue.errorString
      "erro ao fazer rollback: connection lost (erro original: insert failed)") = none ∧
    errorsIs (ErrorValue.errorString
      "erro ao fazer rollback: connection lost (erro original: insert failed)")
      insertFailed = false := by
  decide

/-- C34 (amended): for every transaction manager, every closure and every history of steps
on which `BeginTx` succeeds, `RunInTransaction` calls `BeginTx` once, runs the closure once
and then makes exactly one more step. When the closure returns the error `e` that step is
`Rollback`, not `Commit`; the result is `e` itself when the rollback succeeds, and when the
rollback fails it is a new error with the text
`erro ao fazer rollback: <rollback error> (erro original: <text of e>)`, which contains the
text of `e` and has no `Unwrap`. When the closure returns `nil` that step is `Commit`, not
`Rollback`, and the result is `nil` or a new error with the commit's error in its text. For
a closure that makes no transaction step of its own the whole sequence is `BeginTx`,
closure, `Rollback` respectively `BeginTx`, closure, `Commit`. -/
theorem C34_run_in_transaction (tm : TxManager) (executed : List TxEvent)
    (fn : List TxEvent → TxRun) (hb : tm.db.BeginTx executed = none) :
    (∀ e : ErrorValue,
      (fn (executed ++ [TxEvent.BeginTx, TxEvent.Closure])).outcome =
        TxOutcome.returned (some e) →
      (tm.RunInTransaction executed fn).events =
          (fn (executed ++ [TxEvent.BeginTx, TxEvent.Closure])).events ++ [TxEvent.Rollback] ∧
        (tm.db.Rollback (fn (executed ++ [TxEvent.BeginTx, TxEvent.Closure])).events = none →
          (tm.RunInTransaction executed fn).outcome = TxOutcome.returned (some e)) ∧
        (∀ rb : Error,
          tm.db.Rollback (fn (executed ++ [TxEvent.BeginTx, TxEvent.Closure])).events =
            some rb →
          ∃ r : ErrorValue,
            (tm.RunInTransaction executed fn).outcome = TxOutcome.returned (some r) ∧
            r.Error =
              "erro ao fazer rollback: " ++ rb ++ " (erro original: " ++ e.Error ++ ")" ∧
            e.Error.data <:+: r.Error.data ∧
            errorsUnwrap r = none)) ∧
    ((fn (executed ++ [TxEvent.BeginTx, TxEvent.Closure])).outcome = TxOutcome.returned none →
      (tm.RunInTransaction executed fn).events =
          (fn (executed ++ [TxEvent.BeginTx, TxEvent.Closure])).events ++ [TxEvent.Commit] ∧
        ((tm.db.Commit (fn (executed ++ [TxEvent.BeginTx, TxEvent.Closure])).events = none →
            (tm.RunInTransaction executed fn).outcome = TxOutcome.returned none) ∧
          (∀ ce : Error,
            tm.db.Commit (fn (executed ++ [TxEvent.BeginTx, TxEvent.Closure])).events =
              some ce →
            (tm.RunInTransaction executed fn).outcome =
              TxOutcome.returned
                (some (ErrorValue.errorString ("erro ao fazer commit: " ++ ce)))))) ∧
    (∀ e : ErrorValue,
      (tm.RunInTransaction executed (plainClosure (TxOutcome.returned (some e)))).events =
        executed ++ [TxEvent.BeginTx, TxEvent.Closure, TxEvent.Rollback]) ∧
    (tm.RunInTransaction executed (plainClosure (TxOutcome.returned none))).events =
      executed ++ [TxEvent.BeginTx, TxEvent.Closure, TxEvent.Commit] := by
  refine ⟨?_, ?_, ?_, ?_⟩
  · intro e hf
    rw [RunInTransaction_fn_err tm executed fn e hb hf]
    refine ⟨rfl, ?_, ?_⟩
    · intro hr
      simp only [hr]
    · intro rb hr
      simp only [hr]
      refine ⟨_, rfl, rfl, ?_, rfl⟩
      have := infix_of_append ("erro ao fazer rollback: " ++ rb ++ " (erro original: ")
        e.Error ")"
      simpa [ErrorValue.Error, String.append_assoc] using this
  · intro hf
    rw [RunInTransaction_fn_ok tm executed fn hb hf]
    refine ⟨rfl, ?_, ?_⟩
    · intro hc; simp only [hc]
    · intro ce hc; simp only [hc]
  · intro e
    rw [RunInTransaction_fn_err tm executed _ e hb rfl]
    simp [plainClosure]
  · rw [RunInTransaction_fn_ok tm executed _ hb rfl]
    simp [plainClosure]

/-- Witness for C34 (amended): on a database handle on which every call succeeds, a closure
that returns the error `insert failed` makes `RunInTransaction` do `BeginTx`, closure,
`Rollback` and return that very error. -/
theorem C34_run_in_transaction_witness :
    (NewTxManager okDB).db.BeginTx [] = none ∧
    ((NewTxManager okDB).RunInTransaction []
        (plainClosure (TxOutcome.returned (some insertFailed)))).events =
      [TxEvent.BeginTx, TxEvent.Closure, TxEvent.Rollback] ∧
    ((NewTxManager okDB).RunInTransaction []
        (plainClosure (TxOutcome.returned (some insertFailed)))).outcome =
      TxOutcome.returned (some insertFailed) :=
  ⟨rfl,
    ((C34_run_in_transaction (NewTxManager okDB) []
      (plainClosure (TxOutcome.returned (some insertFailed))) rfl).1 insertFailed rfl).1,
    ((C34_run_in_transaction (NewTxManager okDB) []
      (plainClosure (TxOutcome.returned (some insertFailed))) rfl).1 insertFailed rfl).2.1
      rfl⟩

/-- C35 (as stated, refuted): on the session that a transaction closure is handed, which is
bound to the open transaction, `Transaction` with a closure that returns `nil` begins
another transaction, runs the closure and commits, and returns `nil`. -/
theorem C35_nested_transaction_runs :
    (testSession okDB).txSession.tx.isSome = true ∧
    ((testSession okDB).txSession.Transaction [TxEvent.BeginTx, TxEvent.Closure]
        (fun _ => plainClosure (TxOutcome.returned none))).events =
      [TxEvent.BeginTx, TxEvent.Closure, TxEvent.BeginTx, TxEvent.Closure, TxEvent.Commit] ∧
    ((testSession okDB).txSession.Transaction [TxEvent.BeginTx, TxEvent.Closure]
        (fun _ => plainClosure (TxOutcome.returned none))).outcome = TxOutcome.returned none ∧
    ((testSession okDB).Transaction []
        (fun inner steps =>
          inner.Transaction steps (fun _ => plainClosure (TxOutcome.returned none)))).events =
      [TxEvent.BeginTx, TxEvent.Closure, TxEvent.BeginTx, TxEvent.Closure, TxEvent.Commit,
        TxEvent.Commit] ∧
    ((testSession okDB).Transaction []
        (fun inner steps =>
          inner.Transaction steps (fun _ => plainClosure (TxOutcome.returned none)))).outcome =
      TxOutcome.returned none := by
  decide

/-- C35 (amended): `Transaction` never reads the transaction the session is bound to. For
every session, bound or not, it is `RunInTransaction` of the session's transaction manager
on the closure applied to the session bound to the new transaction, and so equals
`Transaction` on the same session with `tx` cleared; whenever `BeginTx` succeeds it runs
the closure, on a session bound to a transaction. -/
theorem C35_transaction_ignores_binding (s : Session) (executed : List TxEvent)
    (fn : Session → List TxEvent → TxRun) :
    s.Transaction executed fn =
      s.txManager.RunInTransaction executed (fun steps => fn s.txSession steps) ∧
    s.Transaction executed fn = { s with tx := none }.Transaction executed fn ∧
    s.txSession.Transaction executed fn = s.Transaction executed fn ∧
    s.txSession.tx = some s.txManager.db ∧
    (s.txManager.db.BeginTx executed = none →
      ∀ e : ErrorValue,
        (fn s.txSession (executed ++ [TxEvent.BeginTx, TxEvent.Closure])).outcome =
          TxOutcome.returned (some e) →
        (s.Transaction executed fn).events =
          (fn s.txSession (executed ++ [TxEvent.BeginTx, TxEvent.Closure])).events ++
            [TxEvent.Rollback]) ∧
    (s.txManager.db.BeginTx executed = none →
      (fn s.txSession (executed ++ [TxEvent.BeginTx, TxEvent.Closure])).outcome =
        TxOutcome.returned none →
      (s.Transaction executed fn).events =
        (fn s.txSession (executed ++ [TxEvent.BeginTx, TxEvent.Closure])).events ++
          [TxEvent.Commit]) := by
  refine ⟨rfl, rfl, rfl, rfl, ?_, ?_⟩
  · intro hb e hf
    unfold Session.Transaction
    rw [RunInTransaction_fn_err _ executed _ e hb hf]
  · intro hb hf
    unfold Session.Transaction
    rw [RunInTransaction_fn_ok _ executed _ hb hf]

/-! ## Preload, Delete and the purity of BuildSelect -/

/-- C36 (refuted): `Find` never reads the fields requested with `Preload`. For every
handler, list of fields, destination and list of conditions, `Find` after `Preload` makes
the same calls and ends the same way as `Find` on the handler itself; without pagination
that is exactly one call, the primary query. On the tests' session, `Find` after
`Preload("User")` on the handler for `models.Post` with the condition `id = 1` executes
the one statement `SELECT * FROM post WHERE id = ?` (quoted) and nothing else. -/
theorem C36_find_ignores_preload (m : ModelHandler) (fields : List String) (dest : Dest)
    (conditions : List Condition) :
    (m.Preload fields).preloadFields = m.preloadFields ++ fields ∧
    (m.Preload fields).Find dest conditions = m.Find dest conditions ∧
    (m.paginator = none → ((m.Preload fields).Find dest conditions).calls.length = 1) ∧
    ((((testSession okDB).Model (Post 0 "" "" 0)).Preload ["User"]).Find structDest
        [⟨"id", OpEq, Value.int 1⟩]).calls =
      [SQLCall.QueryContext ⟨"SELECT * FROM `post` WHERE `id` = ?", [Value.int 1]⟩] ∧
    ((((testSession okDB).Model (Post 0 "" "" 0)).Preload ["User"]).Find okDest
        [⟨"id", OpEq, Value.int 1⟩]).calls =
      [SQLCall.QueryContext ⟨"SELECT * FROM `post` WHERE `id` = ?", [Value.int 1]⟩] ∧
    ((((testSession okDB).Model (Post 0 "" "" 0)).Preload ["User"]).Find okDest
        [⟨"id", OpEq, Value.int 1⟩]).outcome = Outcome.returned none := by
  refine ⟨rfl, rfl, ?_, by decide, by decide, by decide⟩
  intro hp
  have h : (m.Preload fields).Find dest conditions = m.Find dest conditions := rfl
  rw [h, (Find_of_no_paginator m dest conditions hp).1]
  rfl

theorem joinWith_eq_stringsJoin (m : ModelHandler) (items : List String) (sep : String) :
    m.joinWith items sep = stringsJoin items sep := by
  have h : ∀ (rest : List String) (acc item : String),
      rest.foldl (fun result item => result ++ (sep ++ item)) (acc ++ item) =
        acc ++ stringsJoin (item :: rest) sep := by
    intro rest
    induction rest with
    | nil => intro acc item; simp [stringsJoin]
    | cons r rest ih =>
      intro acc item
      simp only [List.foldl_cons]
      have := ih (acc ++ item ++ sep) r
      simp only [String.append_assoc] at this ⊢
      rw [this]
      simp [stringsJoin, String.append_assoc]
  cases items with
  | nil => rfl
  | cons item rest =>
    have := h rest "" item
    simpa [ModelHandler.joinWith] using this

/-- C38: for every handler and list of conditions, `Delete` makes exactly one call,
`ExecContext` of `DELETE FROM <quoted table> WHERE ` followed by the texts
`<quoted column> <operation> ?` of the conditions in list order joined by ` AND `, with the
condition values in the same order as parameters, and no hook invocation; the statement
contains ` WHERE ` for every list, and for the empty list it is
`DELETE FROM <quoted table> WHERE ` with no condition after the keyword, never the bare
`DELETE FROM <quoted table>`. -/
theorem C38_delete_statement (m : ModelHandler) (conditions : List Condition) :
    (m.Delete conditions).calls =
      [SQLCall.ExecContext
        ⟨"DELETE FROM " ++ m.session.dialect.Quote m.mapping.TableName ++ " WHERE " ++
            stringsJoin
              (conditions.map (fun c =>
                m.session.dialect.Quote c.Column ++ " " ++ c.Operation ++ " ?")) " AND ",
          conditions.map (fun c => c.Value)⟩] ∧
    (m.Delete conditions).hooks = [] ∧
    (m.Delete conditions).cache = m.session.cache ∧
    (m.Delete conditions).outcome =
      Outcome.returned (m.session.db.ExecContext [] (m.deleteCall conditions)) ∧
    " WHERE ".data <:+: (m.deleteCall conditions).query.data ∧
    (m.deleteCall conditions).query ≠
      "DELETE FROM " ++ m.session.dialect.Quote m.mapping.TableName ∧
    (m.deleteCall []).query =
      "DELETE FROM " ++ m.session.dialect.Quote m.mapping.TableName ++ " WHERE " := by
  have hq : ∀ cs : List Condition, (m.deleteCall cs).query =
      "DELETE FROM " ++ m.session.dialect.Quote m.mapping.TableName ++ " WHERE " ++
        stringsJoin
          (cs.map (fun c =>
            m.session.dialect.Quote c.Column ++ " " ++ c.Operation ++ " ?")) " AND " := by
    intro cs
    simp only [ModelHandler.deleteCall, ModelHandler.joinWithAnd, joinWith_eq_stringsJoin,
      ModelHandler.whereTexts]
  refine ⟨?_, rfl, rfl, rfl, ?_, ?_, ?_⟩
  · simp only [ModelHandler.Delete, List.cons.injEq, and_true, SQLCall.ExecContext.injEq]
    rw [← hq conditions]
    rfl
  · rw [hq]
    exact infix_of_append _ _ _
  · rw [hq]
    intro h
    have h' := congrArg (fun s : String => s.data.length) h
    simp [String.data_append] at h'
  · rw [hq]
    simp [stringsJoin]

theorem take_set_succ {α : Type} (l : List α) (i : Nat) (v : α) (h : i < l.length) :
    (l.set i v).take (i + 1) = l.take i ++ [v] := by
  induction l generalizing i with
  | nil => simp at h
  | cons x xs ih =>
    cases i with
    | zero => simp
    | succ i =>
      simp only [List.set_cons_succ, List.take_succ_cons, List.cons_append, List.cons.injEq,
        true_and]
      exact ih i (by simpa using h)

theorem quoteLoop_eq (xs : List String) (i : Nat) (f : SelectFrame)
    (h : f.quotedColumns.length = i + xs.length) :
    SelectFrame.quoteLoop i xs f =
      { f with quotedColumns := f.quotedColumns.take i ++ xs.map f.receiver.dialect.Quote } := by
  induction xs generalizing i f with
  | nil =>
    simp only [SelectFrame.quoteLoop, List.map_nil, List.append_nil]
    rw [List.take_of_length_le (by simp at h; omega)]
  | cons x rest ih =>
    simp only [SelectFrame.quoteLoop]
    rw [ih (i + 1) _ (by simp at h ⊢; omega)]
    simp only [List.map_cons]
    rw [take_set_succ _ _ _ (by simp at h; omega)]
    simp

theorem whereLoop_eq (xs : List Condition) (i : Nat) (f : SelectFrame)
    (h : f.whereConditions.length = i + xs.length) :
    SelectFrame.whereLoop i xs f =
      { f with
        whereConditions := f.whereConditions.take i ++
          Builder.renderConditions f.receiver.dialect 0 i xs } := by
  induction xs generalizing i f with
  | nil =>
    simp only [SelectFrame.whereLoop, Builder.renderConditions, List.append_nil]
    rw [List.take_of_length_le (by simp at h; omega)]
  | cons x rest ih =>
    simp only [SelectFrame.whereLoop]
    rw [ih (i + 1) _ (by simp at h ⊢; omega)]
    simp only [Builder.renderConditions]
    rw [take_set_succ _ _ _ (by simp at h; omega)]
    simp

theorem havingLoop_eq (paramOffset : Nat) (xs : List Condition) (i : Nat) (f : SelectFrame)
    (h : f.havingConditions.length = i + xs.length) :
    SelectFrame.havingLoop paramOffset i xs f =
      { f with
        havingConditions := f.havingConditions.take i ++
          Builder.renderConditions f.receiver.dialect paramOffset i xs } := by
  induction xs generalizing i f with
  | nil =>
    simp only [SelectFrame.havingLoop, Builder.renderConditions, List.append_nil]
    rw [List.take_of_length_le (by simp at h; omega)]
  | cons x rest ih =>
    simp only [SelectFrame.havingLoop]
    rw [ih (i + 1) _ (by simp at h ⊢; omega)]
    simp only [Builder.renderConditions]
    rw [take_set_succ _ _ _ (by simp at h; omega)]
    simp

theorem writeColumns_eq (f : SelectFrame) :
    (f.WriteString "SELECT ").writeColumns.receiver = f.receiver ∧
    (f.WriteString "SELECT ").writeColumns.builder = f.builder ++ selectClause f.receiver := by
  unfold SelectFrame.writeColumns selectClause
  by_cases h : f.receiver.columns = []
  · simp [SelectFrame.WriteString, h, String.append_assoc]
  · have hl : ¬ (f.receiver.columns.length = 0) := by simpa using h
    simp only [SelectFrame.WriteString, hl, h, if_false]
    rw [quoteLoop_eq _ _ _ (by simp)]
    simp [String.append_assoc]

theorem writeFrom_eq (f : SelectFrame) :
    f.writeFrom.receiver = f.receiver ∧
    f.writeFrom.builder = f.builder ++ fromClause f.receiver := by
  simp [SelectFrame.writeFrom, SelectFrame.WriteString, fromClause, String.append_assoc]

theorem writeJoins_eq (f : SelectFrame) :
    f.writeJoins.receiver = f.receiver ∧
    f.writeJoins.builder = f.builder ++ joinClause f.receiver := by
  unfold SelectFrame.writeJoins joinClause
  by_cases h : f.receiver.joins = []
  · simp [h]
  · have hl : f.receiver.joins.length > 0 := List.length_pos.mpr h
    simp [SelectFrame.WriteString, hl, h, String.append_assoc]

theorem writeWhere_eq (f : SelectFrame) :
    f.writeWhere.receiver = f.receiver ∧
    f.writeWhere.builder = f.builder ++ whereClause f.receiver := by
  unfold SelectFrame.writeWhere whereClause
  by_cases h : f.receiver.conditions = []
  · simp [h]
  · have hl : f.receiver.conditions.length > 0 := List.length_pos.mpr h
    simp only [SelectFrame.WriteString, hl, h, if_true, if_false]
    rw [whereLoop_eq _ _ _ (by simp)]
    simp [String.append_assoc, renderConditions_eq]

theorem writeGroupBy_eq (f : SelectFrame) :
    f.writeGroupBy.receiver = f.receiver ∧
    f.writeGroupBy.builder = f.builder ++ groupByClause f.receiver := by
  unfold SelectFrame.writeGroupBy groupByClause
  by_cases h : f.receiver.groupBy = []
  · simp [h]
  · have hl : f.receiver.groupBy.length > 0 := List.length_pos.mpr h
    simp [SelectFrame.WriteString, hl, h, String.append_assoc]

theorem writeHaving_eq (f : SelectFrame) :
    f.writeHaving.receiver = f.receiver ∧
    f.writeHaving.builder = f.builder ++ havingClause f.receiver := by
  unfold SelectFrame.writeHaving havingClause
  by_cases h : f.receiver.having = []
  · simp [h]
  · have hl : f.receiver.having.length > 0 := List.length_pos.mpr h
    simp only [SelectFrame.WriteString, hl, h, if_true, if_false]
    rw [havingLoop_eq _ _ _ _ (by simp)]
    simp [String.append_assoc, renderConditions_eq]

theorem writeOrderBy_eq (f : SelectFrame) :
    f.writeOrderBy.receiver = f.receiver ∧
    f.writeOrderBy.builder = f.builder ++ orderByClause f.receiver := by
  unfold SelectFrame.writeOrderBy orderByClause
  by_cases h : f.receiver.orderBy = []
  · simp [h]
  · have hl : f.receiver.orderBy.length > 0 := List.length_pos.mpr h
    simp [SelectFrame.WriteString, hl, h, String.append_assoc]

theorem writeLimit_eq (f : SelectFrame) :
    f.writeLimit.receiver = f.receiver ∧
    f.writeLimit.builder = f.builder ++ limitClause f.receiver := by
  unfold SelectFrame.writeLimit limitClause
  cases f.receiver.limit <;> simp [SelectFrame.WriteString]

theorem writeOffset_eq (f : SelectFrame) :
    f.writeOffset.receiver = f.receiver ∧
    f.writeOffset.builder = f.builder ++ offsetClause f.receiver := by
  unfold SelectFrame.writeOffset offsetClause
  cases f.receiver.offset <;> simp [SelectFrame.WriteString]

theorem run_eq (f : SelectFrame) :
    f.run.receiver = f.receiver ∧
    f.run.builder =
      f.builder ++ (selectClause f.receiver ++ fromClause f.receiver ++
        joinClause f.receiver ++ whereClause f.receiver ++ groupByClause f.receiver ++
        havingClause f.receiver ++ orderByClause f.receiver ++ limitClause f.receiver ++
        offsetClause f.receiver) := by
  unfold SelectFrame.run
  simp only [(writeOffset_eq _).1, (writeOffset_eq _).2, (writeLimit_eq _).1,
    (writeLimit_eq _).2, (writeOrderBy_eq _).1, (writeOrderBy_eq _).2, (writeHaving_eq _).1,
    (writeHaving_eq _).2, (writeGroupBy_eq _).1, (writeGroupBy_eq _).2, (writeWhere_eq _).1,
    (writeWhere_eq _).2, (writeJoins_eq _).1, (writeJoins_eq _).2, (writeFrom_eq _).1,
    (writeFrom_eq _).2, (writeColumns_eq _).1, (writeColumns_eq _).2, String.append_assoc,
    and_self]

theorem BuildSelectCall_eq (b : Builder) : b.BuildSelectCall = (b.BuildSelect, b) := by
  have h := run_eq
    { receiver := b, builder := "", quotedColumns := [], whereConditions := [],
      havingConditions := [] }
  unfold Builder.BuildSelectCall
  simp only [h.1, h.2, String.empty_append]
  rw [← BuildSelect_text]
  rfl

/-- C39: for every builder, `BuildSelect` leaves the receiver as it was, field by field, and
a second call right after the first returns the same text and the same parameters; the
parameters returned are the builder's own. The call is followed statement by statement on
the struct behind the receiver and the method's locals; its results are those of
`BuildSelect` as a function of the builder. -/
theorem C39_build_select_pure (b : Builder) :
    b.BuildSelectCall.2 = b ∧
    b.BuildSelectCall.2.dialect = b.dialect ∧ b.BuildSelectCall.2.table = b.table ∧
    b.BuildSelectCall.2.columns = b.columns ∧ b.BuildSelectCall.2.conditions = b.conditions ∧
    b.BuildSelectCall.2.orderBy = b.orderBy ∧ b.BuildSelectCall.2.limit = b.limit ∧
    b.BuildSelectCall.2.offset = b.offset ∧ b.BuildSelectCall.2.params = b.params ∧
    b.BuildSelectCall.2.joins = b.joins ∧ b.BuildSelectCall.2.groupBy = b.groupBy ∧
    b.BuildSelectCall.2.having = b.having ∧
    b.BuildSelectCall.2.BuildSelectCall.1.1 = b.BuildSelectCall.1.1 ∧
    b.BuildSelectCall.2.BuildSelectCall.1.2 = b.BuildSelectCall.1.2 ∧
    b.BuildSelectCall.1 = b.BuildSelect ∧
    b.BuildSelectCall.1.2 = b.params := by
  have h := BuildSelectCall_eq b
  have h2 : b.BuildSelectCall.2 = b := by rw [h]
  have h1 : b.BuildSelectCall.1 = b.BuildSelect := by rw [h]
  refine ⟨h2, ?_, ?_, ?_, ?_, ?_, ?_, ?_, ?_, ?_, ?_, ?_, ?_, ?_, h1, ?_⟩
  all_goals first
    | rw [h2]
    | (rw [h1]; rfl)

/-- C37 (refuted): for a string value the min rule compares the length of the string in
bytes with the length of the text `N`, not with the number it writes, and reports that
length: for every string and every rule value it fails exactly when the string is shorter
than the rule value's text. With the tests' tag `required,min=3` on `Name` the bound is 1:
the two-character name `Jo` is accepted, as is the one-character `J`, and for `min=3` alone
the empty name is rejected with `tamanho mínimo é 1`. -/
theorem C37_string_min_uses_text_length :
    (∀ (s min : String),
      Validator.validateMin (Value.str s) min =
        if s.utf8ByteSize < min.utf8ByteSize then
          some ("tamanho mínimo é " ++ toString min.utf8ByteSize)
        else none) ∧
    Validator.validateField "Name" (Value.str "Jo") "required,min=3" = none ∧
    Validator.validateField "Name" (Value.str "J") "required,min=3" = none ∧
    Validator.validateField "Name" (Value.str "Joe") "required,min=3" = none ∧
    Validator.validateField "Name" (Value.str "") "min=3" =
      some "Name: tamanho mínimo é 1" ∧
    NewValidator.Validate (User 0 "Jo" "john@example.com" 25 zeroTime) =
      Outcome.returned none ∧
    Validator.validateField "Name" (Value.str "abcdefghi") "min=10" = none := by
  refine ⟨fun s min => rfl, by decide, by decide, by decide, by decide, by decide, by decide⟩

theorem digit_toNat (c : Char) (h : '0' ≤ c ∧ c ≤ '9') : 48 ≤ c.toNat ∧ c.toNat ≤ 57 := by
  obtain ⟨h1, h2⟩ := h
  have a1 : ('0' : Char).val ≤ c.val := h1
  have a2 : c.val ≤ ('9' : Char).val := h2
  rw [UInt32.le_def] at a1 a2
  constructor
  · exact a1
  · exact a2

theorem digit_not_space (c : Char) (h : '0' ≤ c ∧ c ≤ '9') :
    c ≠ '\n' ∧ fmtIsSpace c = false ∧ c ≠ '+' ∧ c ≠ '-' ∧ c ≠ ',' ∧ c ≠ '=' := by
  obtain ⟨h1, h2⟩ := digit_toNat c h
  refine ⟨?_, ?_, ?_, ?_, ?_, ?_⟩
  · rintro rfl; revert h1; decide
  · simp only [fmtIsSpace, decide_eq_false_iff_not]
    omega
  · rintro rfl; revert h1; decide
  · rintro rfl; revert h1; decide
  · rintro rfl; revert h1; decide
  · rintro rfl; revert h2; decide

theorem digitsValue_eq_foldl (ds : List Char) (acc : Nat)
    (h : ∀ c ∈ ds, '0' ≤ c ∧ c ≤ '9') :
    digitsValue ds acc =
      some (ds.foldl (fun acc c => acc * 10 + (c.toNat - '0'.toNat)) acc) := by
  induction ds generalizing acc with
  | nil => rfl
  | cons c cs ih =>
    have hc := h c (List.mem_cons_self _ _)
    simp only [digitsValue, hc, and_self, if_true, List.foldl_cons]
    exact ih _ (fun d hd => h d (List.mem_cons_of_mem _ hd))

theorem digitsValue_some_digits (ds : List Char) (acc n : Nat)
    (h : digitsValue ds acc = some n) : ∀ c ∈ ds, '0' ≤ c ∧ c ≤ '9' := by
  induction ds generalizing acc with
  | nil => intro c hc; simp at hc
  | cons d ds ih =>
    unfold digitsValue at h
    split at h
    · rename_i hd
      intro c hc
      rcases List.mem_cons.mp hc with rfl | hc
      · exact hd
      · exact ih _ h c hc
    · simp at h

theorem takeWhile_digits (ds : List Char) (h : ∀ c ∈ ds, '0' ≤ c ∧ c ≤ '9') :
    ds.takeWhile (fun c => decide ('0' ≤ c ∧ c ≤ '9')) = ds := by
  rw [List.takeWhile_eq_self_iff]
  intro c hc
  simpa using h c hc

theorem scanSign_digit (d : Char) (ds : List Char) (h : '0' ≤ d ∧ d ≤ '9') :
    scanSign (d :: ds) = (false, d :: ds) := by
  have hd := digit_not_space d h
  unfold scanSign
  split
  · rename_i heq
    simp only [List.cons.injEq] at heq
    exact absurd heq.1 hd.2.2.1
  · rename_i heq
    simp only [List.cons.injEq] at heq
    exact absurd heq.1 hd.2.2.2.1
  · rfl

theorem parseInt_digits (ds : List Char) (d : Char) (neg : Bool)
    (h : ∀ c ∈ d :: ds, '0' ≤ c ∧ c ≤ '9') (n : Nat)
    (hn : digitsValue (d :: ds) 0 = some n)
    (hr : -(2 ^ 63) ≤ (if neg then -(n : Int) else (n : Int)) ∧
      (if neg then -(n : Int) else (n : Int)) < 2 ^ 63) :
    parseInt (String.mk (if neg then '-' :: d :: ds else d :: ds)) =
      if neg then -(n : Int) else (n : Int) := by
  have hd := digit_not_space d (h d (List.mem_cons_self _ _))
  have hfold : (d :: ds).foldl (fun acc c => acc * 10 + (c.toNat - '0'.toNat)) 0 = n := by
    have := digitsValue_eq_foldl (d :: ds) 0 h
    rw [hn] at this
    exact (Option.some.inj this).symm
  have htw := takeWhile_digits (d :: ds) h
  cases neg with
  | true =>
    have hsk : skipSpace ('-' :: d :: ds) = some ('-' :: d :: ds) := by
      simp [skipSpace, fmtIsSpace]
    have hsg : scanSign ('-' :: d :: ds) = (true, d :: ds) := rfl
    simp only [if_true, parseInt, hsk, hsg, htw, scanValue, hfold] at hr ⊢
    simp only [hr, and_self, if_true]
  | false =>
    have hsk : skipSpace (d :: ds) = some (d :: ds) := by
      simp [skipSpace, hd.1, hd.2.1]
    have hsg := scanSign_digit d ds (h d (List.mem_cons_self _ _))
    simp only [Bool.false_eq_true, if_false, parseInt, hsk, hsg, htw, scanValue, hfold] at hr ⊢
    simp only [hr, and_self, if_true]

/-- The number that `parseInt` reads from a decimal numeral within the 64-bit range is the
number the numeral denotes. -/
theorem parseInt_decimal (text : String) (N : Int) (h : decimalValue text = some N)
    (hr : -(2 ^ 63) ≤ N ∧ N < 2 ^ 63) : parseInt text = N := by
  obtain ⟨cs⟩ := text
  unfold decimalValue at h
  simp only at h
  split at h
  · simp at h
  · simp at h
  · rename_i d ds
    cases hv : digitsValue (d :: ds) 0 with
    | none => rw [hv] at h; simp at h
    | some n =>
      rw [hv] at h
      simp at h
      subst h
      have hdig := digitsValue_some_digits (d :: ds) 0 n hv
      have := parseInt_digits ds d true hdig n hv (by simpa using hr)
      simpa using this
  · rename_i d ds hne1 hne2
    cases hv : digitsValue (d :: ds) 0 with
    | none => rw [hv] at h; simp at h
    | some n =>
      rw [hv] at h
      simp at h
      subst h
      have hdig := digitsValue_some_digits (d :: ds) 0 n hv
      have := parseInt_digits ds d false hdig n hv (by simpa using hr)
      simpa using this

theorem decimalValue_chars (text : String) (N : Int) (h : decimalValue text = some N) :
    ∀ c ∈ text.data, c ≠ ',' ∧ c ≠ '=' := by
  obtain ⟨cs⟩ := text
  unfold decimalValue at h
  simp only at h
  have key : ∀ (ds : List Char) (n : Nat), digitsValue ds 0 = some n →
      ∀ c ∈ ds, c ≠ ',' ∧ c ≠ '=' := by
    intro ds n hv c hc
    have := digit_not_space c (digitsValue_some_digits ds 0 n hv c hc)
    exact ⟨this.2.2.2.2.1, this.2.2.2.2.2⟩
  split at h
  · simp at h
  · simp at h
  · rename_i d ds
    cases hv : digitsValue (d :: ds) 0 with
    | none => rw [hv] at h; simp at h
    | some n =>
      intro c hc
      rcases List.mem_cons.mp hc with rfl | hc
      · exact ⟨by decide, by decide⟩
      · exact key _ n hv c hc
  · rename_i d ds hne1 hne2
    cases hv : digitsValue (d :: ds) 0 with
    | none => rw [hv] at h; simp at h
    | some n => exact key _ n hv

theorem splitChars_of_not_mem (sep : Char) (cs : List Char) (h : ∀ c ∈ cs, c ≠ sep) :
    splitChars sep cs = [cs] := by
  induction cs with
  | nil => rfl
  | cons c cs ih =>
    have hc : c ≠ sep := h c (List.mem_cons_self _ _)
    simp only [splitChars, hc, if_false, ih (fun d hd => h d (List.mem_cons_of_mem _ hd))]

/-- The rule `min=<numeral>` on its own: the tag has one rule, whose name is `min` and whose
value is the numeral. -/
theorem validateField_min (field : String) (value : Value) (text : String) (N : Int)
    (h : decimalValue text = some N) :
    Validator.validateField field value ("min=" ++ text) =
      Validator.fieldError field (Validator.validateMin value text) := by
  have hch := decimalValue_chars text N h
  have h1 : stringsSplit ("min=" ++ text) ',' = ["min=" ++ text] := by
    unfold stringsSplit
    rw [splitChars_of_not_mem]
    · rfl
    · intro c hc
      simp only [String.data_append, List.mem_append] at hc
      rcases hc with hc | hc
      · revert c; decide
      · exact (hch c hc).1
  have h2 : stringsSplit ("min=" ++ text) '=' = ["min", text] := by
    unfold stringsSplit
    have : ("min=" ++ text).data = 'm' :: 'i' :: 'n' :: '=' :: text.data := by
      simp [String.data_append]
    rw [this]
    simp only [splitChars, splitChars_of_not_mem '=' text.data (fun c hc => (hch c hc).2)]
    simp
  simp only [Validator.validateField, h1, Validator.validateRules, Validator.validateRule, h2]
  simp
  cases Validator.fieldError field (Validator.validateMin value text) <;> rfl

theorem validateFields_cons_exported (v : Validator) (g : StructField)
    (rest : List StructField) (hg : g.IsExported = true) :
    v.validateFields (g :: rest) =
      match (if g.tagGet "validate" ≠ "" then
          Validator.validateField g.Name g.Value (g.tagGet "validate") else none) with
      | some err => Outcome.returned (some err)
      | none =>
        match Validator.customRules g.Name g.Value (v.rules g.Name) with
        | some err => Outcome.returned (some err)
        | none => v.validateFields rest := by
  rw [Validator.validateFields]
  simp only [hg, Bool.not_true, Bool.false_eq_true, and_false, if_false]

theorem validateFields_single (v : Validator) (f : StructField)
    (hexp : f.IsExported = true) (hv : v.rules f.Name = [])
    (hne : f.tagGet "validate" ≠ "") :
    v.validateFields [f] =
      Outcome.returned (Validator.validateField f.Name f.Value (f.tagGet "validate")) := by
  rw [validateFields_cons_exported v f [] hexp]
  simp only [hne, ne_eq, not_false_eq_true, if_true, hv, Validator.customRules,
    Validator.validateFields]
  cases Validator.validateField f.Name f.Value (f.tagGet "validate") <;> rfl

theorem Validate_oneField (v : Validator) (name typeText rules : String) (value : Value)
    (hv : v.rules name = []) (hne : rules ≠ "") :
    v.Validate (oneField name typeText rules value) =
      Outcome.returned (Validator.validateField name value rules) := by
  have ht : (StructField.mk name "" typeText [("validate", rules)] value).tagGet "validate" =
      rules := by
    simp [StructField.tagGet, List.lookup]
  have h := validateFields_single v (StructField.mk name "" typeText [("validate", rules)] value)
    rfl hv (by rw [ht]; exact hne)
  rw [ht] at h
  exact h

theorem min_error_text (name : String) (N : Int) :
    Validator.fieldError name (some ("valor mínimo é " ++ toString N)) =
      some (name ++ ": valor mínimo é " ++ toString N) := by
  have h : ": " ++ "valor mínimo é " = ": valor mínimo é " := by decide
  simp only [Validator.fieldError, String.append_assoc]
  rw [← String.append_assoc ": " "valor mínimo é " (toString N), h]

theorem min_tag_ne_empty (text : String) : "min=" ++ text ≠ "" := by
  intro h
  have := congrArg (fun s : String => s.data.length) h
  simp [String.data_append] at this

/-- C31 (as stated, refuted): a field of type `int32` tagged `min=18` and holding 16 passes
validation, the min rule testing values of kind `int` and `int64` only; and a field of type
`int` tagged `min=9223372036854775808` and holding 5 passes validation, the bound read from
a numeral outside the 64-bit range being 0. -/
theorem C31_min_not_enforced :
    NewValidator.Validate (oneField "Age" "int32" "min=18" (Value.int32 16)) =
      Outcome.returned none ∧
    decimalValue "18" = some 18 ∧
    NewValidator.Validate (oneField "Age" "int" "min=9223372036854775808" (Value.int 5)) =
      Outcome.returned none ∧
    decimalValue "9223372036854775808" = some (2 ^ 63) ∧
    parseInt "9223372036854775808" = 0 := by
  decide

/-- C31 (amended): for a field holding an `int` or `int64` and tagged `min=N`, with `N` a
decimal numeral within the 64-bit range and no other rule, the min rule fails exactly when
the value is less than `N`, with the error `<field>: valor mínimo é N`; so does `Validate`
on a struct with that one field and no custom rule for it. On the tests' `User`, tagged
`min=18`, an `Age` of 16 is rejected and an `Age` of 18 is accepted. -/
theorem C31_integer_min (v : Validator) (name typeText text : String) (N x : Int)
    (hN : decimalValue text = some N) (hr : -(2 ^ 63) ≤ N ∧ N < 2 ^ 63)
    (hv : v.rules name = []) :
    Validator.validateField name (Value.int x) ("min=" ++ text) =
      (if x < N then some (name ++ ": valor mínimo é " ++ toString N) else none) ∧
    v.Validate (oneField name typeText ("min=" ++ text) (Value.int x)) =
      (if x < N then Outcome.returned (some (name ++ ": valor mínimo é " ++ toString N))
        else Outcome.returned none) ∧
    (v.Validate (oneField name typeText ("min=" ++ text) (Value.int x)) ≠
        Outcome.returned none ↔ x < N) ∧
    NewValidator.Validate (User 0 "Test User" "test@example.com" 16 zeroTime) =
      Outcome.returned (some "Age: valor mínimo é 18") ∧
    NewValidator.Validate (User 0 "Test User" "test@example.com" 18 zeroTime) =
      Outcome.returned none := by
  have hp : parseInt text = N := parseInt_decimal text N hN hr
  have hf : Validator.validateField name (Value.int x) ("min=" ++ text) =
      (if x < N then some (name ++ ": valor mínimo é " ++ toString N) else none) := by
    rw [validateField_min name (Value.int x) text N hN]
    simp only [Validator.validateMin, hp]
    split
    · exact min_error_text name N
    · rfl
  have hV := Validate_oneField v name typeText ("min=" ++ text) (Value.int x) hv
    (min_tag_ne_empty text)
  refine ⟨hf, ?_, ?_, by decide, by decide⟩
  · rw [hV, hf]; split <;> rfl
  · rw [hV, hf]; split <;> simp [*]

/-- Witness for C31 (amended): the tag `min=18`, whose numeral denotes 18, on a field `Age`
holding 16 and holding 18. -/
theorem C31_integer_min_witness :
    (decimalValue "18" = some 18 ∧ (-(2 ^ 63) ≤ (18 : Int) ∧ (18 : Int) < 2 ^ 63) ∧
      NewValidator.rules "Age" = []) ∧
    NewValidator.Validate (oneField "Age" "int" ("min=" ++ "18") (Value.int 16)) =
      Outcome.returned (some ("Age" ++ ": valor mínimo é " ++ toString (18 : Int))) ∧
    NewValidator.Validate (oneField "Age" "int" ("min=" ++ "18") (Value.int 18)) =
      Outcome.returned none :=
  ⟨⟨by decide, by decide, rfl⟩,
    ((C31_integer_min NewValidator "Age" "int" "18" 18 16 (by decide) (by decide) rfl).2.1).trans
      (by decide),
    ((C31_integer_min NewValidator "Age" "int" "18" 18 18 (by decide) (by decide) rfl).2.1).trans
      (by decide)⟩

end Kiara
